import Mathlib

/-!
Shallow embedding of the archsim discrete-event simulator core
(src/archsim/core and src/archsim/resources) and proofs about the
spec's claims.  Python dictionaries are modelled as association lists
that preserve insertion order (matching CPython dict semantics), Python
`deque`s as Lean lists (popleft = head, append = tail), Python `int`s as
`Int` where a sign matters (byte counters, occupancy) and as `Nat` where
the source validates non-negativity (sizes, bandwidth, latency, ticks).
Python's `uuid4`-based fresh-id factories are modelled by threading an
explicit counter / explicit fresh-name parameters: the claims never
depend on the concrete spelling of a generated id.
-/

namespace ArchSim

/-- Ordered association list lookup (models Python `dict.get`). -/
def alGet {α β : Type} [DecidableEq α] (l : List (α × β)) (k : α) : Option β :=
  match l with
  | [] => none
  | (k', v) :: rest => if k' = k then some v else alGet rest k

/-- Ordered association list update: replaces in place if the key is
present (CPython keeps the original slot), appends otherwise. -/
def alSet {α β : Type} [DecidableEq α] (l : List (α × β)) (k : α) (v : β) :
    List (α × β) :=
  match l with
  | [] => [(k, v)]
  | (k', v') :: rest => if k' = k then (k', v) :: rest else (k', v') :: alSet rest k v

/-- Models `d.pop(k, None)`: removes the key if present. -/
def alErase {α β : Type} [DecidableEq α] (l : List (α × β)) (k : α) : List (α × β) :=
  match l with
  | [] => []
  | (k', v') :: rest => if k' = k then rest else (k', v') :: alErase rest k

/-- `inbox.setdefault(port, deque()).append(item)`: append `item` to the
queue stored at `k`, creating an empty queue first when absent. -/
def alPush {α β : Type} [DecidableEq α] (l : List (α × List β)) (k : α) (item : β) :
    List (α × List β) :=
  alSet l k ((alGet l k).getD [] ++ [item])

/-- `str(x)` applied to an optional string: `str(None)` is the string
`"None"`. -/
def pyStr (o : Option String) : String := o.getD "None"

/-- Python truthiness of an optional string: `None` and `""` are falsy. -/
def pyTruthy (o : Option String) : Bool :=
  match o with
  | none => false
  | some s => s ≠ ""

/-- Trigger table entry (`{"on": ..., "action": ..., "station": ..., "index": ...}`
from src/archsim/core/databuffer.py); each field is optional because the
Python side reads them with `dict.get`. -/
structure Trigger where
  states : Option String      -- the "on" key of the trigger dict
  action : Option String
  station : Option String
  index : Option Int
deriving DecidableEq

/-- Serialized form of a DataBuffer, the shape produced by
`DataBuffer.to_dict` (src/archsim/core/databuffer.py, lines 62-75):
every key is present; `content` may be `None` in general dicts. -/
structure BufDict where
  id : String
  size : Nat
  content : Option (List Nat)
  state : String
  owner_memory : Option String
  role : String
  destination_pe : Option String
  destination_queue : Option String
  bytes_received : Int
  bytes_sent : Int
  triggers : List Trigger
deriving DecidableEq

/-- src/archsim/core/databuffer.py `DataBuffer` dataclass.  `content` is
always a concrete byte string after `__post_init__`. -/
structure DataBuffer where
  id : String
  size : Nat
  content : List Nat
  state : String
  owner_memory : Option String
  role : String
  destination_pe : Option String
  destination_queue : Option String
  bytes_received : Int
  bytes_sent : Int
  triggers : List Trigger
deriving DecidableEq

/-- Construction of a fresh `DataBuffer(size=size, content=content, id=id)`:
dataclass defaults plus `__post_init__` content generation, where `gen`
stands for the `os.urandom`-generated bytes used when `content is None`.
(`__post_init__` raises when `size <= 0`; callers in scope are validated,
and the `size = 0` case is excluded by hypothesis where it matters.) -/
def DataBuffer.make (size : Nat) (content : Option (List Nat)) (id : String)
    (gen : List Nat) : DataBuffer :=
  { id := id
    size := size
    content := content.getD gen
    state := "allocated"
    owner_memory := none
    role := "source"
    destination_pe := none
    destination_queue := none
    bytes_received := 0
    bytes_sent := 0
    triggers := [] }

/-- `DataBuffer.to_dict` (databuffer.py lines 62-75). -/
def DataBuffer.to_dict (b : DataBuffer) : BufDict :=
  { id := b.id
    size := b.size
    content := some b.content
    state := b.state
    owner_memory := b.owner_memory
    role := b.role
    destination_pe := b.destination_pe
    destination_queue := b.destination_queue
    bytes_received := b.bytes_received
    bytes_sent := b.bytes_sent
    triggers := b.triggers }

/-- `DataBuffer.from_dict` (databuffer.py lines 77-100) applied to a dict
of the shape `to_dict` produces (all keys present, so every `if "..." in d`
branch is taken).  `fresh` models the uuid-based id minted by
`d.get("id") or f"buf-..."` when the stored id is falsy (the empty
string), `gen` models `os.urandom` content generation for `content=None`.
Returns `none` when the constructor would raise (`size <= 0`). -/
def DataBuffer.from_dict (d : BufDict) (fresh : String) (gen : List Nat) :
    Option DataBuffer :=
  if d.size = 0 then none else
  some
    { id := if d.id = "" then fresh else d.id
      size := d.size
      content := d.content.getD gen
      state := d.state
      owner_memory := d.owner_memory
      role := d.role
      destination_pe := d.destination_pe
      destination_queue := d.destination_queue
      bytes_received := d.bytes_received
      bytes_sent := d.bytes_sent
      triggers := d.triggers }

/-- `DataBuffer.buffering_size` (databuffer.py lines 102-104). -/
def DataBuffer.buffering_size (b : DataBuffer) : Int :=
  max 0 (b.bytes_received - b.bytes_sent)

/-- `DataBuffer.add_received` (databuffer.py lines 106-107). -/
def DataBuffer.add_received (b : DataBuffer) (amount : Int) : DataBuffer :=
  { b with bytes_received := min (b.size : Int) (max 0 (b.bytes_received + amount)) }

/-- `DataBuffer.add_sent` (databuffer.py lines 109-110). -/
def DataBuffer.add_sent (b : DataBuffer) (amount : Int) : DataBuffer :=
  { b with bytes_sent := min (b.size : Int) (max 0 (b.bytes_sent + amount)) }

/-- The message-size/byte-counter well-formedness chain claimed by the
spec for `DataBuffer`. -/
def DataBuffer.countersWF (b : DataBuffer) : Prop :=
  0 ≤ b.bytes_sent ∧ b.bytes_sent ≤ b.bytes_received ∧ b.bytes_received ≤ (b.size : Int)

instance (b : DataBuffer) : Decidable b.countersWF := by
  unfold DataBuffer.countersWF; infer_instance

/-- The value stored under the `"buffer"` key of a message payload: absent,
a live `DataBuffer` object, or a serialized dict (Memory.tick dispatches
on `isinstance`, memory.py lines 70-77). -/
inductive BufferField where
  | absent
  | live (b : DataBuffer)
  | dict (d : BufDict)
deriving DecidableEq

/-- The per-kind payload dictionary of a `Message`
(src/archsim/core/message.py); each key is optional because readers use
`payload.get`.  Only the keys read or written by the embedded components
are modelled. -/
structure Payload where
  index : Option Int := none
  buffer_id : Option String := none
  buffer : BufferField := .absent
  reply_to : Option String := none
  action : Option String := none
  value : Option Int := none
  state : Option String := none
  kindStr : Option String := none   -- the "kind" key of a resp payload
  rate : Option Int := none         -- the "rate" key of a PE command payload
deriving DecidableEq

def Payload.empty : Payload := {}

/-- src/archsim/core/message.py `Message` dataclass.  `__post_init__`
validates `size > 0`; `size : Nat` with the positivity hypothesis added
where a claim needs it. -/
structure Message where
  src : String
  dst : String
  size : Nat
  kind : String
  payload : Payload
  created_at : Nat
  id : String
  reply_to : Option String := none
deriving DecidableEq

/-- A queue element: resources exchange `Message`s, and
`BufferPool.tick` may append `self._buffers.get(bid)` (an
`Option DataBuffer`) onto a PE input queue (buffer_pool.py line 160). -/
inductive Item where
  | msg (m : Message)
  | buf (b : Option DataBuffer)
deriving DecidableEq

/-- `getattr(x, "size", d)` on a queue element: messages and data buffers
both expose `.size`; `None` falls back to the default. -/
def Item.sizeOr (i : Item) (d : Nat) : Nat :=
  match i with
  | .msg m => m.size
  | .buf (some b) => b.size
  | .buf none => d

/-- `getattr(x, "kind", "data")` on a queue element. -/
def Item.kind : Item → String
  | .msg m => m.kind
  | .buf _ => "data"

/-- `getattr(x, "payload", {}) or {}` on a queue element. -/
def Item.payload : Item → Payload
  | .msg m => m.payload
  | .buf _ => Payload.empty

/-- `x.src` on a queue element.  A `DataBuffer` has no `src` attribute (in
Python this access raises); no embedded theorem exercises that case, and
it is modelled by the empty string. -/
def Item.src : Item → String
  | .msg m => m.src
  | .buf _ => ""

/-- `x.id` on a queue element (messages and buffers both carry an id). -/
def Item.idOf : Item → String
  | .msg m => m.id
  | .buf (some b) => b.id
  | .buf none => ""

/-- src/archsim/metrics.py `Metrics` record (fields used by the core). -/
structure Metrics where
  ticks : Nat := 0
  messages_delivered : Nat := 0
  bytes_transferred : Nat := 0
deriving DecidableEq

/-- Mutable state of a `Channel` (src/archsim/core/channel.py) beyond its
port queues.  The constructor validates `bandwidth > 0`, `latency >= 0`
and the transfer mode; `bandwidth`, `latency : Nat` with positivity taken
as hypothesis where needed. -/
structure ChanCore where
  bandwidth : Nat
  latency : Nat
  transfer_mode : String
  ticks : Nat := 0            -- _ticks
  busy_ticks : Nat := 0       -- _busy_ticks
  active_count : Nat := 0     -- _active_count
  last_finalized : Int := -1  -- _last_finalized_tick
  backpressured : Bool := false
deriving DecidableEq

/-- `Channel.current_bandwidth` (channel.py lines 55-57). -/
def ChanCore.current_bandwidth (c : ChanCore) : Nat :=
  if c.backpressured then 0 else c.bandwidth

/-- `Channel.estimate_ticks` (channel.py lines 39-45).  `math.ceil(max(1,
size) / bw)` on non-negative integers is ceiling division, written
`(max 1 size + bw - 1) / bw`; `max(0, self.latency)` is the identity on
`Nat`. -/
def ChanCore.estimate_ticks (c : ChanCore) (size : Nat) : Nat :=
  let bw := c.current_bandwidth
  if bw = 0 then 10 ^ 9
  else c.latency + (max 1 size + bw - 1) / bw

/-- `Channel.set_backpressure` (channel.py lines 59-60). -/
def ChanCore.set_backpressure (c : ChanCore) (flag : Bool) : ChanCore :=
  { c with backpressured := flag }

/-- `Channel.set_active_state` (channel.py lines 63-65); `max(0, int(n))`
is the identity on `Nat`. -/
def ChanCore.set_active_state (c : ChanCore) (active_count : Nat) : ChanCore :=
  { c with active_count := active_count }

/-- `Channel.finalize_tick` (channel.py lines 75-81). -/
def ChanCore.finalize_tick (c : ChanCore) (simTicks : Nat) : ChanCore :=
  if c.last_finalized = (simTicks : Int) then c
  else { c with
          ticks := c.ticks + 1
          busy_ticks := if 0 < c.active_count then c.busy_ticks + 1 else c.busy_ticks
          last_finalized := (simTicks : Int) }

/-- Mutable state of a `Memory` (src/archsim/resources/memory.py) beyond
its port queues.  `_inbound_channels` holds channel object references in
Python; the embedding stores resource names, faithful because every
registered inbound channel is a topology resource. -/
structure MemCore where
  latency : Nat
  max_issue_per_tick : Nat
  size_limit : Int
  fill_rate : Int
  drain_rate : Int
  inflight : List (Nat × Message) := []     -- _inflight: (ready_tick, msg)
  bytes_current : Int := 0
  bytes_in_tick : Nat := 0                  -- _bytes_in_tick
  bytes_out_tick : Nat := 0                 -- _bytes_out_tick
  backpressured : Bool := false
  inbound_channels : List String := []
deriving DecidableEq

/-- Mutable state of a `SemaphoreStation`
(src/archsim/resources/semaphore.py): per-index counters and FIFO waiter
queues of `(dst, reply_to)` pairs. -/
structure SemCore where
  count : Nat
  values : List Int
  waiters : List (List (String × String))
deriving DecidableEq

/-- `SemaphoreStation.__init__` counter/waiter state (semaphore.py lines
36-38). -/
def SemCore.init (count : Nat) : SemCore :=
  { count := count
    values := List.replicate count 0
    waiters := List.replicate count [] }

/-- The semaphore-station invariant claimed by the spec: per-index
counters are non-negative and a positive counter has no queued waiters
(plus the representation fact that both arrays have `count` entries). -/
def SemCore.Inv (s : SemCore) : Prop :=
  s.values.length = s.count ∧ s.waiters.length = s.count
  ∧ (∀ i, 0 ≤ s.values.getD i 0)
  ∧ (∀ i, 0 < s.values.getD i 0 → s.waiters.getD i [] = [])

/-- Mutable state of a `BufferGenerator`
(src/archsim/resources/generator.py) beyond its port queues.  The
constructor clamps `period = max(1, period)` and
`start_tick = max(0, start_tick)`; `_next_tick` starts at `start_tick`.
`auto_consume_after` is applied through `max(0, ...)` at use, modelled
by `Nat`. -/
structure GenCore where
  period : Nat := 10
  buffer_size : Nat := 4096
  target_memory : String := "memory"
  start_tick : Nat := 0
  total : Option Nat := none
  triggers : List Trigger := []
  auto_consume_after : Option Nat := none
  next_tick : Nat := 0                        -- _next_tick
  produced : Nat := 0                         -- _produced
  consume_queue : List (Nat × String) := []   -- _consume_queue: (due_tick, buffer_id)
deriving DecidableEq

/-- `self.total is not None and self._produced >= self.total`
(generator.py line 57). -/
def GenCore.quotaDone (g : GenCore) : Bool :=
  match g.total with
  | some t => decide (t ≤ g.produced)
  | none => false

/-- Mutable state of a `SemaphoreClient`
(src/archsim/resources/semaphore_client.py); `_next` starts at
`start_tick` and becomes `None` after the single shot when no period is
configured. -/
structure SemClientCore where
  station : String
  index : Int
  start_tick : Nat := 0
  period : Option Nat := none
  next : Option Nat := none                   -- _next
  granted : Nat := 0
deriving DecidableEq

/-- Mutable state of a `SemaphoreRecorder`
(src/archsim/resources/semaphore_recorder.py). -/
structure SemRecorderCore where
  station : String
  index : Int
  start_tick : Nat := 0
  armed : Bool := false                       -- _armed
  grants : List Nat := []
deriving DecidableEq

/-- Mutable state of a `BufferProducer`
(src/archsim/resources/buffer_io.py lines 8-37). -/
structure BufProducerCore where
  buffer : DataBuffer
  target_memory : String := "memory"
  issue_tick : Nat := 0
  sent : Bool := false                        -- _sent
deriving DecidableEq

/-- Mutable state of a `BufferConsumer`
(src/archsim/resources/buffer_io.py lines 40-71). -/
structure BufConsumerCore where
  buffer_id : String
  target_memory : String := "memory"
  consume_tick : Nat := 10
  issued : Bool := false                      -- _issued
deriving DecidableEq

/-- Mutable state of a `ComputeUnit` (src/archsim/resources/compute.py).
`ComputeUnit` subclasses `ProcessingElement` but overrides `tick`
entirely; of the inherited PE state only the busy/idle accounting
(read by the inherited `finalize_tick`) is live, so it is carried here.
The constructor aliases ports `in`/`in0` and `out`/`out0` to the same
deques; the embedding keeps the canonical `in0`/`out0` names that
`tick` reads (concrete compute resources in this file carry only those
ports, where the alias is the identity). -/
structure ComputeCore where
  total_requests : Nat := 100
  request_size : Nat := 64
  issue_interval : Nat := 1
  request_kind : String := "read"
  issued : Nat := 0                           -- _issued
  received : Nat := 0                         -- _received
  last_issue_tick : Int := -(10 ^ 9)          -- _last_issue_tick
  produce_buffers : Bool := false
  buffer_size : Nat := 1024
  buffer_dest : String := "memory"
  consume_after : Option Nat := none
  consume_queue : List (Nat × String) := []   -- _consume_queue
  busy_this_tick : Bool := false              -- _busy_this_tick (finalize accounting)
  ticksCnt : Nat := 0                         -- _ticks
  busy_ticks : Nat := 0                       -- _busy_ticks
deriving DecidableEq

/-- One entry of a PE's `_current_inputs` list
(`{"buf": item, "remaining": n}`, pe.py line 163). -/
structure PESlot where
  buf : Item
  remaining : Nat
deriving DecidableEq

/-- Mutable state of a `ProcessingElement` (src/archsim/resources/pe.py)
beyond its port queues.  `process_fn` is never invoked by `tick` and is
not carried.  `rand` holds the pre-drawn outcomes of the successive
`random.random() < p` comparisons (`_simulate_backpressure`,
`_relieve_backpressure`), one entry consumed per draw; an exhausted
stream reads as `false` (a draw at or above the threshold).
`_queues_registered` guards a one-time registration of the queue
objects in the topology's passive visualization registry, which no tick
path reads; the flag is embedded, the registry is not. -/
structure PECore where
  mode : String := "dummy"
  in_names : List String := ["in0", "in1"]
  out_names : List String := ["out0"]
  ratio_in : Nat := 2                         -- in_out_ratio[0]
  ratio_out : Nat := 1                        -- in_out_ratio[1]
  output_target : Option String := none
  state : String := "idle"
  current_cmd : Option Item := none           -- _current_cmd
  current_inputs : List PESlot := []          -- _current_inputs
  consume_rate : Nat := 0                     -- _consume_rate
  output_progress : Nat := 0                  -- _output_progress
  expected_output_size : Nat := 0             -- _expected_output_size
  busy_this_tick : Bool := false              -- _busy_this_tick
  ticksCnt : Nat := 0                         -- _ticks
  busy_ticks : Nat := 0                       -- _busy_ticks
  queues_registered : Bool := false           -- _queues_registered
  rand : List Bool := []
deriving DecidableEq

/-- Mutable state of a `Bus` (src/archsim/resources/bus.py) beyond its
port queues. -/
structure BusCore where
  bandwidth : Nat := 16
  rr_order : List String := []                -- _rr_order
  last_idx : Nat := 0                         -- _last_idx (getattr default 0)
deriving DecidableEq

/-- Mutable state of a `ReadBus`
(src/archsim/resources/read_write_bus.py lines 9-135) beyond its port
queues: the internal request/response pipelines (each constructed with
`max(1, latency)` stages) and the round-robin requester registry. -/
structure ReadBusCore where
  read_request_latency : Nat := 5
  data_response_latency : Nat := 5
  data_response_bandwidth : Nat := 128
  requesters : List String := []              -- _requesters
  rr_idx : Nat := 0                           -- _rr_idx
  req_pipeline : List (List Item) := [[]]     -- _req_pipeline
  resp_pipeline : List (List Item) := [[]]    -- _resp_pipeline
deriving DecidableEq

/-- Mutable state of a `WriteBus`
(src/archsim/resources/read_write_bus.py lines 138-256). -/
structure WriteBusCore where
  write_request_latency : Nat := 5
  write_bandwidth : Nat := 128
  write_response_latency : Nat := 5
  writers : List String := []                 -- _writers
  rr_idx : Nat := 0                           -- _rr_idx
  req_pipeline : List (List Item) := [[]]     -- _req_pipeline
  resp_pipeline : List (List Item) := [[]]    -- _resp_pipeline
deriving DecidableEq

/-- An entry of an arbiter's interleaving active-transfer set
(src/archsim/resources/arbiter.py lines 120-129). -/
structure ActiveEntry where
  port : String
  buf_id : Option String
  total : Nat
  progressed : Nat
  start : Nat
  last_update : Nat
  per_share_bw : Nat
  expected : Nat
deriving DecidableEq

/-- Mutable state of a topology-wired `Arbiter`
(src/archsim/resources/arbiter.py) beyond its port queues.
`_downstream` holds a `Channel` object reference in Python; the
embedding stores the resource name, faithful because the reference set
by `set_downstream_channel` is a topology channel. -/
structure ArbState where
  mode : String := "shared"
  inputs : List String := []                  -- _inputs
  rr_index : Nat := 0                         -- _rr_index
  active_port : Option String := none         -- _active_port
  downstream : Option String := none          -- _downstream, by name
  available_from : Nat := 0                   -- _available_from
  inflight_by_port : List (String × Option String) := []
  active : List ActiveEntry := []             -- _active
deriving DecidableEq

/-- The `Resource` subclasses beyond the claim-central three kinds; every
`tick` hook in src/archsim/resources is dispatched by the embedded
`Simulator.tick` through these constructors. -/
inductive OtherCore where
  | generator (g : GenCore)
  | semClient (c : SemClientCore)
  | semRecorder (rc : SemRecorderCore)
  | bufProducer (p : BufProducerCore)
  | bufConsumer (c : BufConsumerCore)
  | compute (c : ComputeCore)
  | pe (p : PECore)
  | bus (b : BusCore)
  | readBus (b : ReadBusCore)
  | writeBus (b : WriteBusCore)
  | arbiter (a : ArbState)
deriving DecidableEq

/-- Kind-specific state of an embedded resource: one constructor per
`Resource` subclass in the repository.  The claim-central kinds
(memories, channels, semaphore stations) keep their own constructors;
the remaining subclasses are grouped under `other`. -/
inductive RCore where
  | memory (m : MemCore)
  | channel (c : ChanCore)
  | semaphore (s : SemCore)
  | other (o : OtherCore)
deriving DecidableEq

/-- src/archsim/core/resource.py `Resource`: port-keyed in/out queues
plus the kind-specific state. -/
structure Res where
  inbox : List (String × List Item) := []
  outbox : List (String × List Item) := []
  core : RCore
deriving DecidableEq

/-- `Resource.in_queue(port).append(msg)`: the effect of
`Simulator.deliver` on one resource (resource.py lines 42-43,
simulator.py lines 19-20). -/
def Res.deliver (r : Res) (port : String) (item : Item) : Res :=
  { r with inbox := alPush r.inbox port item }

/-- `Resource.send` (resource.py lines 36-37). -/
def Res.send (r : Res) (port : String) (item : Item) : Res :=
  { r with outbox := alPush r.outbox port item }

/-- src/archsim/core/link.py `Link`: constructor validates
`bandwidth > 0` and `latency >= 0`; the pipeline has `max(1, latency)`
stages.  Source/destination resources are stored by name (Python holds
object references into the topology). -/
structure Link where
  src : String
  src_port : String
  dst : String
  dst_port : String
  bandwidth : Nat
  latency : Nat
  pipeline : List (List Item)
  bytes_moved_this_tick : Nat := 0
  utilization_sum : Nat := 0
  ticks : Nat := 0
deriving DecidableEq

/-- A `_transfer_meta` entry of the buffer pool (buffer_pool.py lines
189-193); fields optional because readers use `dict.get`. -/
structure Meta where
  source_id : Option String := none
  destination_pe : Option String := none
  destination_queue : Option String := none
deriving DecidableEq

/-- src/archsim/core/buffer_pool.py `BufferPool` registries. -/
structure Pool where
  buffers : List (String × DataBuffer) := []
  owner_of : List (String × Option String) := []
  owned_by : List (Option String × List String) := []
  triggers : List (String × List Trigger) := []
  expected_arrival : List (String × Nat) := []
  transfer_meta : List (String × Meta) := []
deriving DecidableEq

/-- src/archsim/core/simulator.py `Simulator` together with its topology
(resource registry + links), metrics and buffer pool.  `next_id` threads
the uuid-based fresh-id factory for messages/buffers created during a
tick. -/
structure Sim where
  resources : List (String × Res) := []
  links : List Link := []
  ticks : Nat := 0
  metrics : Metrics := {}
  pool : Pool := {}
  next_id : Nat := 0
deriving DecidableEq

/-- `Simulator.deliver(resource, port, msg)` where the resource is named
`rname` in the topology (Python passes the object; every delivered-to
resource is registered). -/
def Sim.deliver (sim : Sim) (rname : String) (port : String) (item : Item) : Sim :=
  match alGet sim.resources rname with
  | none => sim
  | some r => { sim with resources := alSet sim.resources rname (r.deliver port item) }

/-- Mint a fresh message id (models the `uuid4`-based default factory of
`Message.id`). -/
def Sim.freshMsgId (sim : Sim) : String × Sim :=
  ("msg-" ++ toString sim.next_id, { sim with next_id := sim.next_id + 1 })

/-- Mint a fresh buffer id (models the `uuid4`-based default factory of
`DataBuffer.id`). -/
def Sim.freshBufId (sim : Sim) : String × Sim :=
  ("buf-" ++ toString sim.next_id, { sim with next_id := sim.next_id + 1 })

/-- `BufferPool.exists` (buffer_pool.py lines 44-45). -/
def Pool.existsId (p : Pool) (buffer_id : String) : Bool :=
  (alGet p.buffers buffer_id).isSome

/-- `BufferPool.owner` (buffer_pool.py lines 47-48): `dict.get` returns
`None` both for a missing key and for a stored `None` owner. -/
def Pool.ownerOf (p : Pool) (buffer_id : String) : Option String :=
  (alGet p.owner_of buffer_id).getD none

/-- `BufferPool.set_owner` (buffer_pool.py lines 50-59). -/
def Pool.set_owner (p : Pool) (buffer_id : String) (owner : Option String) : Pool :=
  let prev := p.ownerOf buffer_id
  if prev = owner ∧ (alGet p.buffers buffer_id).isSome then p
  else
    let ownedBy :=
      match alGet p.owned_by prev with
      | some s => alSet p.owned_by prev (s.filter (· ≠ buffer_id))
      | none => p.owned_by
    let cur := (alGet ownedBy owner).getD []
    let ownedBy := alSet ownedBy owner (if buffer_id ∈ cur then cur else cur ++ [buffer_id])
    { p with owner_of := alSet p.owner_of buffer_id owner, owned_by := ownedBy }

/-- `BufferPool.register` (buffer_pool.py lines 28-35).  The final
`buffer.owner_memory = owner` mutates the registered object in place; the
embedding updates the stored buffer, which coincides with the Python
behaviour whenever the stored object is the argument itself (always the
case for the registrations performed by the embedded components). -/
def Pool.register (p : Pool) (buffer : DataBuffer) (owner : Option String) : Pool :=
  let p1 := if (alGet p.buffers buffer.id).isSome then p
            else { p with buffers := alSet p.buffers buffer.id buffer }
  let p2 := p1.set_owner buffer.id owner
  if pyTruthy owner then
    match alGet p2.buffers buffer.id with
    | some stored =>
        { p2 with buffers := alSet p2.buffers buffer.id { stored with owner_memory := owner } }
    | none => p2
  else p2

/-- `BufferPool.transfer` (buffer_pool.py lines 61-64); `none` models the
`KeyError` raised for an unknown id. -/
def Pool.transferOwner (p : Pool) (buffer_id : String) (new_owner : Option String) :
    Option Pool :=
  if (alGet p.buffers buffer_id).isSome then some (p.set_owner buffer_id new_owner)
  else none

/-- `BufferPool.delete` (buffer_pool.py lines 66-76); returns the removed
buffer together with the updated pool. -/
def Pool.delete (p : Pool) (buffer_id : String) : Option DataBuffer × Pool :=
  match alGet p.buffers buffer_id with
  | none => (none, p)
  | some buf =>
    let owner := p.ownerOf buffer_id
    let ownedBy :=
      match alGet p.owned_by owner with
      | some s => alSet p.owned_by owner (s.filter (· ≠ buffer_id))
      | none => p.owned_by
    (some buf,
      { p with
          buffers := alErase p.buffers buffer_id
          owner_of := alErase p.owner_of buffer_id
          owned_by := ownedBy
          triggers := alErase p.triggers buffer_id
          expected_arrival := alErase p.expected_arrival buffer_id
          transfer_meta := alErase p.transfer_meta buffer_id })

/-- `BufferPool.bytes_owned` (buffer_pool.py lines 79-85). -/
def Pool.bytes_owned (p : Pool) (owner : Option String) : Nat :=
  ((alGet p.owned_by owner).getD []).foldl
    (fun total bid =>
      match alGet p.buffers bid with
      | some b => total + b.size
      | none => total) 0

/-- `BufferPool.set_triggers` (buffer_pool.py lines 91-92). -/
def Pool.set_triggers (p : Pool) (buffer_id : String) (trigs : List Trigger) : Pool :=
  { p with triggers := alSet p.triggers buffer_id trigs }

/-- `BufferPool.add_trigger` (buffer_pool.py lines 94-95). -/
def Pool.add_trigger (p : Pool) (buffer_id : String) (trig : Trigger) : Pool :=
  { p with triggers := alPush p.triggers buffer_id trig }

/-- `BufferPool.record_expected_arrival` (buffer_pool.py lines 138-139). -/
def Pool.record_expected_arrival (p : Pool) (buffer_id : String) (tick : Nat) : Pool :=
  { p with expected_arrival := alSet p.expected_arrival buffer_id tick }

/-- The trigger-firing loop of `BufferPool.set_state` (buffer_pool.py
lines 113-135).  `str(trig.get("on")) != state` skips a non-matching
trigger; a missing `index` makes `int(trig.get("index"))` raise, which
the `except` clause turns into a silent skip; an unresolved station is
skipped; otherwise a `sem_signal` (for action `"signal"`) or `sem_wait`
(for any other action string, including `str(None)` for a missing one)
message is delivered to the station's `in` port. -/
def Sim.fireTriggers (sim : Sim) (trigs : List Trigger) (buffer_id state : String) : Sim :=
  match trigs with
  | [] => sim
  | trig :: rest =>
    let sim' :=
      if pyStr trig.states ≠ state then sim
      else
        match trig.index with
        | none => sim
        | some index =>
          let action := pyStr trig.action
          let station := pyStr trig.station
          match alGet sim.resources station with
          | none => sim
          | some _ =>
            let kind := if action = "signal" then "sem_signal" else "sem_wait"
            let (mid, sim1) := sim.freshMsgId
            let msg : Message :=
              { src := "buffer_pool", dst := station, size := 1, kind := kind
                payload := { index := some index, buffer_id := some buffer_id,
                             state := some state }
                created_at := sim1.ticks, id := mid }
            sim1.deliver station "in" (.msg msg)
    Sim.fireTriggers sim' rest buffer_id state

/-- `BufferPool.set_state` (buffer_pool.py lines 97-135): write the state
onto the stored buffer, then fire the union of the pool-registered and
buffer-attached triggers (`sim` is never `None` in the embedded calls;
`if not trig_list: return` coincides with folding over the empty
list). -/
def Pool.set_state (sim : Sim) (buffer_id : String) (state : String) : Sim :=
  match alGet sim.pool.buffers buffer_id with
  | none => sim
  | some buf =>
    let buf' := { buf with state := state }
    let sim1 :=
      { sim with pool := { sim.pool with buffers := alSet sim.pool.buffers buffer_id buf' } }
    let trig_list := ((alGet sim1.pool.triggers buffer_id).getD []) ++ buf'.triggers
    Sim.fireTriggers sim1 trig_list buffer_id state

/-- `BufferPool.schedule_transfer` (buffer_pool.py lines 166-194). -/
def Pool.schedule_transfer (sim : Sim) (src_buffer_id : String) (dst_memory : String)
    (dst_pe : Option String) (dst_queue : String) : Sim × Option DataBuffer :=
  match alGet sim.pool.buffers src_buffer_id with
  | none => (sim, none)
  | some src =>
    let (bid, sim1) := sim.freshBufId
    let dest : DataBuffer :=
      { id := bid, size := src.size, content := src.content, state := "allocated"
        owner_memory := some dst_memory, role := "destination"
        destination_pe := dst_pe, destination_queue := some dst_queue
        bytes_received := 0, bytes_sent := 0, triggers := [] }
    let sim2 := { sim1 with pool := sim1.pool.register dest (some dst_memory) }
    let sim3 := Pool.set_state sim2 src_buffer_id "transit"
    let sim4 := Pool.set_state sim3 dest.id "transit"
    let meta : Meta :=
      { source_id := some src_buffer_id, destination_pe := dst_pe,
        destination_queue := some dst_queue }
    let tm := alSet sim4.pool.transfer_meta dest.id meta
    let sim5 := { sim4 with pool := { sim4.pool with transfer_meta := tm } }
    (sim5, some dest)

/-- Body of the per-arrival loop of `BufferPool.tick` (buffer_pool.py
lines 144-163). -/
def Pool.tickOne (sim : Sim) (bid : String) : Sim :=
  let meta := (alGet sim.pool.transfer_meta bid).getD {}
  let dest_queue := meta.destination_queue.getD "in0"
  let sim1 := Pool.set_state sim bid "arrived"
  let sim2 :=
    match meta.source_id with
    | some s =>
      if s ≠ "" ∧ (alGet sim1.pool.buffers s).isSome then
        let sim' := Pool.set_state sim1 s "deallocated"
        { sim' with pool := (sim'.pool.delete s).2 }
      else sim1
    | none => sim1
  let sim3 :=
    if pyTruthy meta.destination_pe then
      let pe_name := meta.destination_pe.getD ""
      match alGet sim2.resources pe_name with
      | some pe =>
        let pe' := pe.deliver dest_queue (.buf (alGet sim2.pool.buffers bid))
        { sim2 with resources := alSet sim2.resources pe_name pe' }
      | none => sim2
    else sim2
  let ea := alErase sim3.pool.expected_arrival bid
  { sim3 with pool := { sim3.pool with expected_arrival := ea } }

/-- `BufferPool.tick` (buffer_pool.py lines 141-163): collect the due
arrivals, then process each. -/
def Pool.tick (sim : Sim) : Sim :=
  let due := (sim.pool.expected_arrival.filter (fun e => e.2 ≤ sim.ticks)).map (·.1)
  due.foldl Pool.tickOne sim

/-- Update the resource stored under `name`. -/
def Sim.setRes (sim : Sim) (name : String) (r : Res) : Sim :=
  { sim with resources := alSet sim.resources name r }

/-- Read the `MemCore` of the resource stored under `name`, when it is a
memory. -/
def Sim.memCoreOf (sim : Sim) (name : String) : Option MemCore :=
  match alGet sim.resources name with
  | some r =>
    match r.core with
    | .memory m => some m
    | _ => none
  | none => none

/-- Read the `ChanCore` of the resource stored under `name`, when it is a
channel. -/
def Sim.chanCoreOf (sim : Sim) (name : String) : Option ChanCore :=
  match alGet sim.resources name with
  | some r =>
    match r.core with
    | .channel c => some c
    | _ => none
  | none => none

/-- The part of a memory's state that the occupancy update reads and that
the issue/emit loops leave untouched: the configured limits and rates,
the registered inbound channels and the current occupancy. -/
def MemCore.occState (m : MemCore) : Int × Int × Int × List String × Int :=
  (m.size_limit, m.fill_rate, m.drain_rate, m.inbound_channels, m.bytes_current)

/-- `SemaphoreStation._handle_signal` together with the `_grant_waiter`
call it makes (semaphore.py lines 47-76), for a validated index.
Returns the updated counters/waiters, the emitted messages in `send`
order, and the advanced fresh-id counter. -/
def SemCore.handle_signal (s : SemCore) (name : String) (idx : Nat) (req : Item)
    (ticks nid : Nat) : SemCore × List Item × Nat :=
  match (s.waiters.getD idx []) with
  | (dst, reply_to) :: restW =>
    let s' := { s with waiters := s.waiters.set idx restW }
    let grant : Message :=
      { src := name, dst := dst, size := 1, kind := "sem_granted"
        payload := { index := some (idx : Int), reply_to := some reply_to }
        created_at := ticks, id := "msg-" ++ toString nid }
    let ack : Message :=
      { src := name, dst := req.src, size := 1, kind := "sem_ack"
        payload := { index := some (idx : Int), action := some "signal",
                     value := some (s'.values.getD idx 0), reply_to := some req.idOf }
        created_at := ticks, id := "msg-" ++ toString (nid + 1) }
    (s', [.msg grant, .msg ack], nid + 2)
  | [] =>
    let s' := { s with values := s.values.set idx (s.values.getD idx 0 + 1) }
    let ack : Message :=
      { src := name, dst := req.src, size := 1, kind := "sem_ack"
        payload := { index := some (idx : Int), action := some "signal",
                     value := some (s'.values.getD idx 0), reply_to := some req.idOf }
        created_at := ticks, id := "msg-" ++ toString nid }
    (s', [.msg ack], nid + 1)

/-- `SemaphoreStation._handle_wait` (semaphore.py lines 78-113), for a
validated index. -/
def SemCore.handle_wait (s : SemCore) (name : String) (idx : Nat) (req : Item)
    (ticks nid : Nat) : SemCore × List Item × Nat :=
  if 0 < s.values.getD idx 0 then
    let s' := { s with values := s.values.set idx (s.values.getD idx 0 - 1) }
    let grant : Message :=
      { src := name, dst := req.src, size := 1, kind := "sem_granted"
        payload := { index := some (idx : Int), reply_to := some req.idOf }
        created_at := ticks, id := "msg-" ++ toString nid }
    let ack : Message :=
      { src := name, dst := req.src, size := 1, kind := "sem_ack"
        payload := { index := some (idx : Int), action := some "wait_immediate",
                     value := some (s'.values.getD idx 0), reply_to := some req.idOf }
        created_at := ticks, id := "msg-" ++ toString (nid + 1) }
    (s', [.msg grant, .msg ack], nid + 2)
  else
    let s' := { s with waiters := s.waiters.set idx (s.waiters.getD idx [] ++ [(req.src, req.idOf)]) }
    let ack : Message :=
      { src := name, dst := req.src, size := 1, kind := "sem_ack"
        payload := { index := some (idx : Int), action := some "wait_enqueued",
                     value := some (s'.values.getD idx 0), reply_to := some req.idOf }
        created_at := ticks, id := "msg-" ++ toString nid }
    (s', [.msg ack], nid + 1)

/-- The drain loop of `SemaphoreStation.tick` (semaphore.py lines
115-134): pop each request, read `int(payload.get("index", -1))`,
validate it against `[0, count)` (an invalid index is silently dropped),
then dispatch on the message kind; unknown kinds are ignored. -/
def SemCore.tickLoop (s : SemCore) (name : String) (ticks : Nat) (inq : List Item)
    (out : List Item) (nid : Nat) : SemCore × List Item × Nat :=
  match inq with
  | [] => (s, out, nid)
  | req :: rest =>
    let idx : Int := req.payload.index.getD (-1)
    if 0 ≤ idx ∧ idx < (s.count : Int) then
      let i := idx.toNat
      if req.kind = "sem_signal" then
        let (s', msgs, nid') := s.handle_signal name i req ticks nid
        SemCore.tickLoop s' name ticks rest (out ++ msgs) nid'
      else if req.kind = "sem_wait" then
        let (s', msgs, nid') := s.handle_wait name i req ticks nid
        SemCore.tickLoop s' name ticks rest (out ++ msgs) nid'
      else
        SemCore.tickLoop s name ticks rest out nid
    else
      SemCore.tickLoop s name ticks rest out nid

/-- `SemaphoreStation.tick` (semaphore.py lines 115-134) lifted to the
simulator state: drain the `in` queue, append every emitted message to
the `out` queue. -/
def SemaphoreStation.tick (sim : Sim) (name : String) : Sim :=
  match alGet sim.resources name with
  | some r =>
    match r.core with
    | .semaphore s =>
      match alGet r.inbox "in" with
      | none => sim   -- `self.inbox["in"]` raises for a station without the port; unreached for constructed stations
      | some inq =>
      let (s', outAdd, nid') := s.tickLoop name sim.ticks inq [] sim.next_id
      let r' : Res :=
        { inbox := alSet r.inbox "in" []
          outbox := outAdd.foldl (fun ob it => alPush ob "out" it) r.outbox
          core := .semaphore s' }
      { (sim.setRes name r') with next_id := nid' }
    | _ => sim
  | none => sim

/-- `Channel.tick` (channel.py lines 68-72): pass everything from the
`in` queue through to the `out` queue. -/
def Channel.tick (sim : Sim) (name : String) : Sim :=
  match alGet sim.resources name with
  | some r =>
    match alGet r.inbox "in" with
    | some inq =>
      let r' : Res :=
        { r with
            inbox := alSet r.inbox "in" []
            outbox := inq.foldl (fun ob it => alPush ob "out" it) r.outbox }
      sim.setRes name r'
    | none => sim
  | none => sim

/-- Memory request dispatch: the body of one iteration of the issue loop
of `Memory.tick` (memory.py lines 62-130), after the head request has
been popped and its size added to `_bytes_in_tick`. -/
def Memory.issueOne (sim : Sim) (name : String) (latency : Nat) (req : Item) : Sim :=
  if req.kind = "buffer_transfer" then
    let (buf, sim1) :=
      match req.payload.buffer with
      | .live b => (b, sim)
      | .dict d =>
        let (bid, sim') := sim.freshBufId
        match DataBuffer.from_dict d bid [] with
        | some b => (b, sim')
        | none => (DataBuffer.make 1 none bid [], sim')
      | .absent =>
        let (bid, sim') := sim.freshBufId
        (DataBuffer.make (req.sizeOr 1) none bid [], sim')
    let sim2 :=
      if sim1.pool.existsId buf.id then
        { sim1 with pool := (sim1.pool.transferOwner buf.id (some name)).getD sim1.pool }
      else
        { sim1 with pool := sim1.pool.register { buf with owner_memory := some name } (some name) }
    let (mid, sim3) := sim2.freshMsgId
    let ack : Message :=
      { src := name, dst := req.src, size := 1, kind := "buffer_ack"
        payload := { buffer_id := some buf.id }, created_at := sim3.ticks, id := mid }
    let ready := sim3.ticks + latency
    let sim4 :=
      match alGet sim3.resources name with
      | some r =>
        match r.core with
        | .memory m => sim3.setRes name { r with core := .memory { m with inflight := m.inflight ++ [(ready, ack)] } }
        | _ => sim3
      | none => sim3
    Pool.set_state sim4 buf.id "responded"
  else if req.kind = "buffer_consume" then
    let buf_id := req.payload.buffer_id
    let sim1 :=
      if pyTruthy buf_id then
        let bid := buf_id.getD ""
        let sim' :=
          if sim.pool.ownerOf bid = some name then
            { sim with pool := (sim.pool.delete bid).2 }
          else sim
        Pool.set_state sim' bid "deallocated"
      else sim
    let (mid, sim2) := sim1.freshMsgId
    let ack : Message :=
      { src := name, dst := req.src, size := 1, kind := "buffer_freed"
        payload := { buffer_id := buf_id }, created_at := sim2.ticks, id := mid }
    let ready := sim2.ticks + latency
    match alGet sim2.resources name with
    | some r =>
      match r.core with
      | .memory m => sim2.setRes name { r with core := .memory { m with inflight := m.inflight ++ [(ready, ack)] } }
      | _ => sim2
    | none => sim2
  else
    let (mid, sim1) := sim.freshMsgId
    let resp : Message :=
      { src := name, dst := req.src, size := req.sizeOr 0, kind := "resp"
        payload := { reply_to := some req.idOf, kindStr := some req.kind }
        created_at := sim1.ticks, id := mid }
    let ready := sim1.ticks + latency
    match alGet sim1.resources name with
    | some r =>
      match r.core with
      | .memory m => sim1.setRes name { r with core := .memory { m with inflight := m.inflight ++ [(ready, resp)] } }
      | _ => sim1
    | none => sim1

/-- The issue loop of `Memory.tick` (memory.py lines 60-130): pull up to
`max_issue_per_tick` requests (the fuel), re-reading the `in` queue each
iteration because trigger firing may deliver back into it. -/
def Memory.issueLoop (sim : Sim) (name : String) : Nat → Sim
  | 0 => sim
  | fuel + 1 =>
    match alGet sim.resources name with
    | some r =>
      match r.core with
      | .memory m =>
        match (alGet r.inbox "in").getD [] with
        | [] => sim
        | req :: rest =>
          let m1 := { m with bytes_in_tick := m.bytes_in_tick + req.sizeOr 0 }
          let r1 := { r with inbox := alSet r.inbox "in" rest, core := .memory m1 }
          let sim1 := (sim.setRes name r1)
          Memory.issueLoop (Memory.issueOne sim1 name m1.latency req) name fuel
      | _ => sim
    | none => sim

/-- The response-emission loop of `Memory.tick` (memory.py lines
132-136): emit every inflight response whose ready tick has been
reached. -/
def Memory.emitLoop (sim : Sim) (name : String) : Nat → Sim
  | 0 => sim
  | fuel + 1 =>
    match alGet sim.resources name with
    | some r =>
      match r.core with
      | .memory m =>
        match m.inflight with
        | (ready, resp) :: rest =>
          if ready ≤ sim.ticks then
            let m1 := { m with inflight := rest, bytes_out_tick := m.bytes_out_tick + resp.size }
            let r1 := Res.send { r with core := .memory m1 } "out" (.msg resp)
            Memory.emitLoop (sim.setRes name r1) name fuel
          else sim
        | [] => sim
      | _ => sim
    | none => sim

/-- The occupancy update of `Memory.tick` (memory.py lines 138-144):
saturating fill then bounded drain, and the backpressure flag derived
from the resulting occupancy. -/
def Memory.occupancyUpdate (m : MemCore) : MemCore :=
  let fill : Int := min (m.bytes_in_tick : Int) m.fill_rate
  let cur1 : Int := min m.size_limit (m.bytes_current + fill)
  let drain : Int := min (m.bytes_out_tick : Int) (min m.drain_rate cur1)
  let cur2 : Int := max 0 (cur1 - drain)
  { m with bytes_current := cur2, backpressured := decide (m.size_limit ≤ cur2) }

/-- One step of the backpressure propagation loop of `Memory.tick`
(memory.py lines 145-149): `ch.set_backpressure(flag)` on one registered
inbound channel; a resource without that method raises
`AttributeError`, swallowed by the `except` clause (modelled as a
skip). -/
def Memory.setChanBackpressure (s : Sim) (ch : String) (flag : Bool) : Sim :=
  match alGet s.resources ch with
  | some r =>
    match r.core with
    | .channel c => s.setRes ch { r with core := .channel (c.set_backpressure flag) }
    | _ => s
  | none => s

/-- The backpressure propagation loop of `Memory.tick` (memory.py lines
145-149). -/
def Memory.propagateBackpressure (sim : Sim) (chans : List String) (flag : Bool) : Sim :=
  chans.foldl (fun s ch => Memory.setChanBackpressure s ch flag) sim

/-- `Memory.tick` (memory.py lines 53-149): reset the per-tick byte
counters, run the issue loop, emit ready responses, update occupancy and
propagate backpressure. -/
def Memory.tick (sim : Sim) (name : String) : Sim :=
  match alGet sim.resources name with
  | some r =>
    match r.core with
    | .memory m0 =>
      let sim1 := sim.setRes name { r with core := .memory { m0 with bytes_in_tick := 0, bytes_out_tick := 0 } }
      let sim2 := Memory.issueLoop sim1 name m0.max_issue_per_tick
      let fuel := ((sim2.memCoreOf name).map (fun m => m.inflight.length)).getD 0
      let sim3 := Memory.emitLoop sim2 name fuel
      match alGet sim3.resources name with
      | some r3 =>
        match r3.core with
        | .memory m3 =>
          let m4 := Memory.occupancyUpdate m3
          let sim4 := sim3.setRes name { r3 with core := .memory m4 }
          Memory.propagateBackpressure sim4 m4.inbound_channels m4.backpressured
        | _ => sim3
      | none => sim3
    | _ => sim
  | none => sim

/-- The delivery loop of `Link.tick` for `latency >= 1` (link.py lines
45-51): drain the last pipeline stage into the destination's in-queue,
updating byte accounting and global metrics.  (`msg.size` is a direct
attribute access; every item in a pipeline carries a size.) -/
def Link.deliverAll (l : Link) (sim : Sim) : List Item → Link × Sim
  | [] => (l, sim)
  | it :: rest =>
    let sim1 := sim.deliver l.dst l.dst_port it
    let l1 := { l with bytes_moved_this_tick := l.bytes_moved_this_tick + it.sizeOr 0 }
    let met := { sim1.metrics with
                   messages_delivered := sim1.metrics.messages_delivered + 1
                   bytes_transferred := sim1.metrics.bytes_transferred + it.sizeOr 0 }
    Link.deliverAll l1 { sim1 with metrics := met } rest

/-- The bandwidth-bounded pull loop of `Link.tick` (link.py lines 62-68):
pop whole messages from the source out-queue while the remaining
capacity covers `getattr(msg, "size", 1)`.  Returns the pulled items (in
order) and the remaining out-queue. -/
def Link.pullLoop (capacity : Nat) (outq : List Item) (acc : List Item) :
    List Item × List Item :=
  match outq with
  | [] => (acc, [])
  | it :: rest =>
    if it.sizeOr 1 ≤ capacity then Link.pullLoop (capacity - it.sizeOr 1) rest (acc ++ [it])
    else (acc, it :: rest)

/-- The `latency == 0` branch of `Link.tick` (link.py lines 70-80): pop
and deliver directly, still bandwidth-bounded.  Returns the updated
link, simulator and remaining out-queue. -/
def Link.pullDeliver (l : Link) (sim : Sim) (capacity : Nat) (outq : List Item) :
    Link × Sim × List Item :=
  match outq with
  | [] => (l, sim, [])
  | it :: rest =>
    if it.sizeOr 1 ≤ capacity then
      let sim1 := sim.deliver l.dst l.dst_port it
      let l1 := { l with bytes_moved_this_tick := l.bytes_moved_this_tick + it.sizeOr 0 }
      let met := { sim1.metrics with
                     messages_delivered := sim1.metrics.messages_delivered + 1
                     bytes_transferred := sim1.metrics.bytes_transferred + it.sizeOr 0 }
      Link.pullDeliver l1 { sim1 with metrics := met } (capacity - it.sizeOr 1) rest
    else (l, sim, it :: rest)

/-- `Link.tick` (link.py lines 39-82).  For `latency >= 1` the source
loop empties the last stage, shifts every stage forward (net effect: the
new pipeline is `[] :: dropLast old`), then pulls into stage 0 subject to
bandwidth; for `latency == 0` it delivers directly.  The final statement
accumulates `utilization_sum`. -/
def Link.tick (l0 : Link) (sim0 : Sim) : Link × Sim :=
  let l := { l0 with ticks := l0.ticks + 1, bytes_moved_this_tick := 0 }
  let (l, sim) :=
    if 1 ≤ l.latency then
      let lastStage := (l.pipeline.getLast?).getD []
      let (l1, sim1) := Link.deliverAll l sim0 lastStage
      let shifted := l1.pipeline.dropLast
      match alGet sim1.resources l1.src with
      | none => ({ l1 with pipeline := [] :: shifted }, sim1)
      | some r =>
        match alGet r.outbox l1.src_port with
        | none => ({ l1 with pipeline := [] :: shifted }, sim1)
        | some outq =>
          let (pulled, remaining) := Link.pullLoop l1.bandwidth outq []
          let sim2 := sim1.setRes l1.src { r with outbox := alSet r.outbox l1.src_port remaining }
          ({ l1 with pipeline := pulled :: shifted }, sim2)
    else
      match alGet sim0.resources l.src with
      | none => (l, sim0)
      | some r =>
        match alGet r.outbox l.src_port with
        | none => (l, sim0)
        | some outq =>
          let (l1, sim1, remaining) := Link.pullDeliver l sim0 l.bandwidth outq
          match alGet sim1.resources l1.src with
          | some r1 =>
            (l1, sim1.setRes l1.src { r1 with outbox := alSet r1.outbox l1.src_port remaining })
          | none => (l1, sim1)
  ({ l with utilization_sum := l.utilization_sum + l.bytes_moved_this_tick }, sim)

/-- One step of phase 2 of `Simulator.tick`: tick one link, accumulating
the updated link. -/
def Sim.linkStep (p : List Link × Sim) (l : Link) : List Link × Sim :=
  let q := Link.tick l p.2
  (p.1 ++ [q.1], q.2)

/-- Phase 2 of `Simulator.tick`: run every link's `tick` in insertion
order. -/
def Sim.linksPhase (sim : Sim) : Sim :=
  let p := sim.links.foldl Sim.linkStep ([], sim)
  { p.2 with links := p.1 }

/-- A pending transfer descriptor of an `OutputQueue`
(src/archsim/core/queues.py line 48): `(buf, dst_memory, dst_pe,
dst_queue)`. -/
structure TransferItem where
  buf : DataBuffer
  dst_memory : String
  dst_pe : Option String
  dst_queue : String
deriving DecidableEq

/-- src/archsim/core/queues.py `OutputQueue` state: the transfer items
plus the `_scheduled` set and `_dest_map`.  (The isinstance guards of
`step` always pass on this typed representation.) -/
structure OutputQueue where
  items : List TransferItem := []
  scheduled : List String := []        -- _scheduled
  dest_map : List (String × Option String) := []  -- _dest_map
deriving DecidableEq

/-- The transmission half of `OutputQueue.step` (queues.py lines
78-106), entered with the (possibly first-touch-updated) head item
already written back so that `oq1.items = item :: rest`: check the
channel capacity, advance `bytes_sent` by `min(buffering, capacity)`,
and on completion record the expected arrival and pop the head. -/
def OutputQueue.stepSend (oq1 : OutputQueue) (sim1 : Sim) (channel : Option ChanCore)
    (item : TransferItem) (rest : List TransferItem) : OutputQueue × Sim :=
  let buf1 := item.buf
  -- capacity check: a backpressured / zero-capacity channel pauses the transfer
  let capacity : Option Int :=
    match channel with
    | some ch => some (ch.current_bandwidth : Int)
    | none => none
  if capacity.isSome ∧ capacity.getD 0 ≤ 0 then (oq1, sim1)
  else
    let buffering := buf1.buffering_size
    if buffering ≤ 0 then (oq1, sim1)
    else
      let send_bytes := match capacity with
        | none => buffering
        | some c => min buffering c
      let buf2 := buf1.add_sent send_bytes
      if (buf2.size : Int) ≤ buf2.bytes_sent then
        let dest_id := (alGet oq1.dest_map buf2.id).getD none
        let sim2 :=
          if pyTruthy dest_id then
            let arrival := sim1.ticks + (channel.map (·.latency)).getD 0
            { sim1 with pool := sim1.pool.record_expected_arrival (dest_id.getD "") arrival }
          else sim1
        let oq2 := { oq1 with
                      items := rest
                      scheduled := oq1.scheduled.filter (· ≠ buf2.id)
                      dest_map := alErase oq1.dest_map buf2.id }
        (oq2, sim2)
      else
        ({ oq1 with items := { item with buf := buf2 } :: rest }, sim1)

/-- `OutputQueue.step` (queues.py lines 60-106): the first-touch
registration half (lines 60-76) followed by `stepSend`.  In Python the
head buffer object is aliased by the pool registry, so its counter
updates are visible through both; the embedding keeps the queue's copy
authoritative for the byte counters (the pool never reads them). -/
def OutputQueue.step (oq : OutputQueue) (sim : Sim) (channel : Option ChanCore) :
    OutputQueue × Sim :=
  match oq.items with
  | [] => (oq, sim)
  | item :: rest =>
    let buf0 := item.buf
    -- register the destination if not already scheduled; mark fully received
    let (oq1, sim1, buf1) :=
      if buf0.id ∈ oq.scheduled then (oq, sim, buf0)
      else
        let (sim', dest) := Pool.schedule_transfer sim buf0.id item.dst_memory item.dst_pe item.dst_queue
        let oq' := { oq with
                      dest_map := alSet oq.dest_map buf0.id (dest.map (·.id))
                      scheduled := oq.scheduled ++ [buf0.id] }
        let buf' := if buf0.bytes_received < (buf0.size : Int)
                    then buf0.add_received ((buf0.size : Int) - buf0.bytes_received)
                    else buf0
        (oq', sim', buf')
    let item1 : TransferItem := { item with buf := buf1 }
    OutputQueue.stepSend { oq1 with items := item1 :: rest } sim1 channel item1 rest

/-- src/archsim/resources/arbiter.py `Arbiter` state, with the messages
forwarded downstream this tick accumulated in `out` (the `out` port
queue). -/
structure ArbCore where
  inputs : List String := []
  rr_index : Nat := 0
  available_from : Nat := 0
  inflight_by_port : List (String × Option String) := []
  active : List ActiveEntry := []
  inbox : List (String × List Item) := []
  out : List Item := []
deriving DecidableEq

/-- `Arbiter._next_nonempty_from` (arbiter.py lines 61-70). -/
def ArbCore.next_nonempty_from (a : ArbCore) (start : Nat) : Option Nat :=
  if a.inputs.isEmpty then none
  else
    (List.range a.inputs.length).findSome? fun i =>
      let idx := (start + i) % a.inputs.length
      let q := (alGet a.inbox (a.inputs.getD idx "")).getD []
      if q.isEmpty then none else some idx

/-- The per-entry update of `Arbiter._recompute_interleaving`
(arbiter.py lines 192-205): accumulate progress since the last update at
the previous share, recompute the remaining-latency budget and the
data ticks at the new share, and set
`expected = now + lat_rem + data_ticks`. -/
def ArbCore.recompEntry (ch : ChanCore) (now share_bw : Nat) (e : ActiveEntry) :
    ActiveEntry :=
  let dt := now - e.last_update
  let prev_bw := if e.per_share_bw = 0 then share_bw else e.per_share_bw
  let progressed := min e.total (e.progressed + dt * prev_bw)
  let remaining := e.total - progressed
  let lat_rem := ch.latency - (now - e.start)
  let data_ticks := (remaining + share_bw - 1) / share_bw
  { e with
      progressed := progressed, per_share_bw := share_bw,
      last_update := now, expected := now + lat_rem + data_ticks }

/-- `Arbiter._recompute_interleaving` (arbiter.py lines 186-208).  All
quantities are non-negative in the source (`max(0, ...)` everywhere), so
`Nat` truncated subtraction mirrors the formulas exactly;
`int(bandwidth / n)` on non-negative ints is floor division;
`int(a.get("per_share_bw", share_bw)) or share_bw` falls back to the
share when the stored value is `0`.  The loop updates every entry and
then records the updated expected arrival for each truthy `buf_id`, in
entry order. -/
def ArbCore.recompute_interleaving (a : ArbCore) (ch : ChanCore) (pool : Pool)
    (now : Nat) : ArbCore × Pool :=
  if a.active.isEmpty then (a, pool)
  else
    let n := max 1 a.active.length
    let share_bw := max 1 (ch.bandwidth / n)
    let active' := a.active.map (ArbCore.recompEntry ch now share_bw)
    let pool' := active'.foldl
      (fun pl e =>
        if pyTruthy e.buf_id then pl.record_expected_arrival (e.buf_id.getD "") e.expected
        else pl)
      pool
    ({ a with active := active' }, pool')

/-- Every transfer in the arbiter's active set was admitted at or before
the current tick. -/
def ArbCore.StartsLe (a : ArbCore) (now : Nat) : Prop :=
  ∀ e ∈ a.active, e.start ≤ now

/-- Every active transfer's expected tick covers its admission tick plus
the full channel latency. -/
def ArbCore.LatInv (a : ArbCore) (L : Nat) : Prop :=
  ∀ e ∈ a.active, e.start + L ≤ e.expected

/-- No active transfer's expected tick lies in the past. -/
def ArbCore.ExpectedAtLeastNow (a : ArbCore) (now : Nat) : Prop :=
  ∀ e ∈ a.active, now ≤ e.expected

/-- The spec's interleaving bound:
`expected >= now + max(0, latency - (now - start))` (`Nat` subtraction
is the `max(0, ...)`). -/
def ArbCore.ExpectedBound (a : ArbCore) (L now : Nat) : Prop :=
  ∀ e ∈ a.active, now + (L - (now - e.start)) ≤ e.expected

/-- The top-of-tick cleanup of `Arbiter.tick` in interleaving mode
(arbiter.py lines 76-85): drop finished transfers (those whose expected
arrival has been reached) and clear the inflight marks of ports with no
surviving entry. -/
def ArbCore.cleanupInterleaving (a : ArbCore) (now : Nat) : ArbCore :=
  let active' := a.active.filter fun e => now < e.expected
  let active_ports := active'.map (·.port)
  let ibp := a.inputs.foldl
    (fun m p =>
      if pyTruthy ((alGet m p).getD none) && !(active_ports.contains p) then alSet m p none else m)
    a.inflight_by_port
  { a with active := active', inflight_by_port := ibp }

/-- The accept step at one input index of the interleaving loop of
`Arbiter.tick` (arbiter.py lines 107-133): admit the head message if the
port has no outstanding transfer, mark it inflight, add the
active-transfer entry and recompute every expected arrival. -/
def ArbCore.acceptAt (a : ArbCore) (ch : ChanCore) (pool : Pool) (now : Nat)
    (idx : Nat) : ArbCore × Pool :=
  let port := a.inputs.getD idx ""
  let q := (alGet a.inbox port).getD []
  if q ≠ [] ∧ ¬ pyTruthy ((alGet a.inflight_by_port port).getD none) then
    match q with
    | msg :: rest =>
      let a1 := { a with inbox := alSet a.inbox port rest }
      let buf_id : Option String :=
        match msg.payload.buffer with
        | .dict d => some d.id
        | _ => none
      let mark := match buf_id with
        | some b => if b ≠ "" then b else "inflight"
        | none => "inflight"
      let a2 := { a1 with inflight_by_port := alSet a1.inflight_by_port port (some mark) }
      let entry : ActiveEntry :=
        { port := port, buf_id := buf_id, total := msg.sizeOr 1, progressed := 0,
          start := now, last_update := now, per_share_bw := 0, expected := now }
      let a3 := { a2 with active := a2.active ++ [entry], out := a2.out ++ [msg] }
      a3.recompute_interleaving ch pool now
    | [] => (a, pool)
  else (a, pool)

/-- The round-robin sweep of the interleaving branch of `Arbiter.tick`
(arbiter.py lines 103-138): visit up to `len(inputs)` indices (the
`visited` counter is the fuel), moving to the next non-empty input after
each visit. -/
def ArbCore.interleavingLoop (ch : ChanCore) (now : Nat) :
    Nat → ArbCore → Pool → Nat → ArbCore × Pool
  | 0, a, pool, _ => (a, pool)
  | fuel + 1, a, pool, idx =>
    let (a1, pool1) := a.acceptAt ch pool now idx
    match a1.next_nonempty_from (idx + 1) with
    | none => (a1, pool1)
    | some nidx => ArbCore.interleavingLoop ch now fuel a1 pool1 nidx

/-- `Arbiter.tick` (arbiter.py lines 72-145) specialized to a downstream
channel in interleaving transfer mode — the mode the interleaving claims
are about.  Returns the updated arbiter state and pool together with the
`(active_count, expected_max)` pair passed to
`channel.set_active_state`. -/
def ArbCore.tickInterleaving (a0 : ArbCore) (ch : ChanCore) (pool : Pool)
    (now : Nat) : ArbCore × Pool × Nat × Nat :=
  if a0.inputs.isEmpty then (a0, pool, 0, now)
  else
    let a := a0.cleanupInterleaving now
    let start := a.rr_index
    let (a1, pool1) :=
      match a.next_nonempty_from start with
      | none => (a, pool)
      | some idx => ArbCore.interleavingLoop ch now a.inputs.length a pool idx
    let a2 := { a1 with rr_index := (start + 1) % a1.inputs.length }
    let active_count := a2.active.length
    let expected_max := (a2.active.map (·.expected)).max?.getD now
    (a2, pool1, active_count, expected_max)

/-- One phase-2 step on a link together with the simulator state it
threads, for iterating `Link.tick`. -/
def Link.tickSt (p : Link × Sim) : Link × Sim := Link.tick p.1 p.2

/-! ## The remaining resource tick hooks dispatched by `Simulator.tick` -/

/-- Read the `GenCore` of the resource stored under `name`, when it is a
buffer generator. -/
def Sim.genCoreOf (sim : Sim) (name : String) : Option GenCore :=
  match alGet sim.resources name with
  | some r =>
    match r.core with
    | .other (.generator g) => some g
    | _ => none
  | none => none

/-- Read the `ComputeCore` of the resource stored under `name`, when it
is a compute unit. -/
def Sim.compCoreOf (sim : Sim) (name : String) : Option ComputeCore :=
  match alGet sim.resources name with
  | some r =>
    match r.core with
    | .other (.compute c) => some c
    | _ => none
  | none => none

/-- The scheduled-consume emission loop of `BufferGenerator.tick`
(generator.py lines 82-92): pop each due `(due_tick, buffer_id)` entry
and emit a `buffer_consume` request.  The fuel is the queue length,
which bounds the pops. -/
def BufferGenerator.emitConsume (sim : Sim) (name : String) : Nat → Sim
  | 0 => sim
  | fuel + 1 =>
    match alGet sim.resources name with
    | some r =>
      match r.core with
      | .other (.generator g) =>
        match g.consume_queue with
        | (due, bid) :: rest =>
          if due ≤ sim.ticks then
            let sim1 := sim.setRes name
              { r with core := .other (.generator { g with consume_queue := rest }) }
            let (mid, sim2) := sim1.freshMsgId
            let msg : Message :=
              { src := name, dst := g.target_memory, size := 1, kind := "buffer_consume"
                payload := { buffer_id := some bid }, created_at := sim2.ticks, id := mid }
            match alGet sim2.resources name with
            | some r2 =>
              BufferGenerator.emitConsume (sim2.setRes name (r2.send "out" (.msg msg))) name fuel
            | none => sim2
          else sim
        | [] => sim
      | _ => sim
    | none => sim

/-- `BufferGenerator.tick` (generator.py lines 47-92): drain the ack
queue (scheduling auto-consumes), stop if the production quota is
reached, produce and transmit a fresh buffer when the schedule is due,
then emit the due scheduled consumes.  The message payload serializes
the pool-stored buffer: `register`/`set_state` mutate the registered
object in place in Python, and that object is the one being sent. -/
def BufferGenerator.tick (sim : Sim) (name : String) : Sim :=
  match alGet sim.resources name with
  | some r =>
    match r.core with
    | .other (.generator g) =>
      match alGet r.inbox "in" with
      | none => sim   -- `self.inbox["in"]` raises; unreached for constructed generators
      | some inq =>
        let cq := inq.foldl
          (fun cq it =>
            match g.auto_consume_after with
            | some aca =>
              if it.kind = "buffer_ack" ∧ pyTruthy it.payload.buffer_id then
                cq ++ [(sim.ticks + aca, it.payload.buffer_id.getD "")]
              else cq
            | none => cq)
          g.consume_queue
        let g1 := { g with consume_queue := cq }
        let sim1 := sim.setRes name
          { r with inbox := alSet r.inbox "in" [], core := .other (.generator g1) }
        if g1.quotaDone then sim1
        else
          let sim2 :=
            if g1.next_tick ≤ sim1.ticks then
              let (bid, simA) := sim1.freshBufId
              let buf0 := DataBuffer.make g1.buffer_size none bid []
              let buf := if g1.triggers.isEmpty then buf0 else { buf0 with triggers := g1.triggers }
              let simB := { simA with pool := simA.pool.register buf (some name) }
              let simC := Pool.set_state simB buf.id "allocated"
              let bufNow := (alGet simC.pool.buffers buf.id).getD buf
              let (mid, simD) := simC.freshMsgId
              let msg : Message :=
                { src := name, dst := g1.target_memory, size := bufNow.size
                  kind := "buffer_transfer", payload := { buffer := .dict bufNow.to_dict }
                  created_at := simD.ticks, id := mid }
              let simE :=
                match alGet simD.resources name with
                | some r2 => simD.setRes name (r2.send "out" (.msg msg))
                | none => simD
              let simF := Pool.set_state simE buf.id "transit"
              match alGet simF.resources name with
              | some r3 =>
                match r3.core with
                | .other (.generator g2) =>
                  simF.setRes name { r3 with core := .other (.generator
                    { g2 with produced := g2.produced + 1, next_tick := g2.next_tick + g2.period }) }
                | _ => simF
              | none => simF
            else sim1
          BufferGenerator.emitConsume sim2 name
            (((sim2.genCoreOf name).map (fun g3 => g3.consume_queue.length)).getD 0)
    | _ => sim
  | none => sim

/-- `SemaphoreClient.tick` (semaphore_client.py lines 26-48): count the
received grants, then emit a `sem_wait` when the schedule is due,
advancing `_next` by the period (or disabling it for a single shot). -/
def SemaphoreClient.tick (sim : Sim) (name : String) : Sim :=
  match alGet sim.resources name with
  | some r =>
    match r.core with
    | .other (.semClient c) =>
      match alGet r.inbox "in" with
      | none => sim   -- `self.inbox["in"]` raises; unreached for constructed clients
      | some inq =>
        let gr := inq.foldl (fun n it => if it.kind = "sem_granted" then n + 1 else n) c.granted
        let c1 := { c with granted := gr }
        let sim1 := sim.setRes name
          { r with inbox := alSet r.inbox "in" [], core := .other (.semClient c1) }
        match c1.next with
        | some nx =>
          if nx ≤ sim1.ticks then
            let (mid, sim2) := sim1.freshMsgId
            let msg : Message :=
              { src := name, dst := c1.station, size := 1, kind := "sem_wait"
                payload := { index := some c1.index }, created_at := sim2.ticks, id := mid }
            match alGet sim2.resources name with
            | some r2 =>
              sim2.setRes name { (r2.send "out" (.msg msg)) with
                core := .other (.semClient { c1 with next :=
                  match c1.period with
                  | none => none
                  | some p => some (nx + p) }) }
            | none => sim2
          else sim1
        | none => sim1
    | _ => sim
  | none => sim

/-- `SemaphoreRecorder._issue_wait` (semaphore_recorder.py lines 25-35):
emit a `sem_wait` and arm the recorder. -/
def SemaphoreRecorder.issueWait (sim : Sim) (name station : String) (index : Int) : Sim :=
  let (mid, sim1) := sim.freshMsgId
  let msg : Message :=
    { src := name, dst := station, size := 1, kind := "sem_wait"
      payload := { index := some index }, created_at := sim1.ticks, id := mid }
  match alGet sim1.resources name with
  | some r =>
    sim1.setRes name { (r.send "out" (.msg msg)) with
      core := match r.core with
        | .other (.semRecorder rc) => .other (.semRecorder { rc with armed := true })
        | c => c }
  | none => sim1

/-- The drain loop of `SemaphoreRecorder.tick` (semaphore_recorder.py
lines 43-49): record each grant's tick and immediately re-arm. -/
def SemaphoreRecorder.drainLoop (sim : Sim) (name : String) : List Item → Sim
  | [] => sim
  | it :: rest =>
    let sim1 :=
      if it.kind = "sem_granted" then
        match alGet sim.resources name with
        | some r =>
          match r.core with
          | .other (.semRecorder rc) =>
            SemaphoreRecorder.issueWait
              (sim.setRes name { r with core := .other (.semRecorder
                { rc with grants := rc.grants ++ [sim.ticks] }) })
              name rc.station rc.index
          | _ => sim
        | none => sim
      else sim
    SemaphoreRecorder.drainLoop sim1 name rest

/-- `SemaphoreRecorder.tick` (semaphore_recorder.py lines 37-49). -/
def SemaphoreRecorder.tick (sim : Sim) (name : String) : Sim :=
  match alGet sim.resources name with
  | some r =>
    match r.core with
    | .other (.semRecorder rc) =>
      let sim1 :=
        if ¬ rc.armed ∧ rc.start_tick ≤ sim.ticks then
          SemaphoreRecorder.issueWait sim name rc.station rc.index
        else sim
      match alGet sim1.resources name with
      | some r1 =>
        match alGet r1.inbox "in" with
        | none => sim1   -- `self.inbox["in"]` raises; unreached for constructed recorders
        | some inq =>
          SemaphoreRecorder.drainLoop
            (sim1.setRes name { r1 with inbox := alSet r1.inbox "in" [] }) name inq
      | none => sim1
    | _ => sim
  | none => sim

/-- `BufferProducer.tick` (buffer_io.py lines 21-37).  The transfer
message serializes the pool-stored buffer: `register`/`set_state` mutate
the registered object, which is `self.buffer` whenever this producer
performed the registration. -/
def BufferProducer.tick (sim : Sim) (name : String) : Sim :=
  match alGet sim.resources name with
  | some r =>
    match r.core with
    | .other (.bufProducer p) =>
      if ¬ p.sent ∧ p.issue_tick ≤ sim.ticks then
        let sim1 :=
          if sim.pool.existsId p.buffer.id then sim
          else { sim with pool := sim.pool.register p.buffer (some name) }
        let sim2 := Pool.set_state sim1 p.buffer.id "allocated"
        let bufNow := (alGet sim2.pool.buffers p.buffer.id).getD p.buffer
        let (mid, sim3) := sim2.freshMsgId
        let msg : Message :=
          { src := name, dst := p.target_memory, size := bufNow.size
            kind := "buffer_transfer", payload := { buffer := .dict bufNow.to_dict }
            created_at := sim3.ticks, id := mid }
        let sim4 :=
          match alGet sim3.resources name with
          | some r2 => sim3.setRes name (r2.send "out" (.msg msg))
          | none => sim3
        let sim5 := Pool.set_state sim4 p.buffer.id "transit"
        match alGet sim5.resources name with
        | some r3 =>
          match r3.core with
          | .other (.bufProducer p2) =>
            sim5.setRes name { r3 with core := .other (.bufProducer { p2 with sent := true }) }
          | _ => sim5
        | none => sim5
      else sim
    | _ => sim
  | none => sim

/-- `BufferConsumer.tick` (buffer_io.py lines 55-71). -/
def BufferConsumer.tick (sim : Sim) (name : String) : Sim :=
  match alGet sim.resources name with
  | some r =>
    match r.core with
    | .other (.bufConsumer c) =>
      match alGet r.inbox "in" with
      | none => sim   -- `self.inbox["in"]` raises; unreached for constructed consumers
      | some _ =>
        let sim1 := sim.setRes name { r with inbox := alSet r.inbox "in" [] }
        if ¬ c.issued ∧ c.consume_tick ≤ sim1.ticks then
          let (mid, sim2) := sim1.freshMsgId
          let msg : Message :=
            { src := name, dst := c.target_memory, size := 1, kind := "buffer_consume"
              payload := { buffer_id := some c.buffer_id }, created_at := sim2.ticks, id := mid }
          match alGet sim2.resources name with
          | some r2 =>
            sim2.setRes name { (r2.send "out" (.msg msg)) with
              core := .other (.bufConsumer { c with issued := true }) }
          | none => sim2
        else sim1
    | _ => sim
  | none => sim

/-- The scheduled-consume emission loop of `ComputeUnit.tick`
(compute.py lines 88-100), analogous to the generator's. -/
def ComputeUnit.emitConsume (sim : Sim) (name : String) : Nat → Sim
  | 0 => sim
  | fuel + 1 =>
    match alGet sim.resources name with
    | some r =>
      match r.core with
      | .other (.compute c) =>
        match c.consume_queue with
        | (due, bid) :: rest =>
          if due ≤ sim.ticks then
            let sim1 := sim.setRes name
              { r with core := .other (.compute { c with consume_queue := rest }) }
            let (mid, sim2) := sim1.freshMsgId
            let msg : Message :=
              { src := name, dst := c.buffer_dest, size := 1, kind := "buffer_consume"
                payload := { buffer_id := some bid }, created_at := sim2.ticks, id := mid }
            match alGet sim2.resources name with
            | some r2 =>
              ComputeUnit.emitConsume (sim2.setRes name (r2.send "out0" (.msg msg))) name fuel
            | none => sim2
          else sim
        | [] => sim
      | _ => sim
    | none => sim

/-- `ComputeUnit.tick` (compute.py lines 43-100): count responses, then
either produce-and-transfer a buffer or issue a plain request when the
interval and quota allow, then emit due scheduled consumes.
`msg.kind` is a direct attribute access in the drain (a raw buffer in
the queue would raise; unreached, and `Item.kind`'s `"data"` fallback
behaves as the same skip). -/
def ComputeUnit.tick (sim : Sim) (name : String) : Sim :=
  match alGet sim.resources name with
  | some r =>
    match r.core with
    | .other (.compute c) =>
      match alGet r.inbox "in0" with
      | none => sim   -- `self.inbox["in0"]` raises; unreached for constructed compute units
      | some inq =>
        let rc := inq.foldl (fun n it => if it.kind = "resp" then n + 1 else n) c.received
        let c1 := { c with received := rc }
        let sim1 := sim.setRes name
          { r with inbox := alSet r.inbox "in0" [], core := .other (.compute c1) }
        let canIssue : Bool := decide (c1.issued < c1.total_requests)
          && decide ((c1.issue_interval : Int) ≤ (sim1.ticks : Int) - c1.last_issue_tick)
        let sim2 :=
          if c1.produce_buffers then
            if canIssue then
              let (bid, simA) := sim1.freshBufId
              let buf := DataBuffer.make c1.buffer_size none bid []
              let simB := { simA with pool := simA.pool.register buf (some name) }
              let simC := Pool.set_state simB buf.id "allocated"
              let bufNow := (alGet simC.pool.buffers buf.id).getD buf
              let (mid, simD) := simC.freshMsgId
              let msg : Message :=
                { src := name, dst := c1.buffer_dest, size := bufNow.size
                  kind := "buffer_transfer", payload := { buffer := .dict bufNow.to_dict }
                  created_at := simD.ticks, id := mid }
              let simE :=
                match alGet simD.resources name with
                | some r2 => simD.setRes name (r2.send "out0" (.msg msg))
                | none => simD
              let simF := Pool.set_state simE buf.id "transit"
              match alGet simF.resources name with
              | some r3 =>
                match r3.core with
                | .other (.compute c2) =>
                  let c3 := { c2 with issued := c2.issued + 1
                                      last_issue_tick := (simF.ticks : Int) }
                  let c4 :=
                    match c3.consume_after with
                    | some ca =>
                      { c3 with consume_queue := c3.consume_queue ++ [(simF.ticks + ca, buf.id)] }
                    | none => c3
                  simF.setRes name { r3 with core := .other (.compute c4) }
                | _ => simF
              | none => simF
            else sim1
          else
            if canIssue then
              let (mid, simG) := sim1.freshMsgId
              let req : Message :=
                { src := name, dst := "memory", size := c1.request_size
                  kind := c1.request_kind, payload := {}, created_at := simG.ticks, id := mid }
              match alGet simG.resources name with
              | some r2 =>
                simG.setRes name { (r2.send "out0" (.msg req)) with
                  core := .other (.compute { c1 with issued := c1.issued + 1
                                                     last_issue_tick := (simG.ticks : Int) }) }
              | none => simG
            else sim1
        ComputeUnit.emitConsume sim2 name
          (((sim2.compCoreOf name).map (fun c5 => c5.consume_queue.length)).getD 0)
    | _ => sim
  | none => sim

/-- `ProcessingElement._gather_inputs` (pe.py lines 89-95): pop the head
of each present non-empty input queue, in port order. -/
def PE.gatherInputs (ib : List (String × List Item)) :
    List String → List (String × List Item) × List Item
  | [] => (ib, [])
  | n :: rest =>
    match alGet ib n with
    | some (it :: q) =>
      let p := PE.gatherInputs (alSet ib n q) rest
      (p.1, it :: p.2)
    | _ => PE.gatherInputs ib rest

/-- The input-size accumulation of `ProcessingElement._dummy_process`
(pe.py lines 107-120): messages carrying a serialized buffer count its
`size` (always present in a `to_dict` image), other messages count their
own size, non-messages count nothing. -/
def PE.inputTotal (items : List Item) : Nat :=
  items.foldl
    (fun t it =>
      match it with
      | .msg m =>
        match m.payload.buffer with
        | .dict d => t + d.size
        | _ => t + m.size
      | .buf _ => t)
    0

/-- `max(1, math.floor(total * (out_n / max(1, in_n))))` (pe.py lines
122-123 and 168-169), computed as the exact rational floor
`(total * out_n) / max(1, in_n)` (the Python float round-trip agrees for
the integer magnitudes the simulator handles). -/
def PE.outSize (total rin rout : Nat) : Nat :=
  max 1 ((total * rout) / max 1 rin)

/-- The per-input pop of `ProcessingElement._start_command_if_ready`
(pe.py lines 155-164); every queue is non-empty under the caller's
guard.  Also returns the summed input sizes. -/
def PE.popSlots (ib : List (String × List Item)) :
    List String → List (String × List Item) × List PESlot × Nat
  | [] => (ib, [], 0)
  | n :: rest =>
    match alGet ib n with
    | some (it :: q) =>
      let p := PE.popSlots (alSet ib n q) rest
      (p.1, { buf := it, remaining := it.sizeOr 0 } :: p.2.1, it.sizeOr 0 + p.2.2)
    | _ => PE.popSlots ib rest

/-- Consume one pre-drawn random outcome. -/
def PECore.popRand (p : PECore) : Bool × PECore :=
  match p.rand with
  | [] => (false, p)
  | b :: rest => (b, { p with rand := rest })

/-- `ProcessingElement._start_command_if_ready` (pe.py lines 142-171):
with a pending command and every input queue non-empty, pop the command
and one item per input, set the consume rate from the command payload
(default 64, minimum 1) and the expected output size, and go busy. -/
def PECore.startCommand (p : PECore) (ib : List (String × List Item)) :
    PECore × List (String × List Item) :=
  match alGet ib "cmd" with
  | some (cmd :: cmdRest) =>
    if p.in_names.all (fun n => ¬ ((alGet ib n).getD []).isEmpty) then
      let ib1 := alSet ib "cmd" cmdRest
      let pops := PE.popSlots ib1 p.in_names
      let rate : Int := max 1 (cmd.payload.rate.getD 64)
      ({ p with
          current_cmd := some cmd
          current_inputs := pops.2.1
          consume_rate := rate.toNat
          expected_output_size := PE.outSize pops.2.2 p.ratio_in p.ratio_out
          output_progress := 0
          state := "busy" }, pops.1)
    else (p, ib)
  | _ => (p, ib)

/-- The budgeted consume sweep of the busy state (pe.py lines 207-218):
stop when the budget is exhausted, skip drained slots, otherwise take
`min(remaining, budget)`.  Returns the updated slots and the total
consumed. -/
def PE.consumeSlots (budget : Nat) : List PESlot → List PESlot × Nat
  | [] => ([], 0)
  | s :: rest =>
    if budget = 0 then (s :: rest, 0)
    else if s.remaining = 0 then
      let p := PE.consumeSlots budget rest
      (s :: p.1, p.2)
    else
      let take := min s.remaining budget
      let p := PE.consumeSlots (budget - take) rest
      ({ s with remaining := s.remaining - take } :: p.1, take + p.2)

/-- The consumed-input deallocation loop of the completion block (pe.py
lines 240-244): only actual `DataBuffer` inputs are deallocated and
deleted. -/
def PE.deallocLoop (sim : Sim) : List PESlot → Sim
  | [] => sim
  | s :: rest =>
    match s.buf with
    | .buf (some b) =>
      let sim1 := Pool.set_state sim b.id "deallocated"
      PE.deallocLoop { sim1 with pool := (sim1.pool.delete b.id).2 } rest
    | _ => PE.deallocLoop sim rest

/-- The buffer emission shared by `_dummy_process` and the pro-mode
completion block (pe.py lines 124-139 and 223-238): register the fresh
buffer, mark it allocated, send a `buffer_transfer` for the pool-stored
image to `out_names[0]`, mark it in transit.  `self.output_target or
"memory"` is Python truthiness on the optional target. -/
def ProcessingElement.emitBuffer (sim : Sim) (name : String) (buf : DataBuffer)
    (p : PECore) : Sim :=
  let sim1 := { sim with pool := sim.pool.register buf (some name) }
  let sim2 := Pool.set_state sim1 buf.id "allocated"
  let bufNow := (alGet sim2.pool.buffers buf.id).getD buf
  let dst := if pyTruthy p.output_target then p.output_target.getD "" else "memory"
  let (mid, sim3) := sim2.freshMsgId
  let msg : Message :=
    { src := name, dst := dst, size := bufNow.size, kind := "buffer_transfer"
      payload := { buffer := .dict bufNow.to_dict }, created_at := sim3.ticks, id := mid }
  let sim4 :=
    match alGet sim3.resources name with
    | some r2 => sim3.setRes name (r2.send (p.out_names.getD 0 "") (.msg msg))
    | none => sim3
  Pool.set_state sim4 buf.id "transit"

/-- `ProcessingElement.tick` (pe.py lines 183-247).  The dummy mode
greedily combines one input per queue into an output buffer; the pro
mode runs the idle/busy/backpressured state machine with the pre-drawn
random outcomes in `rand`. -/
def ProcessingElement.tick (sim : Sim) (name : String) : Sim :=
  match alGet sim.resources name with
  | some r =>
    match r.core with
    | .other (.pe p) =>
      let p0 := { p with queues_registered := true, busy_this_tick := false }
      if p0.mode = "dummy" then
        let gp := PE.gatherInputs r.inbox p0.in_names
        let sim1 := sim.setRes name { r with inbox := gp.1, core := .other (.pe p0) }
        match gp.2 with
        | [] => sim1
        | inputs =>
          let out_size := PE.outSize (PE.inputTotal inputs) p0.ratio_in p0.ratio_out
          let (bid, sim2) := sim1.freshBufId
          let buf := DataBuffer.make out_size none bid []
          let sim3 := ProcessingElement.emitBuffer sim2 name buf p0
          match alGet sim3.resources name with
          | some r3 =>
            match r3.core with
            | .other (.pe p3) =>
              sim3.setRes name { r3 with core := .other (.pe { p3 with busy_this_tick := true }) }
            | _ => sim3
          | none => sim3
      else
        let sp := if p0.state = "idle" then p0.startCommand r.inbox else (p0, r.inbox)
        let p1 := sp.1
        let ib1 := sp.2
        let bp :=
          if p1.state = "backpressured" then
            let q := p1.popRand
            if q.1 then (({ q.2 with state := "busy" } : PECore), false)
            else (q.2, true)
          else (p1, false)
        let p2 := bp.1
        if bp.2 then sim.setRes name { r with inbox := ib1, core := .other (.pe p2) }
        else if p2.state = "busy" then
          let q := p2.popRand
          if q.1 then
            sim.setRes name
              { r with inbox := ib1, core := .other (.pe { q.2 with state := "backpressured" }) }
          else if q.2.current_inputs.isEmpty then
            sim.setRes name
              { r with inbox := ib1, core := .other (.pe { q.2 with state := "idle" }) }
          else
            let p3 := q.2
            let cs := PE.consumeSlots p3.consume_rate p3.current_inputs
            let p4 := { p3 with
                current_inputs := cs.1
                output_progress := p3.output_progress + cs.2
                busy_this_tick := decide (0 < cs.2) }
            let sim1 := sim.setRes name { r with inbox := ib1, core := .other (.pe p4) }
            if cs.1.all (fun s => s.remaining = 0) then
              let out_size := max 1 p4.expected_output_size
              let (bid, sim2) := sim1.freshBufId
              let buf := { DataBuffer.make out_size none bid [] with
                  owner_memory := some name, role := "destination" }
              let sim3 := ProcessingElement.emitBuffer sim2 name buf p4
              let sim4 := PE.deallocLoop sim3 p4.current_inputs
              match alGet sim4.resources name with
              | some r4 =>
                match r4.core with
                | .other (.pe p5) =>
                  sim4.setRes name { r4 with core := .other (.pe { p5 with
                    current_inputs := [], current_cmd := none, state := "idle" }) }
                | _ => sim4
              | none => sim4
            else sim1
        else
          sim.setRes name { r with inbox := ib1, core := .other (.pe p2) }
    | _ => sim
  | none => sim

/-- `ProcessingElement.finalize_tick` (pe.py lines 249-252). -/
def PECore.finalize (p : PECore) : PECore :=
  { p with ticksCnt := p.ticksCnt + 1
           busy_ticks := if p.busy_this_tick then p.busy_ticks + 1 else p.busy_ticks }

/-- `ProcessingElement.finalize_tick` as inherited by `ComputeUnit`. -/
def ComputeCore.finalize (c : ComputeCore) : ComputeCore :=
  { c with ticksCnt := c.ticksCnt + 1
           busy_ticks := if c.busy_this_tick then c.busy_ticks + 1 else c.busy_ticks }

/-- The round-robin pull loop of `Bus.tick` (bus.py lines 32-53): peek
the head of the current port, move it whole when it fits the remaining
budget, and advance; from the first wrap on, every iteration increments
`spins` (the wrap check compares against the fixed start index), and the
loop exits when `spins` exceeds the port count or a full check interval
passes without any move.  The fuel `2 * len + 2` covers the first wrap plus
the at most `len + 1` further spin increments. -/
def Bus.pullLoop (rr : List String) (startIdx : Nat) :
    Nat → List (String × List Item) → List (String × List Item) → Nat → Nat → Nat → Bool →
    List (String × List Item) × List (String × List Item) × Nat
  | 0, ib, ob, _, idx, _, _ => (ib, ob, idx)
  | fuel + 1, ib, ob, remaining, idx, spins, moved =>
    if 0 < remaining ∧ spins ≤ rr.length then
      let port := rr.getD (idx % rr.length) ""
      let st :=
        match (alGet ib port).getD [] with
        | it :: restQ =>
          if it.sizeOr 1 ≤ remaining then
            (alSet ib port restQ, alPush ob "out" it, remaining - it.sizeOr 1, true)
          else (ib, ob, remaining, moved)
        | [] => (ib, ob, remaining, moved)
      let idx1 := idx + 1
      if rr.length ≤ idx1 - startIdx then
        if st.2.2.2 then Bus.pullLoop rr startIdx fuel st.1 st.2.1 st.2.2.1 idx1 (spins + 1) false
        else (st.1, st.2.1, idx1)
      else Bus.pullLoop rr startIdx fuel st.1 st.2.1 st.2.2.1 idx1 spins st.2.2.2
    else (ib, ob, idx)

/-- `Bus.tick` (bus.py lines 21-53): sync the round-robin order with the
input ports, then run the budgeted pull loop. -/
def Bus.tick (sim : Sim) (name : String) : Sim :=
  match alGet sim.resources name with
  | some r =>
    match r.core with
    | .other (.bus b) =>
      let rr1 := b.rr_order
        ++ ((r.inbox.map (fun pq => pq.1)).filter (fun pb => ¬ b.rr_order.contains pb))
      if rr1.isEmpty then
        sim.setRes name { r with core := .other (.bus { b with rr_order := rr1 }) }
      else
        let startIdx := b.last_idx % max 1 rr1.length
        let res := Bus.pullLoop rr1 startIdx (2 * rr1.length + 2)
          r.inbox r.outbox b.bandwidth startIdx 0 false
        sim.setRes name
          { inbox := res.1, outbox := res.2.1
            core := .other (.bus { b with rr_order := rr1, last_idx := res.2.2 }) }
    | _ => sim
  | none => sim

/-- The in-place forward shift of a bus-internal pipeline
(read_write_bus.py lines 91-95 etc.): stage `i-1` is appended into stage
`i` from the last stage down, leaving stage 0 empty; the (possibly
non-empty) delivery leftover of the old last stage stays in front of the
arriving second-to-last stage.  A single-stage pipeline is left as
is. -/
def RWBus.shiftPipe (p : List (List Item)) : List (List Item) :=
  match p with
  | [] => []
  | [a] => [a]
  | _ => [] :: (p.dropLast.dropLast
      ++ [(p.getLast?.getD []) ++ (p.dropLast.getLast?.getD [])])

/-- Append newly accepted items into stage 0. -/
def RWBus.intoStage0 (p : List (List Item)) (items : List Item) : List (List Item) :=
  match p with
  | [] => []
  | s0 :: rest => (s0 ++ items) :: rest

/-- `_next_nonempty_from` of the buses (read_write_bus.py lines 63-73 and
188-198), over the `in_<name>` ports. -/
def RWBus.nextNonempty (names : List String) (ib : List (String × List Item))
    (start : Nat) : Option Nat :=
  if names.isEmpty then none
  else (List.range names.length).findSome? fun i =>
    let idx := (start + i) % names.length
    let q := (alGet ib ("in_" ++ names.getD idx "")).getD []
    if q.isEmpty then none else some idx

/-- The round-robin accept loop of the buses (read_write_bus.py lines
117-133 and 242-255): pop one head per visited non-empty port into the
accepted list; the `visited` counter is the fuel. -/
def RWBus.acceptLoop (names : List String) :
    Nat → List (String × List Item) → List Item → Nat →
    List (String × List Item) × List Item
  | 0, ib, acc, _ => (ib, acc)
  | fuel + 1, ib, acc, idx =>
    let port := "in_" ++ names.getD idx ""
    let st :=
      match (alGet ib port).getD [] with
      | it :: restQ => (alSet ib port restQ, acc ++ [it])
      | [] => (ib, acc)
    match RWBus.nextNonempty names st.1 (idx + 1) with
    | none => st
    | some nidx => RWBus.acceptLoop names fuel st.1 st.2 nidx

/-- `f"out_{dst}"` routing of a bus response (read_write_bus.py lines
82-83): `getattr(msg, "dst", None)` is `None` for a non-message, routed
to `out_unknown`. -/
def Item.dstPort (it : Item) : String :=
  match it with
  | .msg m => "out_" ++ m.dst
  | .buf _ => "out_unknown"

/-- The bandwidth-bounded response delivery of `ReadBus.tick`
(read_write_bus.py lines 78-88): deliver while the head fits, routing by
destination (`send` setdefault-creates the port). -/
def ReadBus.respDeliver (ob : List (String × List Item)) (capacity : Nat) :
    List Item → List (String × List Item) × List Item
  | [] => (ob, [])
  | it :: rest =>
    if it.sizeOr 1 ≤ capacity then
      ReadBus.respDeliver (alPush ob it.dstPort it) (capacity - it.sizeOr 1) rest
    else (ob, it :: rest)

/-- The unbounded response delivery of `WriteBus.tick`
(read_write_bus.py lines 203-210). -/
def WriteBus.respDeliver (ob : List (String × List Item)) :
    List Item → List (String × List Item)
  | [] => ob
  | it :: rest => WriteBus.respDeliver (alPush ob it.dstPort it) rest

/-- The bandwidth-bounded request delivery of `WriteBus.tick`
(read_write_bus.py lines 227-232). -/
def WriteBus.reqDeliver (ob : List (String × List Item)) (capacity : Nat) :
    List Item → List (String × List Item) × List Item
  | [] => (ob, [])
  | it :: rest =>
    if it.sizeOr 1 ≤ capacity then
      WriteBus.reqDeliver (alPush ob "out_mem" it) (capacity - it.sizeOr 1) rest
    else (ob, it :: rest)

/-- `ReadBus.tick` (read_write_bus.py lines 75-135): deliver and shift
the response pipeline (bandwidth-bounded, routed by destination),
accept memory responses into stage 0; deliver and shift the request
pipeline (unbounded), round-robin accept requester heads into stage 0,
advance the round-robin pointer. -/
def ReadBus.tick (sim : Sim) (name : String) : Sim :=
  match alGet sim.resources name with
  | some r =>
    match r.core with
    | .other (.readBus b) =>
      let s1 :=
        if b.resp_pipeline.isEmpty then (r.inbox, r.outbox, b.resp_pipeline)
        else
          let dv := ReadBus.respDeliver r.outbox b.data_response_bandwidth
            (b.resp_pipeline.getLast?.getD [])
          let shifted := RWBus.shiftPipe (b.resp_pipeline.dropLast ++ [dv.2])
          match alGet r.inbox "in_mem_resp" with
          | some inq => (alSet r.inbox "in_mem_resp" [], dv.1, RWBus.intoStage0 shifted inq)
          | none => (r.inbox, dv.1, shifted)
      let s2 :=
        if b.req_pipeline.isEmpty then (s1.1, s1.2.1, b.req_pipeline, b.rr_idx)
        else
          let ob2 := (b.req_pipeline.getLast?.getD []).foldl
            (fun ob it => alPush ob "out_req" it) s1.2.1
          let shifted := RWBus.shiftPipe (b.req_pipeline.dropLast ++ [[]])
          if b.requesters.isEmpty then (s1.1, ob2, shifted, b.rr_idx)
          else
            let start := b.rr_idx
            let acc :=
              match RWBus.nextNonempty b.requesters s1.1 start with
              | none => (s1.1, ([] : List Item))
              | some idx => RWBus.acceptLoop b.requesters b.requesters.length s1.1 [] idx
            (acc.1, ob2, RWBus.intoStage0 shifted acc.2, (start + 1) % b.requesters.length)
      sim.setRes name
        { inbox := s2.1, outbox := s2.2.1
          core := .other (.readBus { b with
            resp_pipeline := s1.2.2, req_pipeline := s2.2.2.1, rr_idx := s2.2.2.2 }) }
    | _ => sim
  | none => sim

/-- `WriteBus.tick` (read_write_bus.py lines 200-256): deliver and shift
the response pipeline (unbounded, routed by destination), accept memory
responses; deliver the request pipeline's last stage to `out_mem`
subject to bandwidth, shift, round-robin accept writer heads, advance
the pointer. -/
def WriteBus.tick (sim : Sim) (name : String) : Sim :=
  match alGet sim.resources name with
  | some r =>
    match r.core with
    | .other (.writeBus b) =>
      let s1 :=
        if b.resp_pipeline.isEmpty then (r.inbox, r.outbox, b.resp_pipeline)
        else
          let ob1 := WriteBus.respDeliver r.outbox (b.resp_pipeline.getLast?.getD [])
          let shifted := RWBus.shiftPipe (b.resp_pipeline.dropLast ++ [[]])
          match alGet r.inbox "in_mem_resp" with
          | some inq => (alSet r.inbox "in_mem_resp" [], ob1, RWBus.intoStage0 shifted inq)
          | none => (r.inbox, ob1, shifted)
      let s2 :=
        if b.req_pipeline.isEmpty then (s1.1, s1.2.1, b.req_pipeline, b.rr_idx)
        else
          let dv := WriteBus.reqDeliver s1.2.1 b.write_bandwidth
            (b.req_pipeline.getLast?.getD [])
          let shifted := RWBus.shiftPipe (b.req_pipeline.dropLast ++ [dv.2])
          if b.writers.isEmpty then (s1.1, dv.1, shifted, b.rr_idx)
          else
            let start := b.rr_idx
            let acc :=
              match RWBus.nextNonempty b.writers s1.1 start with
              | none => (s1.1, ([] : List Item))
              | some idx => RWBus.acceptLoop b.writers b.writers.length s1.1 [] idx
            (acc.1, dv.1, RWBus.intoStage0 shifted acc.2, (start + 1) % b.writers.length)
      sim.setRes name
        { inbox := s2.1, outbox := s2.2.1
          core := .other (.writeBus { b with
            resp_pipeline := s1.2.2, req_pipeline := s2.2.2.1, rr_idx := s2.2.2.2 }) }
    | _ => sim
  | none => sim

/-- The interleaving-mode cleanup of `Arbiter.tick` (arbiter.py lines
78-85). -/
def ArbState.cleanupInter (a : ArbState) (now : Nat) : ArbState :=
  let active1 := a.active.filter fun e => now < e.expected
  let aps := active1.map (fun e => e.port)
  let ibp := a.inputs.foldl
    (fun m p =>
      if pyTruthy ((alGet m p).getD none) && !(aps.contains p) then alSet m p none else m)
    a.inflight_by_port
  { a with active := active1, inflight_by_port := ibp }

/-- The blocking-mode cleanup of `Arbiter.tick` (arbiter.py lines
87-91). -/
def ArbState.cleanupBlocking (a : ArbState) (now : Nat) : ArbState :=
  if a.available_from ≤ now then
    { a with inflight_by_port := a.inputs.foldl (fun m p => alSet m p none) a.inflight_by_port }
  else a

/-- `Arbiter._next_nonempty_from` (arbiter.py lines 61-70) against the
resource's port queues. -/
def ArbState.next_nonempty (a : ArbState) (ib : List (String × List Item))
    (start : Nat) : Option Nat :=
  if a.inputs.isEmpty then none
  else (List.range a.inputs.length).findSome? fun i =>
    let idx := (start + i) % a.inputs.length
    let q := (alGet ib (a.inputs.getD idx "")).getD []
    if q.isEmpty then none else some idx

/-- `Arbiter._recompute_interleaving` (arbiter.py lines 186-208) for a
topology-wired arbiter: resolve the downstream channel, update every
active entry with `ArbCore.recompEntry` and record the expected arrival
of each truthy `buf_id` in the pool.  A downstream object reference is
always truthy; an unresolvable name is unreached. -/
def Arbiter.recompute (sim : Sim) (name : String) : Sim :=
  match alGet sim.resources name with
  | some r =>
    match r.core with
    | .other (.arbiter a) =>
      match a.downstream with
      | none => sim
      | some dn =>
        match sim.chanCoreOf dn with
        | none => sim
        | some ch =>
          if a.active.isEmpty then sim
          else
            let n := max 1 a.active.length
            let share_bw := max 1 (ch.bandwidth / n)
            let active1 := a.active.map (ArbCore.recompEntry ch sim.ticks share_bw)
            let pool1 := active1.foldl
              (fun pl e =>
                if pyTruthy e.buf_id then pl.record_expected_arrival (e.buf_id.getD "") e.expected
                else pl)
              sim.pool
            { (sim.setRes name { r with core := .other (.arbiter { a with active := active1 }) })
                with pool := pool1 }
    | _ => sim
  | none => sim

/-- Update the downstream channel's active state
(`channel.set_active_state`, called at arbiter.py lines 141-145 and
181-184); the expected-end argument is discarded by the channel. -/
def Arbiter.setActive (sim : Sim) (dn : String) (cnt : Nat) : Sim :=
  match alGet sim.resources dn with
  | some rc =>
    match rc.core with
    | .channel c => sim.setRes dn { rc with core := .channel (c.set_active_state cnt) }
    | _ => sim
  | none => sim

/-- The accept step at one input index of the interleaving branch of
`Arbiter.tick` (arbiter.py lines 107-133) for a topology-wired arbiter:
admit the head item if the port has no outstanding transfer, mark it
inflight, append the active entry, forward downstream on `out` and
recompute the expected arrivals. -/
def Arbiter.acceptAt (sim : Sim) (name : String) (idx : Nat) : Sim :=
  match alGet sim.resources name with
  | some r =>
    match r.core with
    | .other (.arbiter a) =>
      let port := a.inputs.getD idx ""
      match (alGet r.inbox port).getD [] with
      | it :: restQ =>
        if ¬ pyTruthy ((alGet a.inflight_by_port port).getD none) then
          let buf_id : Option String :=
            match it.payload.buffer with
            | .dict d => some d.id
            | _ => none
          let mark := if pyTruthy buf_id then buf_id.getD "" else "inflight"
          let entry : ActiveEntry :=
            { port := port, buf_id := buf_id, total := it.sizeOr 1, progressed := 0
              start := sim.ticks, last_update := sim.ticks, per_share_bw := 0
              expected := sim.ticks }
          let a1 := { a with
              inflight_by_port := alSet a.inflight_by_port port (some mark)
              active := a.active ++ [entry] }
          let r1 := { (Res.send { r with inbox := alSet r.inbox port restQ } "out" it) with
              core := .other (.arbiter a1) }
          Arbiter.recompute (sim.setRes name r1) name
        else sim
      | [] => sim
    | _ => sim
  | none => sim

/-- The round-robin sweep of the interleaving branch of `Arbiter.tick`
(arbiter.py lines 103-138) for a topology-wired arbiter; the `visited`
counter is the fuel. -/
def Arbiter.interLoop (sim : Sim) (name : String) : Nat → Nat → Sim
  | 0, _ => sim
  | fuel + 1, idx =>
    let sim1 := Arbiter.acceptAt sim name idx
    match alGet sim1.resources name with
    | some r1 =>
      match r1.core with
      | .other (.arbiter a1) =>
        match a1.next_nonempty r1.inbox (idx + 1) with
        | none => sim1
        | some nidx => Arbiter.interLoop sim1 name fuel nidx
      | _ => sim1
    | none => sim1

/-- `Arbiter.tick` (arbiter.py lines 72-184) for a topology-wired
arbiter: clean up finished transfers, choose the scheduling policy from
the downstream channel's transfer mode (legacy mapping from the
arbiter's own mode when no downstream is set), then run either the
interleaving round-robin sweep or the blocking single-port service, and
update the downstream channel's active state. -/
def Arbiter.tick (sim : Sim) (name : String) : Sim :=
  match alGet sim.resources name with
  | some r =>
    match r.core with
    | .other (.arbiter a) =>
      if a.inputs.isEmpty then sim
      else
        let now := sim.ticks
        let dsCh : Option ChanCore :=
          match a.downstream with
          | some dn => sim.chanCoreOf dn
          | none => none
        let isInter : Bool :=
          match a.downstream, dsCh with
          | some _, some ch => decide (ch.transfer_mode = "interleaving")
          | _, _ => false
        let a1 := if isInter then a.cleanupInter now else a.cleanupBlocking now
        let channel_mode : String :=
          match dsCh with
          | some ch => ch.transfer_mode
          | none => if a1.mode = "shared" then "interleaving" else "blocking"
        if channel_mode = "interleaving" then
          let start := a1.rr_index
          let sim1 := sim.setRes name { r with core := .other (.arbiter a1) }
          let sim2 :=
            match a1.next_nonempty r.inbox start with
            | none => sim1
            | some idx => Arbiter.interLoop sim1 name a1.inputs.length idx
          match alGet sim2.resources name with
          | some r2 =>
            match r2.core with
            | .other (.arbiter a2) =>
              let sim3 := sim2.setRes name { r2 with core := .other (.arbiter
                { a2 with rr_index := (start + 1) % a2.inputs.length }) }
              match a2.downstream with
              | some dn => Arbiter.setActive sim3 dn a2.active.length
              | none => sim3
            | _ => sim2
          | none => sim2
        else
          let needSwitch : Bool :=
            match a1.active_port with
            | none => true
            | some ap => ((alGet r.inbox ap).getD []).isEmpty
          let a2 :=
            if needSwitch then
              match a1.next_nonempty r.inbox a1.rr_index with
              | some idx => { a1 with active_port := some (a1.inputs.getD idx "")
                                      rr_index := (idx + 1) % a1.inputs.length }
              | none => { a1 with active_port := none }
            else a1
          let sim2 := sim.setRes name { r with core := .other (.arbiter a2) }
          match a2.active_port with
          | none => sim2
          | some ap =>
            let q := (alGet r.inbox ap).getD []
            let sim3 :=
              if a2.available_from ≤ now then
                match q with
                | it :: restQ =>
                  let base := { r with inbox := alSet r.inbox ap restQ
                                       core := .other (.arbiter a2) }
                  match it, a2.downstream, dsCh with
                  | .msg m, some _, some ch =>
                    if m.kind = "buffer_transfer" then
                      let start_time := max now a2.available_from
                      let arrival := start_time + ch.estimate_ticks m.size
                      let buf_id : Option String :=
                        match m.payload.buffer with
                        | .dict d => some d.id
                        | _ => none
                      let a3 := { a2 with
                          available_from := arrival
                          inflight_by_port := alSet a2.inflight_by_port ap
                            (some (if pyTruthy buf_id then buf_id.getD "" else "inflight")) }
                      let pool1 :=
                        if pyTruthy buf_id
                        then sim.pool.record_expected_arrival (buf_id.getD "") arrival
                        else sim.pool
                      let simP := { sim with pool := pool1 }
                      simP.setRes name (Res.send { base with core := .other (.arbiter a3) }
                        "out" (.msg m))
                    else sim.setRes name (Res.send base "out" (.msg m))
                  | _, _, _ => sim.setRes name (Res.send base "out" it)
                | [] => sim2
              else sim2
            match a2.downstream with
            | some dn =>
              let af :=
                match alGet sim3.resources name with
                | some r3 =>
                  match r3.core with
                  | .other (.arbiter a4) => a4.available_from
                  | _ => a2.available_from
                | none => a2.available_from
              Arbiter.setActive sim3 dn (if now < af then 1 else 0)
            | none => sim3
    | _ => sim
  | none => sim

/-- Phase 1 of `Simulator.tick` dispatch: run one resource's `tick`
hook (`r.tick(self)` for every topology resource, simulator.py lines
27-28). -/
def Sim.tickResource (sim : Sim) (name : String) : Sim :=
  match alGet sim.resources name with
  | some r =>
    match r.core with
    | .memory _ => Memory.tick sim name
    | .channel _ => Channel.tick sim name
    | .semaphore _ => SemaphoreStation.tick sim name
    | .other o =>
      match o with
      | .generator _ => BufferGenerator.tick sim name
      | .semClient _ => SemaphoreClient.tick sim name
      | .semRecorder _ => SemaphoreRecorder.tick sim name
      | .bufProducer _ => BufferProducer.tick sim name
      | .bufConsumer _ => BufferConsumer.tick sim name
      | .compute _ => ComputeUnit.tick sim name
      | .pe _ => ProcessingElement.tick sim name
      | .bus _ => Bus.tick sim name
      | .readBus _ => ReadBus.tick sim name
      | .writeBus _ => WriteBus.tick sim name
      | .arbiter _ => Arbiter.tick sim name
  | none => sim

/-- Phase 5 of `Simulator.tick`: invoke every resource's `finalize_tick`
when it exposes one (channels, and processing elements including
compute units, among the repository's kinds); any raised error is
swallowed. -/
def Sim.finalizePhase (sim : Sim) : Sim :=
  (sim.resources.map (·.1)).foldl
    (fun s n =>
      match alGet s.resources n with
      | some r =>
        match r.core with
        | .channel c => s.setRes n { r with core := .channel (c.finalize_tick s.ticks) }
        | .other (.pe p) => s.setRes n { r with core := .other (.pe p.finalize) }
        | .other (.compute c) => s.setRes n { r with core := .other (.compute c.finalize) }
        | _ => s
      | none => s)
    sim

/-- `Simulator.tick` (simulator.py lines 25-56): resources in insertion
order, then links, then the tick counter and metrics copy, then the
buffer pool's time-based update, then finalize hooks.  (No tracer is
attached in the embedding; a tracer cannot modify the state the claims
mention because its errors are swallowed.) -/
def Sim.tick (sim : Sim) : Sim :=
  let names := sim.resources.map (·.1)
  let sim1 := names.foldl Sim.tickResource sim
  let sim2 := Sim.linksPhase sim1
  let sim3 := { sim2 with ticks := sim2.ticks + 1 }
  let sim4 := { sim3 with metrics := { sim3.metrics with ticks := sim3.ticks } }
  let sim5 := Pool.tick sim4
  Sim.finalizePhase sim5

/-- `Simulator.is_quiescent` (simulator.py lines 64-73): no in-queue,
out-queue or link pipeline stage contains anything.  (It inspects
neither the bus-internal pipelines nor any schedule state.) -/
def Sim.is_quiescent (sim : Sim) : Bool :=
  (sim.resources.all fun nr =>
    (nr.2.inbox.all fun pq => pq.2.isEmpty) && (nr.2.outbox.all fun pq => pq.2.isEmpty))
  && (sim.links.all fun l => l.pipeline.all List.isEmpty)

/-- Modelled from the spec (section 4.6, amended): the firing decisions of
`set_state`, computed up front against the topology — a trigger fires
when its `on` equals the new state, its `index` converts to an int and
its `station` resolves; the message kind is `sem_signal` when the action
is the string `"signal"` and `sem_wait` for any other (or missing)
action.  Each instruction is `(station, kind, index)`. -/
def Sim.triggerInstructions (sim : Sim) (trigs : List Trigger) (state : String) :
    List (String × String × Int) :=
  trigs.filterMap fun t =>
    match t.index with
    | none => none
    | some idx =>
      if pyStr t.states = state ∧ (alGet sim.resources (pyStr t.station)).isSome then
        some (pyStr t.station,
              (if t.action = some "signal" then "sem_signal" else "sem_wait"), idx)
      else none

/-- Modelled from the spec (section 4.6): deliver one fired-trigger
instruction as a semaphore-operation message with payload
`{index, buffer_id, state}` to the station's `in` port. -/
def Sim.deliverInstr (sim : Sim) (buffer_id state : String)
    (ins : String × String × Int) : Sim :=
  let (mid, sim1) := sim.freshMsgId
  let msg : Message :=
    { src := "buffer_pool", dst := ins.1, size := 1, kind := ins.2.1
      payload := { index := some ins.2.2, buffer_id := some buffer_id,
                   state := some state }
      created_at := sim1.ticks, id := mid }
  sim1.deliver ins.1 "in" (.msg msg)

/-- Modelled from the spec (section 4.6, amended claim C8): write the
state, compute the fired triggers of the pool-registered and
buffer-attached lists against the topology, and deliver each resulting
semaphore message in order. -/
def Pool.set_state_spec (sim : Sim) (buffer_id state : String) : Sim :=
  match alGet sim.pool.buffers buffer_id with
  | none => sim
  | some buf =>
    let buf' := { buf with state := state }
    let sim1 :=
      { sim with pool := { sim.pool with buffers := alSet sim.pool.buffers buffer_id buf' } }
    let trig_list := ((alGet sim1.pool.triggers buffer_id).getD []) ++ buf'.triggers
    (sim1.triggerInstructions trig_list state).foldl
      (fun s ins => s.deliverInstr buffer_id state ins) sim1

/- Concrete states used by counterexamples and witnesses. -/

/-- A channel with the constructor defaults. -/
def exChan : ChanCore := { bandwidth := 128, latency := 5, transfer_mode := "interleaving" }

/-- A freshly constructed buffer with an explicit empty id
(`DataBuffer(size=1, content=b"", id="")`). -/
def exBufEmptyId : DataBuffer :=
  { id := "", size := 1, content := [], state := "allocated", owner_memory := none
    role := "source", destination_pe := none, destination_queue := none
    bytes_received := 0, bytes_sent := 0, triggers := [] }

/-- A buffer with every serialized field populated non-trivially. -/
def exBufFull : DataBuffer :=
  { id := "buf-full", size := 8, content := [1, 2, 3], state := "transit"
    owner_memory := some "mem0", role := "destination", destination_pe := some "pe0"
    destination_queue := some "in0", bytes_received := 5, bytes_sent := 3
    triggers := [{ states := some "arrived", action := some "signal",
                   station := some "sem", index := some 0 }] }

/-- An already-emittable inflight response held by a memory. -/
def exRespMsg : Message :=
  { src := "m", dst := "x", size := 4, kind := "resp", payload := {},
    created_at := 0, id := "msg-a" }

/-- A memory that is quiescent by `is_quiescent`'s definition but still
holds an inflight response that is ready to emit. -/
def exMemPending : MemCore :=
  { latency := 1, max_issue_per_tick := 1, size_limit := 100, fill_rate := 100
    drain_rate := 100, inflight := [(0, exRespMsg)] }

/-- The same memory with no inflight work. -/
def exMemIdle : MemCore :=
  { latency := 1, max_issue_per_tick := 1, size_limit := 100, fill_rate := 100
    drain_rate := 100 }

/-- A simulator holding only `exMemPending`: all queues and pipelines are
empty, so `is_quiescent` holds, yet the inflight response fires on the
next tick. -/
def exSimPending : Sim :=
  { resources := [("m", { inbox := [("in", [])], outbox := [("out", [])],
                          core := .memory exMemPending })] }

/-- A truly idle simulator: quiescent, no inflight responses, no expected
arrivals, and every internally scheduled resource idle — a memory with
no inflight work, a generator whose production quota is exhausted, a
single-shot semaphore client that has fired, a pro-mode processing
element resting in its idle state, and a read bus whose internal
pipelines are empty. -/
def exSimIdle : Sim :=
  { resources :=
      [("m", { inbox := [("in", [])], outbox := [("out", [])],
               core := .memory exMemIdle }),
       ("gen", { inbox := [("in", [])], outbox := [("out", [])],
                 core := .other (.generator { total := some 1, produced := 1 }) }),
       ("cli", { inbox := [("in", [])], outbox := [("out", [])],
                 core := .other (.semClient { station := "sem", index := 0, next := none }) }),
       ("pe0", { inbox := [("cmd", []), ("in0", [])], outbox := [("out0", [])],
                 core := .other (.pe { mode := "pro" }) }),
       ("rb", { inbox := [("in_mem_resp", [])], outbox := [],
                core := .other (.readBus { requesters := ["pe0"] }) })] }

/-- A semaphore station resource with empty port queues. -/
def exSemRes : Res :=
  { inbox := [("in", [])], outbox := [("out", [])], core := .semaphore (SemCore.init 4) }

/-- A buffer carrying a trigger with no `action` key: on `arrived` it
names station `sem` and index `0`. -/
def exBufNoAction : DataBuffer :=
  { exBufEmptyId with
      id := "b1"
      triggers := [{ states := some "arrived", action := none,
                     station := some "sem", index := some 0 }] }

/-- A pool holding only `exBufNoAction`. -/
def exPoolNoAction : Pool := { buffers := [("b1", exBufNoAction)] }

/-- Simulator with the `sem` station and the `b1` buffer whose trigger
has no action. -/
def exSimNoAction : Sim := { resources := [("sem", exSemRes)], pool := exPoolNoAction }

/-- A message larger than `exStallLink`'s bandwidth. -/
def exStallMsg : Message :=
  { src := "g", dst := "mem", size := 10, kind := "data", payload := {},
    created_at := 0, id := "msg-s" }

/-- A source resource holding `exStallMsg` at the head of its `out`
queue. -/
def exStallRes : Res :=
  { inbox := [], outbox := [("out", [.msg exStallMsg])], core := .memory exMemIdle }

/-- Simulator holding only the stalled source. -/
def exStallSim : Sim := { resources := [("g", exStallRes)] }

/-- A link whose bandwidth (4) is smaller than the head message's size
(10). -/
def exStallLink : Link :=
  { src := "g", src_port := "out", dst := "mem", dst_port := "in",
    bandwidth := 4, latency := 1, pipeline := [[]] }

/-- A 300-byte request waiting at an arbiter input port. -/
def exArbMsg : Message :=
  { src := "pe0", dst := "arb", size := 300, kind := "data", payload := {},
    created_at := 0, id := "msg-arb" }

/-- An arbiter with one input port holding `exArbMsg` and no active
transfers yet. -/
def exArb : ArbCore := { inputs := ["p0"], inbox := [("p0", [.msg exArbMsg])] }

/-- The inflight response list of a resource core, when it is a
memory. -/
def RCore.inflightObs : RCore → Option (List (Nat × Message))
  | .memory m => some m.inflight
  | _ => none

/-- The per-resource part of the state the quiescence claim observes:
the port queues and, for a memory, its inflight response list. -/
def Res.qView (r : Res) :
    List (String × List Item) × List (String × List Item) × Option (List (Nat × Message)) :=
  (r.inbox, r.outbox, r.core.inflightObs)

/-- The full state the quiescence claim observes: every resource's
queues and inflight responses, every link's pipeline stages, and the
buffer pool. -/
def Sim.qObs (sim : Sim) :
    List (String ×
      (List (String × List Item) × List (String × List Item) × Option (List (Nat × Message))))
    × List (List (List Item)) × Pool :=
  (sim.resources.map (fun nr => (nr.1, nr.2.qView)),
   sim.links.map (fun l => l.pipeline), sim.pool)

instance qViewDecEq :
    DecidableEq (List (String × List Item) × List (String × List Item)
      × Option (List (Nat × Message))) := instDecidableEqProd

instance qObsDecEq :
    DecidableEq (List (String ×
        (List (String × List Item) × List (String × List Item)
          × Option (List (Nat × Message))))
      × List (List (List Item)) × Pool) := instDecidableEqProd

/-- Whether a resource's memory core (if any) holds no inflight
responses; trivially true for the other resource kinds. -/
def Res.inflightEmpty (r : Res) : Bool :=
  match r.core with
  | .memory m => m.inflight.isEmpty
  | _ => true

/-- Whether a resource whose tick hook fires from internal schedule or
pipeline state is idle at tick `ticks`: its production/issue schedule is
exhausted or not yet due, no scheduled consume is due, its state machine
is at rest, and its internal pipelines are empty.  Memories, channels,
semaphore stations, plain buses and arbiters need no condition beyond
empty queues (for memories, the inflight list is covered by
`inflightEmpty`). -/
def OtherCore.idleAt (ticks : Nat) : OtherCore → Bool
  | .generator g =>
    g.quotaDone
    || (decide (ticks < g.next_tick)
        && (match g.consume_queue with
            | [] => true
            | (d, _) :: _ => decide (ticks < d)))
  | .semClient c =>
    match c.next with
    | none => true
    | some nx => decide (ticks < nx)
  | .semRecorder rc => rc.armed || decide (ticks < rc.start_tick)
  | .bufProducer p => p.sent || decide (ticks < p.issue_tick)
  | .bufConsumer c => c.issued || decide (ticks < c.consume_tick)
  | .compute c =>
    (decide (c.total_requests ≤ c.issued)
      || decide ((ticks : Int) - c.last_issue_tick < (c.issue_interval : Int)))
    && (match c.consume_queue with
        | [] => true
        | (d, _) :: _ => decide (ticks < d))
  | .pe p => decide (p.mode = "dummy") || decide (p.state = "idle")
  | .bus _ => true
  | .readBus b => b.req_pipeline.all List.isEmpty && b.resp_pipeline.all List.isEmpty
  | .writeBus b => b.req_pipeline.all List.isEmpty && b.resp_pipeline.all List.isEmpty
  | .arbiter _ => true

/-- `OtherCore.idleAt` lifted to every resource kind. -/
def RCore.idleAt (ticks : Nat) : RCore → Bool
  | .other o => o.idleAt ticks
  | _ => true

/-- The per-resource idleness observation at a reference tick, used to
carry the idleness hypotheses through the phases of `Simulator.tick`. -/
def Sim.idleObs (sim : Sim) (t : Nat) : List (String × Bool) :=
  sim.resources.map (fun nr => (nr.1, RCore.idleAt t nr.2.core))

/-- Quiescence as the per-phase lemmas consume it: all port queues
empty, all memory inflight lists empty, all link pipeline stages empty,
and no expected arrivals pending in the pool. -/
def Sim.Quiet (sim : Sim) : Prop :=
  (∀ nr ∈ sim.resources,
    (∀ pq ∈ nr.2.inbox, pq.2 = []) ∧ (∀ pq ∈ nr.2.outbox, pq.2 = [])
      ∧ ∀ m, nr.2.core = RCore.memory m → m.inflight = [])
  ∧ (∀ l ∈ sim.links, ∀ st ∈ l.pipeline, st = [])
  ∧ sim.pool.expected_arrival = []

/-! ## Shared lemmas about the association-list operations -/

theorem alGet_alSet_self {α β : Type} [DecidableEq α] (l : List (α × β)) (k : α) (v : β) :
    alGet (alSet l k v) k = some v := by
  induction l with
  | nil => simp [alGet, alSet]
  | cons hd tl ih =>
    obtain ⟨a, b⟩ := hd
    by_cases h : a = k
    · simp [alGet, alSet, h]
    · simp [alGet, alSet, h, ih]

theorem alGet_alSet_ne {α β : Type} [DecidableEq α] (l : List (α × β)) {k k' : α} (v : β)
    (h : k' ≠ k) : alGet (alSet l k v) k' = alGet l k' := by
  have h' : ¬ k = k' := fun he => h he.symm
  induction l with
  | nil => simp [alGet, alSet, h']
  | cons hd tl ih =>
    obtain ⟨a, b⟩ := hd
    by_cases h1 : a = k
    · subst h1
      simp [alGet, alSet, h']
    · by_cases h2 : a = k' <;> simp [alGet, alSet, h1, h2, ih, h]

theorem alSet_self {α β : Type} [DecidableEq α] {l : List (α × β)} {k : α} {v : β}
    (h : alGet l k = some v) : alSet l k v = l := by
  induction l with
  | nil => simp [alGet] at h
  | cons hd tl ih =>
    obtain ⟨a, b⟩ := hd
    by_cases h1 : a = k
    · subst h1
      simp [alGet] at h
      simp [alSet, h]
    · simp [alGet, h1] at h
      simp [alSet, h1, ih h]

theorem alGet_isSome_alSet {α β : Type} [DecidableEq α] (l : List (α × β)) (k x : α) (v : β) :
    (alGet (alSet l k v) x).isSome = ((alGet l x).isSome || decide (x = k)) := by
  by_cases h : x = k
  · subst h; simp [alGet_alSet_self]
  · simp [alGet_alSet_ne l v h, h]

/-! ## Claim theorems -/

/-- Claim C4 (confirmed): for every `size >= 1`, `Channel.estimate_ticks`
returns `latency + ceil(size / current_bandwidth)` (written
`(size + bw - 1) / bw`) when the current bandwidth is positive, and the
`10^9` sentinel when it is zero — which happens exactly when the channel
is backpressured (given the constructor-validated `bandwidth > 0`). -/
theorem channel_estimate_ticks (c : ChanCore) (size : Nat)
    (hsize : 1 ≤ size) (hbw : 0 < c.bandwidth) :
    (¬ c.backpressured →
      c.estimate_ticks size = c.latency + (size + c.current_bandwidth - 1) / c.current_bandwidth)
    ∧ (c.backpressured → c.estimate_ticks size = 10 ^ 9)
    ∧ (c.current_bandwidth = 0 ↔ c.backpressured) := by
  unfold ChanCore.estimate_ticks ChanCore.current_bandwidth
  cases hb : c.backpressured with
  | true => simp [hb]
  | false =>
    have hne : ¬ c.bandwidth = 0 := by omega
    simp [hb, hne, Nat.max_eq_right hsize]

/-- Witness for C4 at the default channel and `size = 300`. -/
theorem channel_estimate_ticks_witness :
    1 ≤ 300 ∧ 0 < exChan.bandwidth ∧
      (¬ exChan.backpressured →
        exChan.estimate_ticks 300 =
          exChan.latency + (300 + exChan.current_bandwidth - 1) / exChan.current_bandwidth) :=
  ⟨by decide, by decide, (channel_estimate_ticks exChan 300 (by decide) (by decide)).1⟩

/-- Claim C10 (confirmed): `Simulator.deliver` never drops a message —
`Resource.in_queue` creates the port's in-queue on demand, the message
ends up at the tail of `inbox[port]`, every other in-queue is untouched
and the out-queues are untouched. -/
theorem deliver_appends (r : Res) (port : String) (it : Item) :
    alGet (r.deliver port it).inbox port = some ((alGet r.inbox port).getD [] ++ [it])
    ∧ (∀ p, p ≠ port → alGet (r.deliver port it).inbox p = alGet r.inbox p)
    ∧ (r.deliver port it).outbox = r.outbox := by
  refine ⟨?_, ?_, rfl⟩
  · simp [Res.deliver, alPush, alGet_alSet_self]
  · intro p hp
    simp [Res.deliver, alPush, alGet_alSet_ne _ _ hp]

/-- Witness for C10: delivering to a port the station has no queue for
creates the queue and stores the message; the existing `in` queue is
untouched. -/
theorem deliver_appends_witness :
    (alGet (exSemRes.deliver "p9" (.msg exRespMsg)).inbox "p9"
        = some ((alGet exSemRes.inbox "p9").getD [] ++ [.msg exRespMsg]))
    ∧ ("in" ≠ "p9"
    ∧ alGet (exSemRes.deliver "p9" (.msg exRespMsg)).inbox "in" = alGet exSemRes.inbox "in") :=
  ⟨(deliver_appends exSemRes "p9" (.msg exRespMsg)).1, by decide,
    (deliver_appends exSemRes "p9" (.msg exRespMsg)).2.1 "in" (by decide)⟩

/-- Counterexample to claim C9 as stated: a buffer constructed with the
explicit empty id `""` (which the `DataBuffer` constructor accepts) does
not survive the round trip — `from_dict` treats the stored falsy id as
absent (`d.get("id") or f"buf-..."`) and mints a fresh one. -/
theorem from_dict_to_dict_counterexample :
    DataBuffer.from_dict exBufEmptyId.to_dict "buf-00000000" [] ≠ some exBufEmptyId := by
  decide

/-- Claim C9 (corrected): for every `DataBuffer` with a non-empty id (and
the constructor-validated `size > 0`), `from_dict(to_dict(b))` equals `b`
on all serialized fields — id, size, content, state, owner_memory, role,
destination_pe, destination_queue, bytes_received, bytes_sent and
triggers — irrespective of the fresh id and generated content that
`from_dict` would otherwise use. -/
theorem from_dict_to_dict_roundtrip (b : DataBuffer) (fresh : String) (gen : List Nat)
    (hsz : 0 < b.size) (hid : b.id ≠ "") :
    DataBuffer.from_dict b.to_dict fresh gen = some b := by
  unfold DataBuffer.from_dict DataBuffer.to_dict
  have : ¬ b.size = 0 := by omega
  simp [this, hid]

/-- Witness for C9 at a buffer with every serialized field populated. -/
theorem from_dict_to_dict_roundtrip_witness :
    0 < exBufFull.size ∧ exBufFull.id ≠ "" ∧
      DataBuffer.from_dict exBufFull.to_dict "f" [] = some exBufFull :=
  ⟨by decide, by decide, from_dict_to_dict_roundtrip exBufFull "f" [] (by decide) (by decide)⟩

/-! ## Byte-counter invariant lemmas for C3 -/

theorem countersWF_make (size : Nat) (content : Option (List Nat)) (id : String)
    (gen : List Nat) : (DataBuffer.make size content id gen).countersWF := by
  simp only [DataBuffer.make, DataBuffer.countersWF]
  omega

theorem countersWF_add_received {b : DataBuffer} (a : Int) (hb : b.countersWF)
    (ha : 0 ≤ a) : (b.add_received a).countersWF := by
  obtain ⟨h1, h2, h3⟩ := hb
  simp only [DataBuffer.add_received, DataBuffer.countersWF] at *
  omega

theorem countersWF_add_sent_le {b : DataBuffer} (a : Int) (hb : b.countersWF)
    (ha : 0 ≤ a) (hle : a ≤ b.buffering_size) : (b.add_sent a).countersWF := by
  obtain ⟨h1, h2, h3⟩ := hb
  simp only [DataBuffer.add_sent, DataBuffer.buffering_size, DataBuffer.countersWF] at *
  omega

theorem stepSend_wf (oq1 : OutputQueue) (sim1 : Sim) (ch : Option ChanCore)
    (item : TransferItem) (rest : List TransferItem)
    (hitems : oq1.items = item :: rest)
    (hbuf : item.buf.countersWF) (hrest : ∀ it ∈ rest, it.buf.countersWF) :
    ∀ it ∈ (OutputQueue.stepSend oq1 sim1 ch item rest).1.items, it.buf.countersWF := by
  have hall : ∀ it ∈ oq1.items, it.buf.countersWF := by
    rw [hitems]
    intro it hit
    rcases List.mem_cons.mp hit with h1 | h2
    · exact h1 ▸ hbuf
    · exact hrest it h2
  have hbuffering : 0 ≤ item.buf.buffering_size := le_max_left 0 _
  unfold OutputQueue.stepSend
  cases ch with
  | none =>
    dsimp only
    rw [if_neg (by simp)]
    split
    · exact hall
    · next hbpos =>
      split
      · intro it hit
        exact hrest it hit
      · intro it hit
        rcases List.mem_cons.mp hit with he | he
        · subst he
          exact countersWF_add_sent_le _ hbuf hbuffering le_rfl
        · exact hrest it he
  | some c =>
    dsimp only
    split
    · exact hall
    · next hcap =>
      have hcpos : 0 ≤ (c.current_bandwidth : Int) := by positivity
      split
      · exact hall
      · next hbpos =>
        split
        · intro it hit
          exact hrest it hit
        · intro it hit
          rcases List.mem_cons.mp hit with he | he
          · subst he
            exact countersWF_add_sent_le _ hbuf (le_min hbuffering hcpos) (min_le_left _ _)
          · exact hrest it he

/-- Counterexample to claim C3 as stated: `add_sent` — one of the public
operations the claim quantifies over — clamps only against `size`, so on
a freshly constructed buffer (`bytes_received = 0`) it drives
`bytes_sent` to `2 > 0 = bytes_received`, breaking
`bytes_sent <= bytes_received`. -/
theorem databuffer_chain_counterexample :
    ¬ ((DataBuffer.make 4 none "b0" []).add_sent 2).countersWF := by decide

/-- Claim C3 (corrected): the chain
`0 <= bytes_sent <= bytes_received <= size` holds after construction and
is preserved by `add_received` with a non-negative amount, by `add_sent`
whenever the amount is at most the currently buffered amount
(`buffering_size`) — which is exactly the call pattern `OutputQueue.step`
uses — by `OutputQueue.step` itself for every buffer in the queue, and
by the destination buffers `schedule_transfer` creates.  An unrestricted
`add_sent` (see the counterexample) or an unvalidated `from_dict` can
break the chain. -/
theorem databuffer_chain_invariant :
    (∀ size content id gen, (DataBuffer.make size content id gen).countersWF)
    ∧ (∀ (b : DataBuffer) (a : Int), b.countersWF → 0 ≤ a → (b.add_received a).countersWF)
    ∧ (∀ (b : DataBuffer) (a : Int), b.countersWF → 0 ≤ a → a ≤ b.buffering_size →
        (b.add_sent a).countersWF)
    ∧ (∀ (sim : Sim) (src dstm : String) (pe : Option String) (q : String) (d : DataBuffer),
        (Pool.schedule_transfer sim src dstm pe q).2 = some d → d.countersWF)
    ∧ (∀ (oq : OutputQueue) (sim : Sim) (ch : Option ChanCore),
        (∀ it ∈ oq.items, it.buf.countersWF) →
        ∀ it ∈ (OutputQueue.step oq sim ch).1.items, it.buf.countersWF) := by
  refine ⟨countersWF_make, fun b a hb ha => countersWF_add_received a hb ha,
    fun b a hb ha hle => countersWF_add_sent_le a hb ha hle, ?_, ?_⟩
  · intro sim src dstm pe q d h
    unfold Pool.schedule_transfer at h
    split at h
    · simp at h
    · simp only [Option.some.injEq] at h
      subst h
      simp [DataBuffer.countersWF]
  · intro oq sim ch h
    unfold OutputQueue.step
    split
    · exact h
    · next item rest hitems =>
      have hhead : item.buf.countersWF := h item (by rw [hitems]; exact List.mem_cons_self _ _)
      have hrest : ∀ it ∈ rest, it.buf.countersWF :=
        fun it hit => h it (by rw [hitems]; exact List.mem_cons_of_mem _ hit)
      dsimp only
      split
      · exact stepSend_wf _ _ _ _ _ rfl hhead hrest
      · refine stepSend_wf _ _ _ _ _ rfl ?_ hrest
        dsimp only
        split
        · exact countersWF_add_received _ hhead (by obtain ⟨w1, w2, w3⟩ := hhead; omega)
        · exact hhead

/-- Witness for C3: the bounded `add_sent` conjunct at a concrete buffer
that has 2 buffered bytes. -/
theorem databuffer_chain_invariant_witness :
    exBufFull.countersWF ∧ (0 : Int) ≤ 2 ∧ (2 : Int) ≤ exBufFull.buffering_size
    ∧ (exBufFull.add_sent 2).countersWF :=
  ⟨by decide, by decide, by decide,
    databuffer_chain_invariant.2.2.1 exBufFull 2 (by decide) (by decide) (by decide)⟩

/-! ## List.getD/set lemmas shared by the semaphore proofs -/

theorem getD_set_self {α : Type} (l : List α) (i : Nat) (x d : α) (h : i < l.length) :
    (l.set i x).getD i d = x := by
  induction l generalizing i with
  | nil => simp at h
  | cons hd tl ih =>
    cases i with
    | zero => simp
    | succ n =>
      simp only [List.set_cons_succ, List.getD_cons_succ]
      exact ih n (by simpa using h)

theorem getD_set_ne {α : Type} (l : List α) {i j : Nat} (x d : α) (h : i ≠ j) :
    (l.set i x).getD j d = l.getD j d := by
  induction l generalizing i j with
  | nil => simp
  | cons hd tl ih =>
    cases i with
    | zero =>
      cases j with
      | zero => exact absurd rfl h
      | succ m => simp
    | succ n =>
      cases j with
      | zero => simp
      | succ m =>
        simp only [List.set_cons_succ, List.getD_cons_succ]
        exact ih (fun he => h (by simp [he]))

/-! ## Semaphore invariant lemmas for C7 -/

theorem getD_replicate_self {α : Type} (n i : Nat) (v : α) :
    (List.replicate n v).getD i v = v := by
  induction n generalizing i with
  | zero => simp
  | succ m ih => cases i <;> simp [ih]

theorem SemCore.Inv_init (count : Nat) : (SemCore.init count).Inv := by
  refine ⟨by simp [SemCore.init], by simp [SemCore.init], ?_, ?_⟩
  · intro i
    simp [SemCore.init, getD_replicate_self]
  · intro i h
    simp [SemCore.init, getD_replicate_self]

theorem SemCore.Inv_handle_signal (s : SemCore) (name : String) (idx : Nat) (req : Item)
    (ticks nid : Nat) (hs : s.Inv) (hidx : idx < s.count) :
    (s.handle_signal name idx req ticks nid).1.Inv := by
  obtain ⟨hlv, hlw, hnn, hwv⟩ := hs
  unfold SemCore.handle_signal
  cases hw : s.waiters.getD idx [] with
  | cons w restW =>
    refine ⟨hlv, by simpa using hlw, hnn, ?_⟩
    intro i hpos
    by_cases hij : idx = i
    · subst hij
      have := hwv idx hpos
      rw [hw] at this
      exact absurd this (by simp)
    · rw [getD_set_ne _ _ _ hij]
      exact hwv i hpos
  | nil =>
    refine ⟨by simpa using hlv, hlw, ?_, ?_⟩
    · intro i
      by_cases hij : idx = i
      · subst hij
        rw [getD_set_self _ _ _ _ (by omega)]
        have := hnn idx
        omega
      · rw [getD_set_ne _ _ _ hij]
        exact hnn i
    · intro i hpos
      by_cases hij : idx = i
      · subst hij
        exact hw
      · rw [getD_set_ne _ _ _ hij] at hpos
        exact hwv i hpos

theorem SemCore.Inv_handle_wait (s : SemCore) (name : String) (idx : Nat) (req : Item)
    (ticks nid : Nat) (hs : s.Inv) (hidx : idx < s.count) :
    (s.handle_wait name idx req ticks nid).1.Inv := by
  obtain ⟨hlv, hlw, hnn, hwv⟩ := hs
  unfold SemCore.handle_wait
  split
  · next hpos =>
    refine ⟨by simpa using hlv, hlw, ?_, ?_⟩
    · intro i
      by_cases hij : idx = i
      · subst hij
        rw [getD_set_self _ _ _ _ (by omega)]
        omega
      · rw [getD_set_ne _ _ _ hij]
        exact hnn i
    · intro i hp
      by_cases hij : idx = i
      · subst hij
        exact hwv idx hpos
      · rw [getD_set_ne _ _ _ hij] at hp
        exact hwv i hp
  · next hneg =>
    refine ⟨hlv, by simpa using hlw, hnn, ?_⟩
    intro i hp
    by_cases hij : idx = i
    · subst hij
      exact absurd hp hneg
    · rw [getD_set_ne _ _ _ hij]
      exact hwv i hp

theorem SemCore.Inv_tickLoop (inq : List Item) (s : SemCore) (name : String)
    (ticks : Nat) (out : List Item) (nid : Nat) (hs : s.Inv) :
    (s.tickLoop name ticks inq out nid).1.Inv := by
  induction inq generalizing s out nid with
  | nil => simpa [SemCore.tickLoop] using hs
  | cons req rest ih =>
    unfold SemCore.tickLoop
    dsimp only
    by_cases hval : 0 ≤ req.payload.index.getD (-1)
        ∧ req.payload.index.getD (-1) < (s.count : Int)
    · rw [if_pos hval]
      have hidx : (req.payload.index.getD (-1)).toNat < s.count := by omega
      by_cases hsig : req.kind = "sem_signal"
      · rw [if_pos hsig]
        have h1 := SemCore.Inv_handle_signal s name (req.payload.index.getD (-1)).toNat
          req ticks nid hs hidx
        rcases hseq : s.handle_signal name (req.payload.index.getD (-1)).toNat req ticks nid
          with ⟨s', msgs, nid'⟩
        rw [hseq] at h1
        exact ih s' _ _ h1
      · rw [if_neg hsig]
        by_cases hwt : req.kind = "sem_wait"
        · rw [if_pos hwt]
          have h1 := SemCore.Inv_handle_wait s name (req.payload.index.getD (-1)).toNat
            req ticks nid hs hidx
          rcases hseq : s.handle_wait name (req.payload.index.getD (-1)).toNat req ticks nid
            with ⟨s', msgs, nid'⟩
          rw [hseq] at h1
          exact ih s' _ _ h1
        · rw [if_neg hwt]
          exact ih s _ _ hs
    · rw [if_neg hval]
      exact ih s _ _ hs

/-- Claim C7 (confirmed): the freshly constructed station satisfies
`values[i] >= 0` with empty waiter queues, and processing any in-queue
of messages through the station's drain loop preserves
`values[i] >= 0 /\ (values[i] > 0 -> waiters[i] = [])` — a signal grants
a queued waiter without incrementing, a wait decrements only when the
counter is positive and otherwise enqueues.  Hence the invariant holds
after any sequence of processed messages. -/
theorem semaphore_invariant :
    (∀ count, (SemCore.init count).Inv)
    ∧ (∀ (inq : List Item) (s : SemCore) (name : String) (ticks : Nat)
         (out : List Item) (nid : Nat),
        s.Inv → (s.tickLoop name ticks inq out nid).1.Inv)
    ∧ (∀ (sim : Sim) (name : String) (r : Res) (s : SemCore),
        alGet sim.resources name = some r → r.core = .semaphore s → s.Inv →
        ∃ r' s', alGet (SemaphoreStation.tick sim name).resources name = some r'
          ∧ r'.core = .semaphore s' ∧ s'.Inv) := by
  refine ⟨SemCore.Inv_init, fun inq s name ticks out nid hs => SemCore.Inv_tickLoop inq s name ticks out nid hs, ?_⟩
  intro sim name r s hr hcore hs
  unfold SemaphoreStation.tick
  rw [hr]
  dsimp only
  rw [hcore]
  dsimp only
  cases hin : alGet r.inbox "in" with
  | none => exact ⟨r, s, hr, hcore, hs⟩
  | some inq =>
    dsimp only
    have h1 := SemCore.Inv_tickLoop inq s name sim.ticks [] sim.next_id hs
    rcases hseq : s.tickLoop name sim.ticks inq [] sim.next_id with ⟨s', outAdd, nid'⟩
    rw [hseq] at h1
    refine ⟨{ inbox := alSet r.inbox "in" [],
              outbox := List.foldl (fun ob it => alPush ob "out" it) r.outbox outAdd,
              core := RCore.semaphore s' }, s', ?_, rfl, h1⟩
    show alGet (alSet sim.resources name _) name = _
    rw [alGet_alSet_self]

/-- Witness for C7: one signal then one wait on index 0 of a fresh
2-counter station. -/
theorem semaphore_invariant_witness :
    (SemCore.init 2).Inv ∧
      ((SemCore.init 2).tickLoop "sem" 0
        [.msg { src := "a", dst := "sem", size := 1, kind := "sem_signal",
                payload := { index := some 0 }, created_at := 0, id := "m1" },
         .msg { src := "b", dst := "sem", size := 1, kind := "sem_wait",
                payload := { index := some 0 }, created_at := 0, id := "m2" }]
        [] 0).1.Inv :=
  ⟨semaphore_invariant.1 2,
    semaphore_invariant.2.1 _ (SemCore.init 2) "sem" 0 [] 0 (semaphore_invariant.1 2)⟩

/-! ## Memory occupancy lemmas for C6 -/

theorem memCoreOf_some_iff {sim : Sim} {name : String} {m : MemCore} :
    sim.memCoreOf name = some m ↔
      ∃ r, alGet sim.resources name = some r ∧ r.core = .memory m := by
  unfold Sim.memCoreOf
  cases h : alGet sim.resources name with
  | none => simp
  | some r =>
    cases hc : r.core with
    | memory m0 => simp [hc]
    | channel c => simp [hc]
    | semaphore s => simp [hc]
    | other o => simp [hc]

theorem memCoreOf_deliver (sim : Sim) (x p : String) (it : Item) (n : String) :
    (sim.deliver x p it).memCoreOf n = sim.memCoreOf n := by
  unfold Sim.deliver
  cases h : alGet sim.resources x with
  | none => rfl
  | some r =>
    unfold Sim.memCoreOf
    by_cases hn : n = x
    · subst hn
      rw [show (alGet (alSet sim.resources n (r.deliver p it)) n) = some (r.deliver p it) from
          alGet_alSet_self _ _ _, h]
      rfl
    · rw [alGet_alSet_ne _ _ hn]

theorem memCoreOf_fireTriggers (trigs : List Trigger) (sim : Sim) (b st : String)
    (n : String) : (Sim.fireTriggers sim trigs b st).memCoreOf n = sim.memCoreOf n := by
  induction trigs generalizing sim with
  | nil => rfl
  | cons t rest ih =>
    unfold Sim.fireTriggers
    dsimp only
    rw [ih]
    split
    · rfl
    · split
      · rfl
      · split
        · rfl
        · rw [memCoreOf_deliver]
          rfl

theorem memCoreOf_set_state (sim : Sim) (b st : String) (n : String) :
    (Pool.set_state sim b st).memCoreOf n = sim.memCoreOf n := by
  unfold Pool.set_state
  cases h : alGet sim.pool.buffers b with
  | none => rfl
  | some buf =>
    dsimp only
    rw [memCoreOf_fireTriggers]
    rfl

theorem memCoreOf_setRes_self (sim : Sim) (name : String) (r' : Res) {m' : MemCore}
    (hc : r'.core = .memory m') : (sim.setRes name r').memCoreOf name = some m' := by
  rw [memCoreOf_some_iff]
  exact ⟨r', alGet_alSet_self _ _ _, hc⟩

theorem memOcc_issueOne (sim : Sim) (name : String) (lat : Nat) (req : Item)
    {m : MemCore} (h : sim.memCoreOf name = some m) :
    ∃ m', (Memory.issueOne sim name lat req).memCoreOf name = some m'
      ∧ m'.occState = m.occState := by
  obtain ⟨r, hr, hcore⟩ := memCoreOf_some_iff.mp h
  unfold Memory.issueOne
  by_cases h1 : req.kind = "buffer_transfer"
  · rw [if_pos h1]
    try dsimp only [Sim.freshMsgId, Sim.freshBufId, Sim.setRes]
    cases hb : req.payload.buffer with
    | live b =>
      try dsimp only [Sim.freshMsgId, Sim.freshBufId, Sim.setRes]
      by_cases he : sim.pool.existsId b.id = true
      · rw [if_pos he]
        try dsimp only [Sim.freshMsgId, Sim.freshBufId, Sim.setRes]
        rw [hr]
        try dsimp only [Sim.freshMsgId, Sim.freshBufId, Sim.setRes]
        rw [hcore]
        try dsimp only [Sim.freshMsgId, Sim.freshBufId, Sim.setRes]
        rw [memCoreOf_set_state]
        exact ⟨_, memCoreOf_setRes_self _ _ _ rfl, rfl⟩
      · rw [if_neg he]
        try dsimp only [Sim.freshMsgId, Sim.freshBufId, Sim.setRes]
        rw [hr]
        try dsimp only [Sim.freshMsgId, Sim.freshBufId, Sim.setRes]
        rw [hcore]
        try dsimp only [Sim.freshMsgId, Sim.freshBufId, Sim.setRes]
        rw [memCoreOf_set_state]
        exact ⟨_, memCoreOf_setRes_self _ _ _ rfl, rfl⟩
    | dict d =>
      try dsimp only [Sim.freshMsgId, Sim.freshBufId, Sim.setRes]
      cases hfd : DataBuffer.from_dict d ("buf-" ++ toString sim.next_id) [] with
      | some b =>
        try rw [hfd]
        try dsimp only [Sim.freshMsgId, Sim.freshBufId, Sim.setRes]
        by_cases he : sim.pool.existsId b.id = true
        · rw [if_pos he]
          try dsimp only [Sim.freshMsgId, Sim.freshBufId, Sim.setRes]
          rw [hr]
          try dsimp only [Sim.freshMsgId, Sim.freshBufId, Sim.setRes]
          rw [hcore]
          try dsimp only [Sim.freshMsgId, Sim.freshBufId, Sim.setRes]
          rw [memCoreOf_set_state]
          exact ⟨_, memCoreOf_setRes_self _ _ _ rfl, rfl⟩
        · rw [if_neg he]
          try dsimp only [Sim.freshMsgId, Sim.freshBufId, Sim.setRes]
          rw [hr]
          try dsimp only [Sim.freshMsgId, Sim.freshBufId, Sim.setRes]
          rw [hcore]
          try dsimp only [Sim.freshMsgId, Sim.freshBufId, Sim.setRes]
          rw [memCoreOf_set_state]
          exact ⟨_, memCoreOf_setRes_self _ _ _ rfl, rfl⟩
      | none =>
        try rw [hfd]
        try dsimp only [Sim.freshMsgId, Sim.freshBufId, Sim.setRes]
        by_cases he : sim.pool.existsId (DataBuffer.make 1 none ("buf-" ++ toString sim.next_id) []).id = true
        · rw [if_pos he]
          try dsimp only [Sim.freshMsgId, Sim.freshBufId, Sim.setRes]
          rw [hr]
          try dsimp only [Sim.freshMsgId, Sim.freshBufId, Sim.setRes]
          rw [hcore]
          try dsimp only [Sim.freshMsgId, Sim.freshBufId, Sim.setRes]
          rw [memCoreOf_set_state]
          exact ⟨_, memCoreOf_setRes_self _ _ _ rfl, rfl⟩
        · rw [if_neg he]
          try dsimp only [Sim.freshMsgId, Sim.freshBufId, Sim.setRes]
          rw [hr]
          try dsimp only [Sim.freshMsgId, Sim.freshBufId, Sim.setRes]
          rw [hcore]
          try dsimp only [Sim.freshMsgId, Sim.freshBufId, Sim.setRes]
          rw [memCoreOf_set_state]
          exact ⟨_, memCoreOf_setRes_self _ _ _ rfl, rfl⟩
    | absent =>
      try dsimp only [Sim.freshMsgId, Sim.freshBufId, Sim.setRes]
      by_cases he : sim.pool.existsId (DataBuffer.make (req.sizeOr 1) none ("buf-" ++ toString sim.next_id) []).id = true
      · rw [if_pos he]
        try dsimp only [Sim.freshMsgId, Sim.freshBufId, Sim.setRes]
        rw [hr]
        try dsimp only [Sim.freshMsgId, Sim.freshBufId, Sim.setRes]
        rw [hcore]
        try dsimp only [Sim.freshMsgId, Sim.freshBufId, Sim.setRes]
        rw [memCoreOf_set_state]
        exact ⟨_, memCoreOf_setRes_self _ _ _ rfl, rfl⟩
      · rw [if_neg he]
        try dsimp only [Sim.freshMsgId, Sim.freshBufId, Sim.setRes]
        rw [hr]
        try dsimp only [Sim.freshMsgId, Sim.freshBufId, Sim.setRes]
        rw [hcore]
        try dsimp only [Sim.freshMsgId, Sim.freshBufId, Sim.setRes]
        rw [memCoreOf_set_state]
        exact ⟨_, memCoreOf_setRes_self _ _ _ rfl, rfl⟩
  · rw [if_neg h1]
    by_cases h2 : req.kind = "buffer_consume"
    · rw [if_pos h2]
      try dsimp only [Sim.freshMsgId, Sim.freshBufId, Sim.setRes]
      by_cases h3 : pyTruthy req.payload.buffer_id = true
      · rw [if_pos h3]
        by_cases hown : sim.pool.ownerOf (req.payload.buffer_id.getD "") = some name
        · rw [if_pos hown]
          have hx : (Pool.set_state { sim with pool := (sim.pool.delete (req.payload.buffer_id.getD "")).2 } (req.payload.buffer_id.getD "") "deallocated").memCoreOf name = some m := by
            rw [memCoreOf_set_state]
            exact h
          obtain ⟨r1, hr1, hc1⟩ := memCoreOf_some_iff.mp hx
          try dsimp only [Sim.freshMsgId, Sim.freshBufId, Sim.setRes]
          rw [hr1]
          try dsimp only [Sim.freshMsgId, Sim.freshBufId, Sim.setRes]
          rw [hc1]
          try dsimp only [Sim.freshMsgId, Sim.freshBufId, Sim.setRes]
          exact ⟨_, memCoreOf_setRes_self _ _ _ rfl, rfl⟩
        · rw [if_neg hown]
          have hx : (Pool.set_state sim (req.payload.buffer_id.getD "") "deallocated").memCoreOf name = some m := by
            rw [memCoreOf_set_state]
            exact h
          obtain ⟨r1, hr1, hc1⟩ := memCoreOf_some_iff.mp hx
          try dsimp only [Sim.freshMsgId, Sim.freshBufId, Sim.setRes]
          rw [hr1]
          try dsimp only [Sim.freshMsgId, Sim.freshBufId, Sim.setRes]
          rw [hc1]
          try dsimp only [Sim.freshMsgId, Sim.freshBufId, Sim.setRes]
          exact ⟨_, memCoreOf_setRes_self _ _ _ rfl, rfl⟩
      · rw [if_neg h3]
        try dsimp only [Sim.freshMsgId, Sim.freshBufId, Sim.setRes]
        rw [hr]
        try dsimp only [Sim.freshMsgId, Sim.freshBufId, Sim.setRes]
        rw [hcore]
        try dsimp only [Sim.freshMsgId, Sim.freshBufId, Sim.setRes]
        exact ⟨_, memCoreOf_setRes_self _ _ _ rfl, rfl⟩
    · rw [if_neg h2]
      try dsimp only [Sim.freshMsgId, Sim.freshBufId, Sim.setRes]
      rw [hr]
      try dsimp only [Sim.freshMsgId, Sim.freshBufId, Sim.setRes]
      rw [hcore]
      try dsimp only [Sim.freshMsgId, Sim.freshBufId, Sim.setRes]
      exact ⟨_, memCoreOf_setRes_self _ _ _ rfl, rfl⟩

theorem memOcc_issueLoop (fuel : Nat) (sim : Sim) (name : String)
    {m : MemCore} (h : sim.memCoreOf name = some m) :
    ∃ m', (Memory.issueLoop sim name fuel).memCoreOf name = some m'
      ∧ m'.occState = m.occState := by
  induction fuel generalizing sim m with
  | zero => exact ⟨m, h, rfl⟩
  | succ fuel ih =>
    obtain ⟨r, hr, hcore⟩ := memCoreOf_some_iff.mp h
    unfold Memory.issueLoop
    rw [hr]
    dsimp only
    rw [hcore]
    dsimp only
    cases hq : (alGet r.inbox "in").getD [] with
    | nil => exact ⟨m, h, rfl⟩
    | cons req rest =>
      dsimp only
      have h1 : (Sim.setRes sim name
          { r with inbox := alSet r.inbox "in" rest,
                   core := .memory { m with bytes_in_tick := m.bytes_in_tick + req.sizeOr 0 } }).memCoreOf name
          = some { m with bytes_in_tick := m.bytes_in_tick + req.sizeOr 0 } :=
        memCoreOf_setRes_self _ _ _ rfl
      obtain ⟨m2, h2, hocc2⟩ := memOcc_issueOne _ name _ req h1
      obtain ⟨m3, h3, hocc3⟩ := ih _ h2
      refine ⟨m3, h3, ?_⟩
      rw [hocc3, hocc2]
      rfl

theorem memOcc_emitLoop (fuel : Nat) (sim : Sim) (name : String)
    {m : MemCore} (h : sim.memCoreOf name = some m) :
    ∃ m', (Memory.emitLoop sim name fuel).memCoreOf name = some m'
      ∧ m'.occState = m.occState := by
  induction fuel generalizing sim m with
  | zero => exact ⟨m, h, rfl⟩
  | succ fuel ih =>
    obtain ⟨r, hr, hcore⟩ := memCoreOf_some_iff.mp h
    unfold Memory.emitLoop
    rw [hr]
    dsimp only
    rw [hcore]
    dsimp only
    cases hq : m.inflight with
    | nil => exact ⟨m, h, rfl⟩
    | cons p rest =>
      obtain ⟨ready, resp⟩ := p
      dsimp only
      by_cases hrdy : ready ≤ sim.ticks
      · rw [if_pos hrdy]
        have h1 := memCoreOf_setRes_self sim name (Res.send { r with core := RCore.memory { m with inflight := rest, bytes_out_tick := m.bytes_out_tick + resp.size } } "out" (.msg resp)) rfl
        obtain ⟨m3, h3, hocc3⟩ := ih _ h1
        refine ⟨m3, h3, ?_⟩
        rw [hocc3]
        rfl
      · rw [if_neg hrdy]
        exact ⟨m, h, rfl⟩

theorem occupancyUpdate_bounds (m : MemCore) (h0 : 0 ≤ m.bytes_current)
    (hf : 0 ≤ m.fill_rate) (hd : 0 ≤ m.drain_rate) (hl : 0 ≤ m.size_limit) :
    0 ≤ (Memory.occupancyUpdate m).bytes_current
    ∧ (Memory.occupancyUpdate m).bytes_current ≤ m.size_limit
    ∧ ((Memory.occupancyUpdate m).backpressured
        ↔ m.size_limit ≤ (Memory.occupancyUpdate m).bytes_current) := by
  unfold Memory.occupancyUpdate
  refine ⟨?_, ?_, ?_⟩
  · dsimp only
    omega
  · dsimp only
    omega
  · dsimp only
    simp only [decide_eq_true_eq]

theorem chanCoreOf_setChanBackpressure_ne (s : Sim) (ch : String) (flag : Bool)
    (x : String) (hx : x ≠ ch) :
    (Memory.setChanBackpressure s ch flag).chanCoreOf x = s.chanCoreOf x := by
  unfold Memory.setChanBackpressure
  cases hg : alGet s.resources ch with
  | none => rfl
  | some r =>
    dsimp only
    cases hc : r.core with
    | channel c =>
      dsimp only
      unfold Sim.chanCoreOf Sim.setRes
      dsimp only
      rw [alGet_alSet_ne _ _ hx]
    | memory m => rfl
    | semaphore sem => rfl
    | other o => rfl

theorem chanCoreOf_propagate_not_mem (chans : List String) (sim : Sim) (flag : Bool)
    (x : String) (hx : x ∉ chans) :
    (Memory.propagateBackpressure sim chans flag).chanCoreOf x = sim.chanCoreOf x := by
  induction chans generalizing sim with
  | nil => rfl
  | cons a rest ih =>
    have hxa : x ≠ a := fun he => hx (he ▸ List.mem_cons_self a rest)
    have hxr : x ∉ rest := fun hm => hx (List.mem_cons_of_mem a hm)
    show (Memory.propagateBackpressure (Memory.setChanBackpressure sim a flag) rest flag).chanCoreOf x = _
    rw [ih _ hxr, chanCoreOf_setChanBackpressure_ne _ _ _ _ hxa]

theorem chanCoreOf_propagate_mem (chans : List String) (sim : Sim) (flag : Bool)
    (ch : String) (hm : ch ∈ chans) :
    ∀ c', (Memory.propagateBackpressure sim chans flag).chanCoreOf ch = some c' →
      c'.backpressured = flag := by
  induction chans generalizing sim with
  | nil => cases hm
  | cons a rest ih =>
    by_cases hmr : ch ∈ rest
    · exact fun c' h' => ih _ hmr c' h'
    · have ha : ch = a := by
        rcases List.mem_cons.mp hm with h' | h'
        · exact h'
        · exact absurd h' hmr
      subst ha
      intro c' h'
      rw [show Memory.propagateBackpressure sim (ch :: rest) flag
            = Memory.propagateBackpressure (Memory.setChanBackpressure sim ch flag) rest flag from rfl,
          chanCoreOf_propagate_not_mem rest _ flag ch hmr] at h'
      unfold Memory.setChanBackpressure at h'
      cases hg : alGet sim.resources ch with
      | none =>
        rw [hg] at h'
        unfold Sim.chanCoreOf at h'
        rw [hg] at h'
        cases h'
      | some r =>
        rw [hg] at h'
        dsimp only at h'
        cases hc : r.core with
        | channel c =>
          rw [hc] at h'
          dsimp only at h'
          unfold Sim.chanCoreOf Sim.setRes at h'
          rw [alGet_alSet_self] at h'
          dsimp only at h'
          cases h'
          rfl
        | memory mm =>
          rw [hc] at h'
          dsimp only at h'
          unfold Sim.chanCoreOf at h'
          rw [hg] at h'
          dsimp only at h'
          rw [hc] at h'
          cases h'
        | semaphore ss =>
          rw [hc] at h'
          dsimp only at h'
          unfold Sim.chanCoreOf at h'
          rw [hg] at h'
          dsimp only at h'
          rw [hc] at h'
          cases h'
        | other oo =>
          rw [hc] at h'
          dsimp only at h'
          unfold Sim.chanCoreOf at h'
          rw [hg] at h'
          dsimp only at h'
          rw [hc] at h'
          cases h'

theorem memCoreOf_setChanBackpressure (s : Sim) (ch : String) (flag : Bool)
    (n : String) : (Memory.setChanBackpressure s ch flag).memCoreOf n = s.memCoreOf n := by
  unfold Memory.setChanBackpressure
  cases hg : alGet s.resources ch with
  | none => rfl
  | some r =>
    dsimp only
    cases hc : r.core with
    | channel c =>
      dsimp only
      unfold Sim.memCoreOf Sim.setRes
      dsimp only
      by_cases hn : n = ch
      · subst hn
        rw [alGet_alSet_self, hg]
        dsimp only
        rw [hc]
      · rw [alGet_alSet_ne _ _ hn]
    | memory m => rfl
    | semaphore sem => rfl
    | other o => rfl

theorem memCoreOf_propagate (chans : List String) (sim : Sim) (flag : Bool)
    (n : String) :
    (Memory.propagateBackpressure sim chans flag).memCoreOf n = sim.memCoreOf n := by
  induction chans generalizing sim with
  | nil => rfl
  | cons a rest ih =>
    show (Memory.propagateBackpressure (Memory.setChanBackpressure sim a flag) rest
      flag).memCoreOf n = _
    rw [ih, memCoreOf_setChanBackpressure]

/-- Claim C6 (confirmed): after every `Memory.tick` the occupancy
`bytes_current` lies in `[0, size_limit]` — the fill is clamped by
`min(..., fill_rate)` and `min(size_limit, ...)`, the drain by
`min(..., drain_rate, bytes_current)` and `max(0, ...)`, so the update
saturates and cannot overflow or go negative — `backpressured` is set
exactly when `bytes_current >= size_limit`, and the flag is propagated
via `set_backpressure` to every registered inbound channel (every
inbound channel resolved in the post-tick state carries the flag). -/
theorem memory_tick_occupancy (sim : Sim) (name : String) (m : MemCore)
    (h : sim.memCoreOf name = some m)
    (h0 : 0 ≤ m.bytes_current) (hf : 0 ≤ m.fill_rate) (hd : 0 ≤ m.drain_rate)
    (hl : 0 ≤ m.size_limit) :
    ∃ m', (Memory.tick sim name).memCoreOf name = some m'
      ∧ 0 ≤ m'.bytes_current
      ∧ m'.bytes_current ≤ m'.size_limit
      ∧ (m'.backpressured ↔ m'.size_limit ≤ m'.bytes_current)
      ∧ m'.size_limit = m.size_limit
      ∧ m'.inbound_channels = m.inbound_channels
      ∧ (∀ ch ∈ m'.inbound_channels, ∀ c',
           (Memory.tick sim name).chanCoreOf ch = some c' →
           c'.backpressured = m'.backpressured) := by
  obtain ⟨r, hr, hcore⟩ := memCoreOf_some_iff.mp h
  unfold Memory.tick
  rw [hr]
  dsimp only
  rw [hcore]
  dsimp only
  have h1 : (sim.setRes name { r with
      core := .memory { m with bytes_in_tick := 0, bytes_out_tick := 0 } }).memCoreOf name
      = some { m with bytes_in_tick := 0, bytes_out_tick := 0 } :=
    memCoreOf_setRes_self _ _ _ rfl
  obtain ⟨m2, h2, hocc2⟩ := memOcc_issueLoop m.max_issue_per_tick _ name h1
  obtain ⟨m3, h3, hocc3⟩ := memOcc_emitLoop _ _ name h2
  obtain ⟨r3, hr3, hcore3⟩ := memCoreOf_some_iff.mp h3
  rw [hr3]
  dsimp only
  rw [hcore3]
  dsimp only
  have hocc : m3.occState = m.occState := by
    rw [hocc3, hocc2]
    rfl
  have hcomp : m3.size_limit = m.size_limit ∧ m3.fill_rate = m.fill_rate
      ∧ m3.drain_rate = m.drain_rate ∧ m3.inbound_channels = m.inbound_channels
      ∧ m3.bytes_current = m.bytes_current := by
    simpa [MemCore.occState, Prod.ext_iff] using hocc
  obtain ⟨hsl, hfr, hdr, hch, hbc⟩ := hcomp
  have hb := occupancyUpdate_bounds m3 (hbc ▸ h0) (hfr ▸ hf) (hdr ▸ hd) (hsl ▸ hl)
  refine ⟨Memory.occupancyUpdate m3, ?_, hb.1, ?_, ?_, ?_, ?_, ?_⟩
  · rw [memCoreOf_propagate]
    exact memCoreOf_setRes_self _ _ _ rfl
  · exact hsl ▸ hb.2.1
  · exact hb.2.2
  · exact hsl
  · exact hch
  · intro ch hm' c' hc'
    exact chanCoreOf_propagate_mem _ _ _ ch hm' c' hc'

/-- Witness for C6 at the quiescent one-memory simulator. -/
theorem memory_tick_occupancy_witness :
    exSimIdle.memCoreOf "m" = some exMemIdle
    ∧ (0 : Int) ≤ exMemIdle.bytes_current ∧ (0 : Int) ≤ exMemIdle.fill_rate
    ∧ (0 : Int) ≤ exMemIdle.drain_rate ∧ (0 : Int) ≤ exMemIdle.size_limit
    ∧ ∃ m', (Memory.tick exSimIdle "m").memCoreOf "m" = some m'
        ∧ 0 ≤ m'.bytes_current
        ∧ m'.bytes_current ≤ m'.size_limit
        ∧ (m'.backpressured ↔ m'.size_limit ≤ m'.bytes_current)
        ∧ m'.size_limit = exMemIdle.size_limit
        ∧ m'.inbound_channels = exMemIdle.inbound_channels
        ∧ (∀ ch ∈ m'.inbound_channels, ∀ c',
             (Memory.tick exSimIdle "m").chanCoreOf ch = some c' →
             c'.backpressured = m'.backpressured) :=
  ⟨by decide, by decide, by decide, by decide, by decide,
    memory_tick_occupancy exSimIdle "m" exMemIdle (by decide) (by decide) (by decide)
      (by decide) (by decide)⟩

/-! ## Link stall lemmas for C2 -/

theorem outbox_map_deliver (sim : Sim) (x p : String) (it : Item) (n : String) :
    (alGet (sim.deliver x p it).resources n).map (·.outbox)
      = (alGet sim.resources n).map (·.outbox) := by
  unfold Sim.deliver
  cases h : alGet sim.resources x with
  | none => rfl
  | some r =>
    dsimp only
    by_cases hn : n = x
    · subst hn
      rw [alGet_alSet_self, h]
      rfl
    · rw [alGet_alSet_ne _ _ hn]

theorem deliverAll_obs (stage : List Item) (l : Link) (sim : Sim) :
    (Link.deliverAll l sim stage).1.src = l.src
    ∧ (Link.deliverAll l sim stage).1.src_port = l.src_port
    ∧ (Link.deliverAll l sim stage).1.bandwidth = l.bandwidth
    ∧ (Link.deliverAll l sim stage).1.pipeline = l.pipeline
    ∧ (Link.deliverAll l sim stage).1.latency = l.latency
    ∧ ∀ n, (alGet (Link.deliverAll l sim stage).2.resources n).map (·.outbox)
        = (alGet sim.resources n).map (·.outbox) := by
  induction stage generalizing l sim with
  | nil => exact ⟨rfl, rfl, rfl, rfl, rfl, fun n => rfl⟩
  | cons it rest ih =>
    simp only [Link.deliverAll]
    refine ⟨(ih _ _).1, (ih _ _).2.1, (ih _ _).2.2.1, (ih _ _).2.2.2.1,
      (ih _ _).2.2.2.2.1, fun n => ?_⟩
    rw [(ih _ _).2.2.2.2.2 n]
    exact outbox_map_deliver sim l.dst l.dst_port it n

theorem pullLoop_blocked (capacity : Nat) (it : Item) (rest acc : List Item)
    (h : capacity < it.sizeOr 1) :
    Link.pullLoop capacity (it :: rest) acc = (acc, it :: rest) := by
  unfold Link.pullLoop
  rw [if_neg (by omega)]

theorem pullDeliver_blocked (l : Link) (sim : Sim) (capacity : Nat) (it : Item)
    (rest : List Item) (h : capacity < it.sizeOr 1) :
    Link.pullDeliver l sim capacity (it :: rest) = (l, sim, it :: rest) := by
  unfold Link.pullDeliver
  rw [if_neg (by omega)]

theorem mem_of_mem_dropLast {α : Type} {l : List α} {x : α} (h : x ∈ l.dropLast) :
    x ∈ l := by
  induction l with
  | nil => simp at h
  | cons a rest ih =>
    cases rest with
    | nil => simp at h
    | cons b r2 =>
      rcases List.mem_cons.mp h with h1 | h2
      · exact h1 ▸ List.mem_cons_self _ _
      · exact List.mem_cons_of_mem _ (ih h2)

theorem link_stall_step (l1 : Link) (sim1 : Sim) (r1 : Res) (m : Item) (tl : List Item)
    (hr : alGet sim1.resources l1.src = some r1)
    (hq : alGet r1.outbox l1.src_port = some (m :: tl))
    (hsize : l1.bandwidth < m.sizeOr 1)
    (hpipe : ∀ stage ∈ l1.pipeline, m ∉ stage) :
    (Link.tick l1 sim1).1.src = l1.src
    ∧ (Link.tick l1 sim1).1.src_port = l1.src_port
    ∧ (Link.tick l1 sim1).1.bandwidth = l1.bandwidth
    ∧ (∃ r', alGet (Link.tick l1 sim1).2.resources l1.src = some r'
        ∧ alGet r'.outbox l1.src_port = some (m :: tl))
    ∧ (∀ stage ∈ (Link.tick l1 sim1).1.pipeline, m ∉ stage) := by
  unfold Link.tick
  dsimp only
  by_cases hlat : 1 ≤ l1.latency
  · rw [if_pos hlat]
    obtain ⟨hsrc, hport, hbw, hpl, hlt, hob⟩ :=
      deliverAll_obs ((l1.pipeline.getLast?).getD [])
        { l1 with ticks := l1.ticks + 1, bytes_moved_this_tick := 0 } sim1
    rcases hda : Link.deliverAll { l1 with ticks := l1.ticks + 1, bytes_moved_this_tick := 0 }
        sim1 ((l1.pipeline.getLast?).getD []) with ⟨lA, simA⟩
    rw [hda] at hsrc hport hbw hpl hlt hob
    dsimp only at hsrc hport hbw hpl hlt hob
    dsimp only
    have hob' := hob l1.src
    rw [hr] at hob'
    cases hg2 : alGet simA.resources lA.src with
    | none =>
      rw [hsrc] at hg2
      rw [hg2] at hob'
      cases hob'
    | some r2 =>
      rw [hsrc] at hg2
      rw [hg2] at hob'
      have hout2 : r2.outbox = r1.outbox := by simpa using hob'
      dsimp only
      rw [show alGet r2.outbox lA.src_port = some (m :: tl) by
        rw [hout2, hport]; exact hq]
      dsimp only
      rw [show Link.pullLoop lA.bandwidth (m :: tl) [] = ([], m :: tl) from
        pullLoop_blocked _ _ _ _ (by rw [hbw]; exact hsize)]
      dsimp only
      refine ⟨hsrc, hport, hbw, ?_, ?_⟩
      · refine ⟨{ r2 with outbox := alSet r2.outbox lA.src_port (m :: tl) }, ?_, ?_⟩
        · show alGet (alSet simA.resources lA.src _) l1.src = _
          rw [← hsrc]
          exact alGet_alSet_self _ _ _
        · show alGet (alSet r2.outbox lA.src_port (m :: tl)) l1.src_port = _
          rw [← hport]
          exact alGet_alSet_self _ _ _
      · intro stage hst
        rcases List.mem_cons.mp hst with h1 | h2
        · subst h1
          simp
        · rw [hpl] at h2
          exact hpipe stage (mem_of_mem_dropLast h2)
  · rw [if_neg hlat]
    rw [hr]
    dsimp only
    rw [hq]
    dsimp only
    rw [show Link.pullDeliver { l1 with ticks := l1.ticks + 1, bytes_moved_this_tick := 0 }
        sim1 l1.bandwidth (m :: tl)
        = ({ l1 with ticks := l1.ticks + 1, bytes_moved_this_tick := 0 }, sim1, m :: tl) from
      pullDeliver_blocked _ _ _ _ _ hsize]
    dsimp only
    rw [hr]
    dsimp only
    refine ⟨rfl, rfl, rfl, ?_, hpipe⟩
    refine ⟨{ r1 with outbox := alSet r1.outbox l1.src_port (m :: tl) }, ?_, ?_⟩
    · show alGet (alSet sim1.resources l1.src _) l1.src = _
      exact alGet_alSet_self _ _ _
    · exact alGet_alSet_self _ _ _

/-- Claim C2 (confirmed): `Link.tick` pulls a message whole from the
source out-queue only when its size fits the remaining per-tick
capacity (the pull loop stops at an oversized head), and consequently a
head message with `size > bandwidth` is never moved into the pipeline:
after any number of link ticks it is still at the head of the source
out-queue and belongs to no pipeline stage — the link stalls on it
forever. -/
theorem link_oversized_message_stalls :
    (∀ (capacity : Nat) (it : Item) (rest acc : List Item), capacity < it.sizeOr 1 →
      Link.pullLoop capacity (it :: rest) acc = (acc, it :: rest))
    ∧ ∀ (l : Link) (sim : Sim) (r : Res) (m : Item) (tl : List Item),
        alGet sim.resources l.src = some r →
        alGet r.outbox l.src_port = some (m :: tl) →
        l.bandwidth < m.sizeOr 1 →
        (∀ stage ∈ l.pipeline, m ∉ stage) →
        ∀ n, ∃ r', alGet (Link.tickSt^[n] (l, sim)).2.resources l.src = some r'
          ∧ alGet r'.outbox l.src_port = some (m :: tl)
          ∧ ∀ stage ∈ (Link.tickSt^[n] (l, sim)).1.pipeline, m ∉ stage := by
  refine ⟨pullLoop_blocked, ?_⟩
  intro l sim r m tl hr hq hsize hpipe n
  suffices h : ∀ n, (Link.tickSt^[n] (l, sim)).1.src = l.src
      ∧ (Link.tickSt^[n] (l, sim)).1.src_port = l.src_port
      ∧ (Link.tickSt^[n] (l, sim)).1.bandwidth = l.bandwidth
      ∧ (∃ r', alGet (Link.tickSt^[n] (l, sim)).2.resources l.src = some r'
          ∧ alGet r'.outbox l.src_port = some (m :: tl))
      ∧ (∀ stage ∈ (Link.tickSt^[n] (l, sim)).1.pipeline, m ∉ stage) by
    obtain ⟨h1, h2, h3, ⟨r', h4, h5⟩, h6⟩ := h n
    exact ⟨r', h4, h5, h6⟩
  intro k
  induction k with
  | zero => exact ⟨rfl, rfl, rfl, ⟨r, hr, hq⟩, hpipe⟩
  | succ k ih =>
    obtain ⟨h1, h2, h3, ⟨r', h4, h5⟩, h6⟩ := ih
    rw [Function.iterate_succ_apply']
    have hstep := link_stall_step (Link.tickSt^[k] (l, sim)).1 (Link.tickSt^[k] (l, sim)).2
      r' m tl (h1 ▸ h4) (h2 ▸ h5) (by rw [h3]; exact hsize) h6
    have hts : Link.tickSt (Link.tickSt^[k] (l, sim))
        = Link.tick (Link.tickSt^[k] (l, sim)).1 (Link.tickSt^[k] (l, sim)).2 := rfl
    rw [hts]
    refine ⟨hstep.1.trans h1, hstep.2.1.trans h2, hstep.2.2.1.trans h3, ?_, hstep.2.2.2.2⟩
    obtain ⟨r'', h7, h8⟩ := hstep.2.2.2.1
    exact ⟨r'', h1 ▸ h7, h2 ▸ h8⟩

/-- Witness for C2: a 10-byte head message on a bandwidth-4 link is
still at the head of the source out-queue and in no pipeline stage
after 3 link ticks. -/
theorem link_oversized_message_stalls_witness :
    alGet exStallSim.resources exStallLink.src = some exStallRes
    ∧ alGet exStallRes.outbox exStallLink.src_port = some [.msg exStallMsg]
    ∧ exStallLink.bandwidth < (Item.msg exStallMsg).sizeOr 1
    ∧ (∀ stage ∈ exStallLink.pipeline, (Item.msg exStallMsg) ∉ stage)
    ∧ ∃ r', alGet (Link.tickSt^[3] (exStallLink, exStallSim)).2.resources exStallLink.src
          = some r'
        ∧ alGet r'.outbox exStallLink.src_port = some [.msg exStallMsg]
        ∧ ∀ stage ∈ (Link.tickSt^[3] (exStallLink, exStallSim)).1.pipeline,
            (Item.msg exStallMsg) ∉ stage :=
  ⟨by decide, by decide, by decide, by decide,
    link_oversized_message_stalls.2 exStallLink exStallSim exStallRes (.msg exStallMsg) []
      (by decide) (by decide) (by decide) (by decide) 3⟩

/-! ## Trigger-firing lemmas for C8 -/

theorem pyStr_signal_iff (o : Option String) :
    (if pyStr o = "signal" then "sem_signal" else "sem_wait")
      = (if o = some "signal" then "sem_signal" else "sem_wait") := by
  cases o with
  | none => simp [pyStr]
  | some a => simp [pyStr]

theorem isSome_deliver (sim : Sim) (x p : String) (it : Item) (n : String) :
    (alGet (sim.deliver x p it).resources n).isSome = (alGet sim.resources n).isSome := by
  unfold Sim.deliver
  cases h : alGet sim.resources x with
  | none => rfl
  | some r =>
    dsimp only
    by_cases hn : n = x
    · subst hn
      rw [alGet_alSet_self, h]
      rfl
    · rw [alGet_alSet_ne _ _ hn]

theorem pool_deliver (sim : Sim) (x p : String) (it : Item) :
    (sim.deliver x p it).pool = sim.pool := by
  unfold Sim.deliver
  cases h : alGet sim.resources x with
  | none => rfl
  | some r => rfl

theorem pool_fireTriggers (trigs : List Trigger) (sim : Sim) (b st : String) :
    (Sim.fireTriggers sim trigs b st).pool = sim.pool := by
  induction trigs generalizing sim with
  | nil => rfl
  | cons t rest ih =>
    unfold Sim.fireTriggers
    dsimp only
    rw [ih]
    split
    · rfl
    · split
      · rfl
      · split
        · rfl
        · rw [pool_deliver]
          rfl

theorem triggerInstructions_congr (trigs : List Trigger) (st : String) (s t : Sim)
    (h : ∀ x, (alGet s.resources x).isSome = (alGet t.resources x).isSome) :
    s.triggerInstructions trigs st = t.triggerInstructions trigs st := by
  unfold Sim.triggerInstructions
  refine List.filterMap_congr fun a _ => ?_
  cases a.index with
  | none => rfl
  | some idx =>
    dsimp only
    rw [show (alGet s.resources (pyStr a.station)).isSome
          = (alGet t.resources (pyStr a.station)).isSome from h _]

theorem isSome_deliverInstr (sim : Sim) (b st : String) (ins : String × String × Int)
    (n : String) :
    (alGet (sim.deliverInstr b st ins).resources n).isSome
      = (alGet sim.resources n).isSome := by
  unfold Sim.deliverInstr
  dsimp only
  exact isSome_deliver _ _ _ _ _

theorem fireTriggers_eq_instr (trigs : List Trigger) (sim : Sim) (b st : String) :
    Sim.fireTriggers sim trigs b st
      = (sim.triggerInstructions trigs st).foldl
          (fun s ins => s.deliverInstr b st ins) sim := by
  induction trigs generalizing sim with
  | nil => rfl
  | cons t rest ih =>
    unfold Sim.fireTriggers
    dsimp only
    by_cases hon : pyStr t.states = st
    · rw [if_neg (by simpa using hon)]
      cases hidx : t.index with
      | none =>
        have : sim.triggerInstructions (t :: rest) st = sim.triggerInstructions rest st := by
          unfold Sim.triggerInstructions
          rw [List.filterMap_cons, hidx]
        rw [this]
        exact ih sim
      | some idx =>
        cases hst : alGet sim.resources (pyStr t.station) with
        | none =>
          have : sim.triggerInstructions (t :: rest) st = sim.triggerInstructions rest st := by
            unfold Sim.triggerInstructions
            rw [List.filterMap_cons, hidx]
            dsimp only
            rw [if_neg (by simp [hst, hon])]
          rw [this]
          exact ih sim
        | some r =>
          have hins : sim.triggerInstructions (t :: rest) st
              = (pyStr t.station,
                  (if t.action = some "signal" then "sem_signal" else "sem_wait"), idx)
                :: sim.triggerInstructions rest st := by
            unfold Sim.triggerInstructions
            rw [List.filterMap_cons, hidx]
            dsimp only
            rw [if_pos (by simp [hst, hon])]
          rw [hins]
          dsimp only [List.foldl_cons]
          have hdel : (sim.freshMsgId.2.deliver (pyStr t.station) "in"
              (.msg { src := "buffer_pool", dst := pyStr t.station, size := 1
                      kind := if pyStr t.action = "signal" then "sem_signal" else "sem_wait"
                      payload := { index := some idx, buffer_id := some b, state := some st }
                      created_at := sim.freshMsgId.2.ticks, id := sim.freshMsgId.1 }))
              = sim.deliverInstr b st (pyStr t.station,
                  (if t.action = some "signal" then "sem_signal" else "sem_wait"), idx) := by
            unfold Sim.deliverInstr
            dsimp only
            rw [pyStr_signal_iff]
          rw [hdel, ih]
          rw [triggerInstructions_congr rest st _ sim fun x => isSome_deliverInstr sim b st _ x]
    · rw [if_pos (by simpa using hon)]
      have : sim.triggerInstructions (t :: rest) st = sim.triggerInstructions rest st := by
        unfold Sim.triggerInstructions
        cases hidx : t.index with
        | none => rw [List.filterMap_cons, hidx]
        | some idx =>
          rw [List.filterMap_cons, hidx]
          dsimp only
          rw [if_neg (by simp [hon])]
      rw [this]
      exact ih sim

/-- Counterexample to claim C8 as stated: a trigger with NO `action` key
(clearly malformed under the claim's reading, which promises that a
malformed trigger "is silently skipped and delivers nothing") whose
station resolves still delivers a message — the code computes
`kind = "sem_signal" if action == "signal" else "sem_wait"`, so the
missing action (`str(None) = "None"`) falls into the `sem_wait`
branch. -/
theorem set_state_counterexample :
    exBufNoAction.triggers.map (·.action) = [none]
    ∧ ((alGet (Pool.set_state exSimNoAction "b1" "arrived").resources "sem").map
        (fun r => ((alGet r.inbox "in").getD []).map Item.kind)) = some ["sem_wait"] := by
  decide

/-- Claim C8 (corrected): `set_state` writes the state on the stored
buffer, and for every trigger in the union of the pool-registered and
buffer-attached lists it delivers to the resolved station's `in` port a
message with payload `{index, buffer_id, state}` whose kind is
`sem_signal` when the trigger's action is the string `"signal"` and
`sem_wait` for ANY other action value (including a missing action); a
trigger whose `on` does not match, whose `index` is missing (the
`int(...)` failure the `except` swallows), or whose station does not
resolve is silently skipped.  This is stated as an equality with the
spec-modelled `set_state_spec`, which computes exactly those firing
decisions up front. -/
theorem set_state_spec_behavior :
    (∀ (sim : Sim) (buffer_id state : String),
      Pool.set_state sim buffer_id state = Pool.set_state_spec sim buffer_id state)
    ∧ (∀ (sim : Sim) (buffer_id state : String) (buf : DataBuffer),
        alGet sim.pool.buffers buffer_id = some buf →
        alGet (Pool.set_state sim buffer_id state).pool.buffers buffer_id
          = some { buf with state := state }) := by
  constructor
  · intro sim buffer_id state
    unfold Pool.set_state Pool.set_state_spec
    cases h : alGet sim.pool.buffers buffer_id with
    | none => rfl
    | some buf =>
      dsimp only
      exact fireTriggers_eq_instr _ _ _ _
  · intro sim buffer_id state buf h
    unfold Pool.set_state
    rw [h]
    dsimp only
    rw [pool_fireTriggers]
    dsimp only
    exact alGet_alSet_self _ _ _

/-- Witness for C8's state-write conjunct at the concrete
action-less-trigger pool. -/
theorem set_state_spec_behavior_witness :
    alGet exSimNoAction.pool.buffers "b1" = some exBufNoAction
    ∧ alGet (Pool.set_state exSimNoAction "b1" "arrived").pool.buffers "b1"
        = some { exBufNoAction with state := "arrived" } :=
  ⟨by decide, set_state_spec_behavior.2 exSimNoAction "b1" "arrived" exBufNoAction (by decide)⟩

/-! ## Arbiter interleaving lemmas for C5 -/

theorem expected_lb (start L now lr d : Nat) (hlr : lr = L - (now - start))
    (h : start ≤ now) : start + L ≤ now + lr + d ∧ now ≤ now + lr + d := by
  subst hlr
  omega

theorem recompEntry_props (ch : ChanCore) (now share : Nat) (e : ActiveEntry)
    (h : e.start ≤ now) :
    (ArbCore.recompEntry ch now share e).start ≤ now
    ∧ (ArbCore.recompEntry ch now share e).start + ch.latency
        ≤ (ArbCore.recompEntry ch now share e).expected
    ∧ now ≤ (ArbCore.recompEntry ch now share e).expected := by
  unfold ArbCore.recompEntry
  dsimp only
  exact ⟨h, (expected_lb e.start ch.latency now _ _ rfl h).1,
    (expected_lb e.start ch.latency now _ _ rfl h).2⟩

theorem recompute_mem (a : ArbCore) (ch : ChanCore) (pool : Pool) (now : Nat) :
    ∀ e' ∈ (a.recompute_interleaving ch pool now).1.active,
      ∃ e ∈ a.active,
        e' = ArbCore.recompEntry ch now
          (max 1 (ch.bandwidth / max 1 a.active.length)) e := by
  unfold ArbCore.recompute_interleaving
  by_cases hemp : a.active.isEmpty
  · rw [if_pos hemp]
    intro e' he'
    rw [List.isEmpty_iff.mp hemp] at he'
    cases he'
  · rw [if_neg hemp]
    intro e' he'
    dsimp only at he'
    obtain ⟨e, he, heq⟩ := List.mem_map.mp he'
    exact ⟨e, he, heq.symm⟩

theorem cleanup_mem (a : ArbCore) (now : Nat) :
    ∀ e ∈ (a.cleanupInterleaving now).active, e ∈ a.active ∧ now < e.expected := by
  unfold ArbCore.cleanupInterleaving
  intro e he
  dsimp only at he
  obtain ⟨hmem, hlt⟩ := List.mem_filter.mp he
  exact ⟨hmem, by simpa using hlt⟩

theorem acceptAt_inv (a : ArbCore) (ch : ChanCore) (pool : Pool) (now idx : Nat)
    (h1 : a.StartsLe now) (h2 : a.LatInv ch.latency)
    (h3 : a.ExpectedAtLeastNow now) :
    (a.acceptAt ch pool now idx).1.StartsLe now
    ∧ (a.acceptAt ch pool now idx).1.LatInv ch.latency
    ∧ (a.acceptAt ch pool now idx).1.ExpectedAtLeastNow now := by
  unfold ArbCore.acceptAt
  dsimp only
  by_cases hcond : ((alGet a.inbox (a.inputs.getD idx "")).getD [] ≠ []
      ∧ ¬ pyTruthy ((alGet a.inflight_by_port (a.inputs.getD idx "")).getD none) = true)
  · rw [if_pos hcond]
    cases hqq : (alGet a.inbox (a.inputs.getD idx "")).getD [] with
    | nil => exact absurd hqq hcond.1
    | cons msg rest =>
      dsimp only
      have hstarts : ∀ e ∈ a.active ++
          [({ port := a.inputs.getD idx "",
              buf_id := match msg.payload.buffer with
                        | .dict d => some d.id
                        | _ => none,
              total := msg.sizeOr 1, progressed := 0,
              start := now, last_update := now, per_share_bw := 0,
              expected := now } : ActiveEntry)], e.start ≤ now := by
        intro e he
        rcases List.mem_append.mp he with hl | hr
        · exact h1 e hl
        · rw [List.mem_singleton.mp hr]
      refine ⟨?_, ?_, ?_⟩ <;> intro e' he' <;>
        obtain ⟨e, he, heq⟩ := recompute_mem _ ch pool now e' he' <;> subst heq
      · exact (recompEntry_props ch now _ e (hstarts e he)).1
      · exact (recompEntry_props ch now _ e (hstarts e he)).2.1
      · exact (recompEntry_props ch now _ e (hstarts e he)).2.2
  · rw [if_neg hcond]
    exact ⟨h1, h2, h3⟩

theorem interleavingLoop_inv (ch : ChanCore) (now : Nat) (fuel : Nat) (a : ArbCore)
    (pool : Pool) (idx : Nat)
    (h1 : a.StartsLe now) (h2 : a.LatInv ch.latency)
    (h3 : a.ExpectedAtLeastNow now) :
    (ArbCore.interleavingLoop ch now fuel a pool idx).1.StartsLe now
    ∧ (ArbCore.interleavingLoop ch now fuel a pool idx).1.LatInv ch.latency
    ∧ (ArbCore.interleavingLoop ch now fuel a pool idx).1.ExpectedAtLeastNow now := by
  induction fuel generalizing a pool idx with
  | zero => exact ⟨h1, h2, h3⟩
  | succ fuel ih =>
    unfold ArbCore.interleavingLoop
    obtain ⟨g1, g2, g3⟩ := acceptAt_inv a ch pool now idx h1 h2 h3
    rcases hacc : a.acceptAt ch pool now idx with ⟨a1, pool1⟩
    rw [hacc] at g1 g2 g3
    dsimp only
    cases hnx : a1.next_nonempty_from (idx + 1) with
    | none => exact ⟨g1, g2, g3⟩
    | some nidx => exact ih a1 pool1 nidx g1 g2 g3

theorem tickInterleaving_inv (a0 : ArbCore) (ch : ChanCore) (pool : Pool) (now : Nat)
    (hne : ¬ a0.inputs.isEmpty)
    (h1 : a0.StartsLe now) (h2 : a0.LatInv ch.latency) :
    (a0.tickInterleaving ch pool now).1.StartsLe now
    ∧ (a0.tickInterleaving ch pool now).1.LatInv ch.latency
    ∧ (a0.tickInterleaving ch pool now).1.ExpectedAtLeastNow now := by
  unfold ArbCore.tickInterleaving
  rw [if_neg hne]
  have hc := cleanup_mem a0 now
  have g1 : (a0.cleanupInterleaving now).StartsLe now := fun e he => h1 e (hc e he).1
  have g2 : (a0.cleanupInterleaving now).LatInv ch.latency := fun e he => h2 e (hc e he).1
  have g3 : (a0.cleanupInterleaving now).ExpectedAtLeastNow now :=
    fun e he => Nat.le_of_lt (hc e he).2
  dsimp only
  cases hnx : (a0.cleanupInterleaving now).next_nonempty_from
      (a0.cleanupInterleaving now).rr_index with
  | none =>
    refine ⟨?_, ?_, ?_⟩
    · intro e he; exact g1 e he
    · intro e he; exact g2 e he
    · intro e he; exact g3 e he
  | some idx =>
    obtain ⟨k1, k2, k3⟩ := interleavingLoop_inv ch now
      (a0.cleanupInterleaving now).inputs.length (a0.cleanupInterleaving now) pool idx g1 g2 g3
    refine ⟨?_, ?_, ?_⟩
    · intro e he; exact k1 e he
    · intro e he; exact k2 e he
    · intro e he; exact k3 e he

/-- C5: in interleaving mode, provided every pre-tick active transfer was
admitted at or before `now` and its expected tick covers its start plus
the channel latency (both established by the admission/recompute path
itself), after `Arbiter.tick` at tick `now` every surviving active entry
satisfies `expected >= now + max(0, latency - (now - start))`, and the
cleanup at the top of any later tick removes every entry whose expected
tick has been reached. -/
theorem arbiter_interleaving_expected_bound (a0 : ArbCore) (ch : ChanCore)
    (pool : Pool) (now : Nat) (hne : a0.inputs ≠ [])
    (h1 : a0.StartsLe now) (h2 : a0.LatInv ch.latency) :
    (a0.tickInterleaving ch pool now).1.ExpectedBound ch.latency now
    ∧ ∀ nxt e, e ∈ ((a0.tickInterleaving ch pool now).1.cleanupInterleaving nxt).active →
        nxt < e.expected := by
  have hne' : ¬ a0.inputs.isEmpty := by simpa [List.isEmpty_iff] using hne
  obtain ⟨k1, k2, k3⟩ := tickInterleaving_inv a0 ch pool now hne' h1 h2
  constructor
  · intro e he
    have b1 := k1 e he
    have b2 := k2 e he
    have b3 := k3 e he
    omega
  · intro nxt e he
    exact (cleanup_mem _ nxt e he).2

/-! ## Quiescence lemmas for C1 -/

theorem alGet_mem {α β : Type} [DecidableEq α] {l : List (α × β)} {k : α} {v : β}
    (h : alGet l k = some v) : (k, v) ∈ l := by
  induction l with
  | nil => simp [alGet] at h
  | cons hd tl ih =>
    obtain ⟨a, b⟩ := hd
    by_cases h1 : a = k
    · subst h1
      simp [alGet] at h
      subst h
      exact List.mem_cons_self _ _
    · simp [alGet, h1] at h
      exact List.mem_cons_of_mem _ (ih h)

theorem alSet_alSet {α β : Type} [DecidableEq α] (l : List (α × β)) (k : α) (v w : β) :
    alSet (alSet l k v) k w = alSet l k w := by
  induction l with
  | nil => simp [alSet]
  | cons hd tl ih =>
    obtain ⟨a, b⟩ := hd
    by_cases h1 : a = k
    · simp [alSet, h1]
    · simp [alSet, h1, ih]

theorem map_alSet {α β γ : Type} [DecidableEq α] {l : List (α × β)} {k : α} {w : β}
    (v : β) (f : α × β → γ) (h0 : alGet l k = some w) (heq : f (k, v) = f (k, w)) :
    (alSet l k v).map f = l.map f := by
  induction l with
  | nil => simp [alGet] at h0
  | cons hd tl ih =>
    obtain ⟨a, b⟩ := hd
    by_cases h1 : a = k
    · subst h1
      simp [alGet] at h0
      subst h0
      simp [alSet, heq]
    · simp [alGet, h1] at h0
      simp [alSet, h1, ih h0]

theorem quiet_of_qObs_eq {s1 s2 : Sim} (h : s2.qObs = s1.qObs) (hq : s1.Quiet) :
    s2.Quiet := by
  have hres : s2.resources.map (fun nr => (nr.1, nr.2.qView))
      = s1.resources.map (fun nr => (nr.1, nr.2.qView)) := congrArg (fun o => o.1) h
  have hlinks : s2.links.map (fun l => l.pipeline) = s1.links.map (fun l => l.pipeline) :=
    congrArg (fun o => o.2.1) h
  have hpool : s2.pool = s1.pool := congrArg (fun o => o.2.2) h
  refine ⟨?_, ?_, ?_⟩
  · intro nr hmem
    have hm : (nr.1, nr.2.qView) ∈ s1.resources.map (fun nr => (nr.1, nr.2.qView)) := by
      rw [← hres]
      exact List.mem_map_of_mem _ hmem
    obtain ⟨nr', hmem', heq⟩ := List.mem_map.mp hm
    have hview : nr'.2.qView = nr.2.qView := congrArg Prod.snd heq
    obtain ⟨p1, p2, p3⟩ := hq.1 nr' hmem'
    have hib : nr.2.inbox = nr'.2.inbox :=
      (congrArg (fun t => t.1) hview).symm
    have hob : nr.2.outbox = nr'.2.outbox :=
      (congrArg (fun t => t.2.1) hview).symm
    have hifl : nr'.2.core.inflightObs = nr.2.core.inflightObs :=
      congrArg (fun t => t.2.2) hview
    refine ⟨?_, ?_, ?_⟩
    · intro pq hpq
      rw [hib] at hpq
      exact p1 pq hpq
    · intro pq hpq
      rw [hob] at hpq
      exact p2 pq hpq
    · intro m hcm
      rw [hcm] at hifl
      cases hc' : nr'.2.core with
      | memory m' =>
        rw [hc'] at hifl
        simp only [RCore.inflightObs, Option.some.injEq] at hifl
        rw [← hifl]
        exact p3 m' hc'
      | channel c =>
        rw [hc'] at hifl
        simp [RCore.inflightObs] at hifl
      | semaphore s =>
        rw [hc'] at hifl
        simp [RCore.inflightObs] at hifl
      | other o =>
        rw [hc'] at hifl
        simp [RCore.inflightObs] at hifl
  · intro l hl st hst
    have hm : l.pipeline ∈ s1.links.map (fun l => l.pipeline) := by
      rw [← hlinks]
      exact List.mem_map_of_mem _ hl
    obtain ⟨l', hl', heq⟩ := List.mem_map.mp hm
    rw [← heq] at hst
    exact hq.2.1 l' hl' st hst
  · rw [hpool]
    exact hq.2.2

theorem idleAll_of_obs_eq {s1 s2 : Sim} {t : Nat} (h : s2.idleObs t = s1.idleObs t)
    (hI : ∀ nr ∈ s1.resources, RCore.idleAt t nr.2.core = true) :
    ∀ nr ∈ s2.resources, RCore.idleAt t nr.2.core = true := by
  intro nr hmem
  have hm : (nr.1, RCore.idleAt t nr.2.core) ∈ s2.idleObs t :=
    List.mem_map_of_mem _ hmem
  rw [h] at hm
  obtain ⟨nr', hmem', heq⟩ := List.mem_map.mp hm
  have h2 : RCore.idleAt t nr'.2.core = RCore.idleAt t nr.2.core := congrArg Prod.snd heq
  rw [← h2]
  exact hI nr' hmem'

theorem setRes_quiet (s : Sim) (name : String) (r r' : Res)
    (hr : alGet s.resources name = some r)
    (hib : r'.inbox = r.inbox) (hob : r'.outbox = r.outbox)
    (hifl : r'.core.inflightObs = r.core.inflightObs)
    (hidl : ∀ t, RCore.idleAt t r'.core = RCore.idleAt t r.core) :
    (s.setRes name r').qObs = s.qObs
    ∧ (s.setRes name r').links = s.links
    ∧ (s.setRes name r').ticks = s.ticks
    ∧ ∀ t, (s.setRes name r').idleObs t = s.idleObs t := by
  refine ⟨?_, rfl, rfl, ?_⟩
  · dsimp only [Sim.setRes, Sim.qObs]
    rw [map_alSet _ (fun nr => (nr.1, nr.2.qView)) hr
      (by simp [Res.qView, hib, hob, hifl])]
  · intro t
    dsimp only [Sim.setRes, Sim.idleObs]
    rw [map_alSet _ (fun nr => (nr.1, RCore.idleAt t nr.2.core)) hr (by simp [hidl t])]

theorem setRes2_quiet (s : Sim) (name : String) (r r1 r2 : Res)
    (hr : alGet s.resources name = some r)
    (hib : r2.inbox = r.inbox) (hob : r2.outbox = r.outbox)
    (hifl : r2.core.inflightObs = r.core.inflightObs)
    (hidl : ∀ t, RCore.idleAt t r2.core = RCore.idleAt t r.core) :
    ((s.setRes name r1).setRes name r2).qObs = s.qObs
    ∧ ((s.setRes name r1).setRes name r2).links = s.links
    ∧ ((s.setRes name r1).setRes name r2).ticks = s.ticks
    ∧ ∀ t, ((s.setRes name r1).setRes name r2).idleObs t = s.idleObs t := by
  refine ⟨?_, rfl, rfl, ?_⟩
  · dsimp only [Sim.setRes, Sim.qObs]
    rw [alSet_alSet]
    rw [map_alSet _ (fun nr => (nr.1, nr.2.qView)) hr
      (by simp [Res.qView, hib, hob, hifl])]
  · intro t
    dsimp only [Sim.setRes, Sim.idleObs]
    rw [alSet_alSet]
    rw [map_alSet _ (fun nr => (nr.1, RCore.idleAt t nr.2.core)) hr (by simp [hidl t])]

theorem issueLoop_empty (sim : Sim) (name : String) (fuel : Nat)
    (h : ∀ r, alGet sim.resources name = some r → (alGet r.inbox "in").getD [] = []) :
    Memory.issueLoop sim name fuel = sim := by
  cases fuel with
  | zero => rfl
  | succ fuel =>
    unfold Memory.issueLoop
    cases hr : alGet sim.resources name with
    | none => rfl
    | some r =>
      dsimp only
      cases hc : r.core with
      | memory m =>
        dsimp only
        rw [h r hr]
      | channel c => rfl
      | semaphore s => rfl
      | other o => rfl

theorem channel_tick_quiet (sim : Sim) (name : String)
    (hin : ∀ r, alGet sim.resources name = some r → ∀ pq ∈ r.inbox, pq.2 = []) :
    Channel.tick sim name = sim := by
  unfold Channel.tick
  cases hr : alGet sim.resources name with
  | none => rfl
  | some r =>
    dsimp only
    cases hg : alGet r.inbox "in" with
    | none => rfl
    | some inq =>
      dsimp only
      have hq : inq = [] := hin r hr ("in", inq) (alGet_mem hg)
      subst hq
      rw [alSet_self hg]
      have hres : ({ r with
          inbox := r.inbox
          outbox := List.foldl (fun ob it => alPush ob "out" it) r.outbox [] } : Res) = r := rfl
      rw [hres]
      unfold Sim.setRes
      rw [alSet_self hr]

theorem semaphore_tick_quiet (sim : Sim) (name : String)
    (hin : ∀ r, alGet sim.resources name = some r → ∀ pq ∈ r.inbox, pq.2 = []) :
    SemaphoreStation.tick sim name = sim := by
  unfold SemaphoreStation.tick
  cases hr : alGet sim.resources name with
  | none => rfl
  | some r =>
    dsimp only
    cases hc : r.core with
    | memory m => rfl
    | channel c => rfl
    | other o => rfl
    | semaphore s =>
      dsimp only
      cases hg : alGet r.inbox "in" with
      | none => rfl
      | some inq =>
        dsimp only
        have hq : inq = [] := hin r hr ("in", inq) (alGet_mem hg)
        subst hq
        dsimp only [SemCore.tickLoop]
        rw [alSet_self hg]
        have hres : ({ inbox := r.inbox
                       outbox := List.foldl (fun ob it => alPush ob "out" it) r.outbox []
                       core := RCore.semaphore s } : Res) = r := by
          rw [← hc]
          rfl
        rw [hres]
        unfold Sim.setRes
        rw [alSet_self hr]

theorem setChanBackpressure_qObs (s : Sim) (ch : String) (flag : Bool) :
    (Memory.setChanBackpressure s ch flag).qObs = s.qObs
    ∧ (Memory.setChanBackpressure s ch flag).links = s.links
    ∧ (Memory.setChanBackpressure s ch flag).ticks = s.ticks
    ∧ ∀ t, (Memory.setChanBackpressure s ch flag).idleObs t = s.idleObs t := by
  unfold Memory.setChanBackpressure
  cases hr : alGet s.resources ch with
  | none => exact ⟨rfl, rfl, rfl, fun t => rfl⟩
  | some r =>
    dsimp only
    cases hc : r.core with
    | memory m => exact ⟨rfl, rfl, rfl, fun t => rfl⟩
    | semaphore sm => exact ⟨rfl, rfl, rfl, fun t => rfl⟩
    | other o => exact ⟨rfl, rfl, rfl, fun t => rfl⟩
    | channel c =>
      dsimp only
      exact setRes_quiet s ch r _ hr rfl rfl
        (by simp [RCore.inflightObs, hc]) (by intro t; simp [RCore.idleAt, hc])

theorem propagate_qObs (chans : List String) (s : Sim) (flag : Bool) :
    (Memory.propagateBackpressure s chans flag).qObs = s.qObs
    ∧ (Memory.propagateBackpressure s chans flag).links = s.links
    ∧ (Memory.propagateBackpressure s chans flag).ticks = s.ticks
    ∧ ∀ t, (Memory.propagateBackpressure s chans flag).idleObs t = s.idleObs t := by
  induction chans generalizing s with
  | nil => exact ⟨rfl, rfl, rfl, fun t => rfl⟩
  | cons ch rest ih =>
    have h1 := setChanBackpressure_qObs s ch flag
    have h2 := ih (Memory.setChanBackpressure s ch flag)
    exact ⟨h2.1.trans h1.1, h2.2.1.trans h1.2.1, h2.2.2.1.trans h1.2.2.1,
      fun t => (h2.2.2.2 t).trans (h1.2.2.2 t)⟩

theorem memory_tick_quiet (sim : Sim) (name : String) (hQ : sim.Quiet) :
    (Memory.tick sim name).qObs = sim.qObs
    ∧ (Memory.tick sim name).links = sim.links
    ∧ (Memory.tick sim name).ticks = sim.ticks
    ∧ ∀ t, (Memory.tick sim name).idleObs t = sim.idleObs t := by
  unfold Memory.tick
  cases hr : alGet sim.resources name with
  | none => exact ⟨rfl, rfl, rfl, fun t => rfl⟩
  | some r =>
    dsimp only
    cases hc : r.core with
    | channel c => exact ⟨rfl, rfl, rfl, fun t => rfl⟩
    | semaphore s => exact ⟨rfl, rfl, rfl, fun t => rfl⟩
    | other o => exact ⟨rfl, rfl, rfl, fun t => rfl⟩
    | memory m0 =>
      dsimp only
      obtain ⟨hin_r, hout_r, hifl_r⟩ := hQ.1 (name, r) (alGet_mem hr)
      have hinf0 : m0.inflight = [] := hifl_r m0 hc
      have hissue : Memory.issueLoop
          (sim.setRes name { r with
            core := RCore.memory { m0 with bytes_in_tick := 0, bytes_out_tick := 0 } })
          name m0.max_issue_per_tick
          = sim.setRes name { r with
              core := RCore.memory { m0 with bytes_in_tick := 0, bytes_out_tick := 0 } } := by
        apply issueLoop_empty
        intro r' hr'
        dsimp only [Sim.setRes] at hr'
        rw [alGet_alSet_self] at hr'
        cases hr'
        dsimp only
        cases hg : alGet r.inbox "in" with
        | none => rfl
        | some q =>
          have hq2 : q = [] := hin_r ("in", q) (alGet_mem hg)
          subst hq2
          rfl
      rw [hissue]
      have hmc : (sim.setRes name { r with
          core := RCore.memory { m0 with bytes_in_tick := 0, bytes_out_tick := 0 } }).memCoreOf
            name = some { m0 with bytes_in_tick := 0, bytes_out_tick := 0 } :=
        memCoreOf_setRes_self sim name _ rfl
      rw [hmc]
      dsimp only [Option.map, Option.getD]
      rw [show m0.inflight.length = 0 from by simp [hinf0]]
      dsimp only [Memory.emitLoop]
      have hget : alGet (sim.setRes name { r with
          core := RCore.memory { m0 with bytes_in_tick := 0, bytes_out_tick := 0 } }).resources
            name
          = some { r with
              core := RCore.memory { m0 with bytes_in_tick := 0, bytes_out_tick := 0 } } := by
        dsimp only [Sim.setRes]
        exact alGet_alSet_self _ _ _
      rw [hget]
      dsimp only
      refine ⟨?_, ?_, ?_, ?_⟩
      · rw [(propagate_qObs _ _ _).1]
        dsimp only [Sim.setRes, Sim.qObs]
        rw [alSet_alSet]
        rw [map_alSet _ (fun nr => (nr.1, nr.2.qView)) hr
          (by simp [Res.qView, RCore.inflightObs, hc, Memory.occupancyUpdate])]
      · rw [(propagate_qObs _ _ _).2.1]
        rfl
      · rw [(propagate_qObs _ _ _).2.2.1]
        rfl
      · intro t
        rw [(propagate_qObs _ _ _).2.2.2 t]
        dsimp only [Sim.setRes, Sim.idleObs]
        rw [alSet_alSet]
        rw [map_alSet _ (fun nr => (nr.1, RCore.idleAt t nr.2.core)) hr
          (by simp [RCore.idleAt, hc])]

theorem findSomeNone {α β : Type} (f : α → Option β) (l : List α)
    (h : ∀ x ∈ l, f x = none) : l.findSome? f = none := by
  induction l with
  | nil => rfl
  | cons a as ih =>
    have ha : f a = none := h a (List.mem_cons_self a as)
    have hrec := ih (fun x hx => h x (List.mem_cons_of_mem a hx))
    simp only [List.findSome?_cons, ha, hrec]

theorem getLastD_empty {α : Type} {p : List (List α)} (h : ∀ st ∈ p, st = []) :
    p.getLast?.getD [] = [] := by
  induction p with
  | nil => rfl
  | cons a as ih =>
    cases as with
    | nil =>
      simp only [List.getLast?_singleton, Option.getD_some]
      exact h a (List.mem_cons_self a [])
    | cons b bs =>
      rw [List.getLast?_cons_cons]
      exact ih (fun st hst => h st (List.mem_cons_of_mem a hst))

theorem allEmpty_iff {p : List (List Item)} :
    p.all List.isEmpty = true ↔ ∀ st ∈ p, st = [] := by
  rw [List.all_eq_true]
  constructor
  · intro h st hst
    exact List.isEmpty_iff.mp (h st hst)
  · intro h st hst
    rw [h st hst]
    rfl

theorem dropLast_concat_allEmpty {p : List (List Item)} {x : List Item}
    (h : ∀ st ∈ p, st = []) (hx : x = []) :
    ∀ st ∈ p.dropLast ++ [x], st = [] := by
  intro st hst
  rcases List.mem_append.mp hst with h1 | h2
  · exact h st (mem_of_mem_dropLast h1)
  · rw [List.mem_singleton.mp h2]
    exact hx

theorem shiftPipe_allEmpty {p : List (List Item)} (h : ∀ st ∈ p, st = []) :
    ∀ st ∈ RWBus.shiftPipe p, st = [] := by
  unfold RWBus.shiftPipe
  cases p with
  | nil =>
    intro st hst
    exact absurd hst (List.not_mem_nil st)
  | cons a as =>
    cases as with
    | nil =>
      intro st hst
      exact h st hst
    | cons b bs =>
      intro st hst
      rcases List.mem_cons.mp hst with h1 | h2
      · exact h1
      · rcases List.mem_append.mp h2 with h3 | h4
        · exact h st (mem_of_mem_dropLast (mem_of_mem_dropLast h3))
        · rw [List.mem_singleton.mp h4, getLastD_empty h,
            getLastD_empty (fun x hx => h x (mem_of_mem_dropLast hx))]
          rfl

theorem intoStage0_nil_allEmpty {p : List (List Item)} (h : ∀ st ∈ p, st = []) :
    ∀ st ∈ RWBus.intoStage0 p [], st = [] := by
  cases p with
  | nil =>
    intro st hst
    exact absurd hst (List.not_mem_nil st)
  | cons s0 rest =>
    intro st hst
    rcases List.mem_cons.mp hst with h1 | h2
    · rw [h1, List.append_nil]
      exact h s0 (List.mem_cons_self s0 rest)
    · exact h st (List.mem_cons_of_mem s0 h2)

theorem nextNonempty_none (names : List String) (ib : List (String × List Item))
    (start : Nat) (h : ∀ pq ∈ ib, pq.2 = []) :
    RWBus.nextNonempty names ib start = none := by
  unfold RWBus.nextNonempty
  by_cases he : names.isEmpty = true
  · rw [if_pos he]
  · rw [if_neg he]
    apply findSomeNone
    intro i hi
    dsimp only
    have hq : (alGet ib ("in_" ++ names.getD ((start + i) % names.length) "")).getD []
        = ([] : List Item) := by
      cases hg : alGet ib ("in_" ++ names.getD ((start + i) % names.length) "") with
      | none => rfl
      | some q => exact h (_, q) (alGet_mem hg)
    rw [hq]
    rfl

theorem arb_nextNonempty_none (a : ArbState) (ib : List (String × List Item))
    (start : Nat) (h : ∀ pq ∈ ib, pq.2 = []) :
    a.next_nonempty ib start = none := by
  unfold ArbState.next_nonempty
  by_cases he : a.inputs.isEmpty = true
  · rw [if_pos he]
  · rw [if_neg he]
    apply findSomeNone
    intro i hi
    dsimp only
    have hq : (alGet ib (a.inputs.getD ((start + i) % a.inputs.length) "")).getD []
        = ([] : List Item) := by
      cases hg : alGet ib (a.inputs.getD ((start + i) % a.inputs.length) "") with
      | none => rfl
      | some q => exact h (_, q) (alGet_mem hg)
    rw [hq]
    rfl

theorem bus_pullLoop_empty (rr : List String) (startIdx fuel : Nat)
    (ib ob : List (String × List Item)) (remaining : Nat)
    (h : ∀ pq ∈ ib, pq.2 = []) :
    ∀ idx spins,
      (Bus.pullLoop rr startIdx fuel ib ob remaining idx spins false).1 = ib
      ∧ (Bus.pullLoop rr startIdx fuel ib ob remaining idx spins false).2.1 = ob := by
  induction fuel with
  | zero => intro idx spins; exact ⟨rfl, rfl⟩
  | succ fuel ih =>
    intro idx spins
    unfold Bus.pullLoop
    by_cases hcnd : 0 < remaining ∧ spins ≤ rr.length
    · rw [if_pos hcnd]
      dsimp only
      have hq : (alGet ib (rr.getD (idx % rr.length) "")).getD [] = ([] : List Item) := by
        cases hg : alGet ib (rr.getD (idx % rr.length) "") with
        | none => rfl
        | some q => exact h (_, q) (alGet_mem hg)
      rw [hq]
      by_cases hw : rr.length ≤ idx + 1 - startIdx
      · rw [if_pos hw]
        exact ⟨rfl, rfl⟩
      · rw [if_neg hw]
        exact ih (idx + 1) spins
    · rw [if_neg hcnd]
      exact ⟨rfl, rfl⟩

theorem gatherInputs_empty (ib : List (String × List Item)) (names : List String)
    (h : ∀ pq ∈ ib, pq.2 = []) : PE.gatherInputs ib names = (ib, []) := by
  induction names with
  | nil => rfl
  | cons n rest ih =>
    unfold PE.gatherInputs
    cases hg : alGet ib n with
    | none => exact ih
    | some q =>
      have hq : q = [] := h (n, q) (alGet_mem hg)
      subst hq
      exact ih

theorem startCommand_idle (p : PECore) (ib : List (String × List Item))
    (h : ∀ pq ∈ ib, pq.2 = []) : p.startCommand ib = (p, ib) := by
  unfold PECore.startCommand
  cases hg : alGet ib "cmd" with
  | none => rfl
  | some q =>
    have hq : q = [] := h ("cmd", q) (alGet_mem hg)
    subst hq
    rfl

theorem cleanupBlocking_proj (a : ArbState) (now : Nat) :
    (a.cleanupBlocking now).mode = a.mode
    ∧ (a.cleanupBlocking now).inputs = a.inputs
    ∧ (a.cleanupBlocking now).rr_index = a.rr_index
    ∧ (a.cleanupBlocking now).active_port = a.active_port
    ∧ (a.cleanupBlocking now).downstream = a.downstream := by
  unfold ArbState.cleanupBlocking
  by_cases hc : a.available_from ≤ now
  · rw [if_pos hc]
    exact ⟨rfl, rfl, rfl, rfl, rfl⟩
  · rw [if_neg hc]
    exact ⟨rfl, rfl, rfl, rfl, rfl⟩

theorem setActive_quiet (s : Sim) (dn : String) (cnt : Nat) :
    (Arbiter.setActive s dn cnt).qObs = s.qObs
    ∧ (Arbiter.setActive s dn cnt).links = s.links
    ∧ (Arbiter.setActive s dn cnt).ticks = s.ticks
    ∧ ∀ t, (Arbiter.setActive s dn cnt).idleObs t = s.idleObs t := by
  unfold Arbiter.setActive
  cases hg : alGet s.resources dn with
  | none => exact ⟨rfl, rfl, rfl, fun t => rfl⟩
  | some rc =>
    dsimp only
    cases hcc : rc.core with
    | channel c =>
      dsimp only
      exact setRes_quiet s dn rc _ hg rfl rfl
        (by simp [RCore.inflightObs, hcc]) (by intro t; simp [RCore.idleAt, hcc])
    | memory m => exact ⟨rfl, rfl, rfl, fun t => rfl⟩
    | semaphore ss => exact ⟨rfl, rfl, rfl, fun t => rfl⟩
    | other o => exact ⟨rfl, rfl, rfl, fun t => rfl⟩

theorem generator_tick_quiet (sim : Sim) (name : String) (r : Res) (g : GenCore)
    (hr : alGet sim.resources name = some r)
    (hc : r.core = RCore.other (.generator g))
    (hin : ∀ pq ∈ r.inbox, pq.2 = [])
    (hidle : OtherCore.idleAt sim.ticks (.generator g) = true) :
    BufferGenerator.tick sim name = sim := by
  unfold BufferGenerator.tick
  rw [hr]
  dsimp only
  rw [hc]
  dsimp only
  cases hg : alGet r.inbox "in" with
  | none => rfl
  | some inq =>
    have hq : inq = [] := hin ("in", inq) (alGet_mem hg)
    subst hq
    dsimp only [List.foldl]
    rw [show ({ g with consume_queue := g.consume_queue } : GenCore) = g from rfl]
    rw [alSet_self hg]
    rw [show RCore.other (OtherCore.generator g) = r.core from hc.symm]
    rw [show ({ r with inbox := r.inbox, core := r.core } : Res) = r from rfl]
    unfold Sim.setRes
    rw [alSet_self hr]
    rw [show ({ sim with resources := sim.resources } : Sim) = sim from rfl]
    by_cases hqd : GenCore.quotaDone g = true
    · rw [if_pos hqd]
    · rw [if_neg hqd]
      simp only [OtherCore.idleAt, Bool.or_eq_true, Bool.and_eq_true,
        decide_eq_true_eq] at hidle
      rcases hidle with h1 | ⟨hlt, hcons⟩
      · exact absurd h1 hqd
      · rw [if_neg (show ¬ g.next_tick ≤ sim.ticks from by omega)]
        have hgc : sim.genCoreOf name = some g := by
          unfold Sim.genCoreOf
          rw [hr]
          dsimp only
          rw [hc]
        rw [hgc]
        dsimp only [Option.map, Option.getD]
        cases hcq : g.consume_queue with
        | nil => rfl
        | cons hd tl =>
          obtain ⟨d, bid⟩ := hd
          rw [hcq] at hcons
          simp only [decide_eq_true_eq] at hcons
          rw [List.length_cons]
          unfold BufferGenerator.emitConsume
          rw [hr]
          dsimp only
          rw [hc]
          dsimp only
          rw [hcq]
          dsimp only
          rw [if_neg (show ¬ d ≤ sim.ticks from by omega)]

theorem semclient_tick_quiet (sim : Sim) (name : String) (r : Res) (c : SemClientCore)
    (hr : alGet sim.resources name = some r)
    (hc : r.core = RCore.other (.semClient c))
    (hin : ∀ pq ∈ r.inbox, pq.2 = [])
    (hidle : OtherCore.idleAt sim.ticks (.semClient c) = true) :
    SemaphoreClient.tick sim name = sim := by
  unfold SemaphoreClient.tick
  rw [hr]
  dsimp only
  rw [hc]
  dsimp only
  cases hg : alGet r.inbox "in" with
  | none => rfl
  | some inq =>
    have hq : inq = [] := hin ("in", inq) (alGet_mem hg)
    subst hq
    dsimp only [List.foldl]
    rw [show ({ c with granted := c.granted } : SemClientCore) = c from rfl]
    rw [alSet_self hg]
    rw [show RCore.other (OtherCore.semClient c) = r.core from hc.symm]
    rw [show ({ r with inbox := r.inbox, core := r.core } : Res) = r from rfl]
    unfold Sim.setRes
    rw [alSet_self hr]
    rw [show ({ sim with resources := sim.resources } : Sim) = sim from rfl]
    cases hnx : c.next with
    | none => rfl
    | some nx =>
      dsimp only
      simp only [OtherCore.idleAt, hnx, decide_eq_true_eq] at hidle
      rw [if_neg (show ¬ nx ≤ sim.ticks from by omega)]

theorem semrecorder_tick_quiet (sim : Sim) (name : String) (r : Res) (rc : SemRecorderCore)
    (hr : alGet sim.resources name = some r)
    (hc : r.core = RCore.other (.semRecorder rc))
    (hin : ∀ pq ∈ r.inbox, pq.2 = [])
    (hidle : OtherCore.idleAt sim.ticks (.semRecorder rc) = true) :
    SemaphoreRecorder.tick sim name = sim := by
  unfold SemaphoreRecorder.tick
  rw [hr]
  dsimp only
  rw [hc]
  dsimp only
  simp only [OtherCore.idleAt, Bool.or_eq_true, decide_eq_true_eq] at hidle
  have hcnd : ¬ (¬ rc.armed = true ∧ rc.start_tick ≤ sim.ticks) := by
    rcases hidle with h1 | h2
    · exact fun hcon => hcon.1 h1
    · exact fun hcon => absurd hcon.2 (by omega)
  rw [if_neg hcnd]
  rw [hr]
  dsimp only
  cases hg : alGet r.inbox "in" with
  | none => rfl
  | some inq =>
    have hq : inq = [] := hin ("in", inq) (alGet_mem hg)
    subst hq
    dsimp only [SemaphoreRecorder.drainLoop]
    rw [alSet_self hg]
    rw [show ({ r with inbox := r.inbox } : Res) = r from rfl]
    unfold Sim.setRes
    rw [alSet_self hr]

theorem bufproducer_tick_quiet (sim : Sim) (name : String) (r : Res) (p : BufProducerCore)
    (hr : alGet sim.resources name = some r)
    (hc : r.core = RCore.other (.bufProducer p))
    (hidle : OtherCore.idleAt sim.ticks (.bufProducer p) = true) :
    BufferProducer.tick sim name = sim := by
  unfold BufferProducer.tick
  rw [hr]
  dsimp only
  rw [hc]
  dsimp only
  simp only [OtherCore.idleAt, Bool.or_eq_true, decide_eq_true_eq] at hidle
  have hcnd : ¬ (¬ p.sent = true ∧ p.issue_tick ≤ sim.ticks) := by
    rcases hidle with h1 | h2
    · exact fun hcon => hcon.1 h1
    · exact fun hcon => absurd hcon.2 (by omega)
  rw [if_neg hcnd]

theorem bufconsumer_tick_quiet (sim : Sim) (name : String) (r : Res) (c : BufConsumerCore)
    (hr : alGet sim.resources name = some r)
    (hc : r.core = RCore.other (.bufConsumer c))
    (hin : ∀ pq ∈ r.inbox, pq.2 = [])
    (hidle : OtherCore.idleAt sim.ticks (.bufConsumer c) = true) :
    BufferConsumer.tick sim name = sim := by
  unfold BufferConsumer.tick
  rw [hr]
  dsimp only
  rw [hc]
  dsimp only
  cases hg : alGet r.inbox "in" with
  | none => rfl
  | some inq =>
    have hq : inq = [] := hin ("in", inq) (alGet_mem hg)
    subst hq
    dsimp only
    rw [alSet_self hg]
    rw [show RCore.other (OtherCore.bufConsumer c) = r.core from hc.symm]
    rw [show ({ r with inbox := r.inbox } : Res) = r from rfl]
    unfold Sim.setRes
    rw [alSet_self hr]
    rw [show ({ sim with resources := sim.resources } : Sim) = sim from rfl]
    simp only [OtherCore.idleAt, Bool.or_eq_true, decide_eq_true_eq] at hidle
    have hcnd : ¬ (¬ c.issued = true ∧ c.consume_tick ≤ sim.ticks) := by
      rcases hidle with h1 | h2
      · exact fun hcon => hcon.1 h1
      · exact fun hcon => absurd hcon.2 (by omega)
    rw [if_neg hcnd]

theorem compute_tick_quiet (sim : Sim) (name : String) (r : Res) (c : ComputeCore)
    (hr : alGet sim.resources name = some r)
    (hc : r.core = RCore.other (.compute c))
    (hin : ∀ pq ∈ r.inbox, pq.2 = [])
    (hidle : OtherCore.idleAt sim.ticks (.compute c) = true) :
    ComputeUnit.tick sim name = sim := by
  unfold ComputeUnit.tick
  rw [hr]
  dsimp only
  rw [hc]
  dsimp only
  cases hg : alGet r.inbox "in0" with
  | none => rfl
  | some inq =>
    have hq : inq = [] := hin ("in0", inq) (alGet_mem hg)
    subst hq
    dsimp only [List.foldl]
    rw [show ({ c with received := c.received } : ComputeCore) = c from rfl]
    rw [alSet_self hg]
    rw [show RCore.other (OtherCore.compute c) = r.core from hc.symm]
    rw [show ({ r with inbox := r.inbox, core := r.core } : Res) = r from rfl]
    unfold Sim.setRes
    rw [alSet_self hr]
    rw [show ({ sim with resources := sim.resources } : Sim) = sim from rfl]
    simp only [OtherCore.idleAt, Bool.and_eq_true, Bool.or_eq_true,
      decide_eq_true_eq] at hidle
    obtain ⟨hiss, hcons⟩ := hidle
    have hci : (decide (c.issued < c.total_requests)
        && decide ((c.issue_interval : Int) ≤ (sim.ticks : Int) - c.last_issue_tick))
        = false := by
      rcases hiss with h1 | h2
      · have hn : ¬ c.issued < c.total_requests := by omega
        simp [hn]
      · have hn : ¬ ((c.issue_interval : Int) ≤ (sim.ticks : Int) - c.last_issue_tick) := by
          omega
        simp [hn]
    rw [hci]
    suffices hfin : ComputeUnit.emitConsume sim name
        (((sim.compCoreOf name).map (fun c5 => c5.consume_queue.length)).getD 0) = sim by
      by_cases hpb : c.produce_buffers = true
      · rw [if_pos hpb, if_neg Bool.false_ne_true]
        exact hfin
      · rw [if_neg hpb, if_neg Bool.false_ne_true]
        exact hfin
    have hcc : sim.compCoreOf name = some c := by
      unfold Sim.compCoreOf
      rw [hr]
      dsimp only
      rw [hc]
    rw [hcc]
    dsimp only [Option.map, Option.getD]
    cases hcq : c.consume_queue with
    | nil => rfl
    | cons hd tl =>
      obtain ⟨d, bid⟩ := hd
      rw [hcq] at hcons
      simp only [decide_eq_true_eq] at hcons
      rw [List.length_cons]
      unfold ComputeUnit.emitConsume
      rw [hr]
      dsimp only
      rw [hc]
      dsimp only
      rw [hcq]
      dsimp only
      rw [if_neg (show ¬ d ≤ sim.ticks from by omega)]

theorem pe_tick_quiet (sim : Sim) (name : String) (r : Res) (p : PECore)
    (hr : alGet sim.resources name = some r)
    (hc : r.core = RCore.other (.pe p))
    (hin : ∀ pq ∈ r.inbox, pq.2 = [])
    (hidle : OtherCore.idleAt sim.ticks (.pe p) = true) :
    (ProcessingElement.tick sim name).qObs = sim.qObs
    ∧ (ProcessingElement.tick sim name).links = sim.links
    ∧ (ProcessingElement.tick sim name).ticks = sim.ticks
    ∧ ∀ t, (ProcessingElement.tick sim name).idleObs t = sim.idleObs t := by
  unfold ProcessingElement.tick
  rw [hr]
  dsimp only
  rw [hc]
  dsimp only
  by_cases hm : p.mode = "dummy"
  · rw [if_pos hm]
    rw [gatherInputs_empty r.inbox p.in_names hin]
    dsimp only
    exact setRes_quiet sim name r _ hr rfl rfl
      (by simp [RCore.inflightObs, hc])
      (by intro t; simp [RCore.idleAt, OtherCore.idleAt, hc])
  · rw [if_neg hm]
    simp only [OtherCore.idleAt, Bool.or_eq_true, decide_eq_true_eq] at hidle
    rcases hidle with h1 | hst
    · exact absurd h1 hm
    · rw [if_pos (show p.state = "idle" from hst)]
      rw [startCommand_idle _ r.inbox hin]
      dsimp only
      rw [hst]
      rw [if_neg (show ¬ ("idle" = "backpressured") from by decide)]
      dsimp only
      rw [if_neg (show ¬ ("idle" = "busy") from by decide)]
      exact setRes_quiet sim name r _ hr rfl rfl
        (by simp [RCore.inflightObs, hc])
        (by intro t; simp [RCore.idleAt, OtherCore.idleAt, hc, hst])

theorem bus_tick_quiet (sim : Sim) (name : String) (r : Res) (b : BusCore)
    (hr : alGet sim.resources name = some r)
    (hc : r.core = RCore.other (.bus b))
    (hin : ∀ pq ∈ r.inbox, pq.2 = []) :
    (Bus.tick sim name).qObs = sim.qObs
    ∧ (Bus.tick sim name).links = sim.links
    ∧ (Bus.tick sim name).ticks = sim.ticks
    ∧ ∀ t, (Bus.tick sim name).idleObs t = sim.idleObs t := by
  unfold Bus.tick
  rw [hr]
  dsimp only
  rw [hc]
  dsimp only
  by_cases he : (b.rr_order
      ++ ((r.inbox.map (fun pq => pq.1)).filter (fun pb => ¬ b.rr_order.contains pb))).isEmpty
      = true
  · rw [if_pos he]
    exact setRes_quiet sim name r _ hr rfl rfl
      (by simp [RCore.inflightObs, hc])
      (by intro t; simp [RCore.idleAt, OtherCore.idleAt, hc])
  · rw [if_neg he]
    generalize (b.rr_order
      ++ ((r.inbox.map (fun pq => pq.1)).filter (fun pb => ¬ b.rr_order.contains pb))) = rr1
    have hp := bus_pullLoop_empty rr1 (b.last_idx % max 1 rr1.length) (2 * rr1.length + 2)
      r.inbox r.outbox b.bandwidth hin (b.last_idx % max 1 rr1.length) 0
    rw [hp.1, hp.2]
    exact setRes_quiet sim name r _ hr rfl rfl
      (by simp [RCore.inflightObs, hc])
      (by intro t; simp [RCore.idleAt, OtherCore.idleAt, hc])

theorem readbus_tick_quiet (sim : Sim) (name : String) (r : Res) (b : ReadBusCore)
    (hr : alGet sim.resources name = some r)
    (hc : r.core = RCore.other (.readBus b))
    (hin : ∀ pq ∈ r.inbox, pq.2 = [])
    (hidle : OtherCore.idleAt sim.ticks (.readBus b) = true) :
    (ReadBus.tick sim name).qObs = sim.qObs
    ∧ (ReadBus.tick sim name).links = sim.links
    ∧ (ReadBus.tick sim name).ticks = sim.ticks
    ∧ ∀ t, (ReadBus.tick sim name).idleObs t = sim.idleObs t := by
  simp only [OtherCore.idleAt, Bool.and_eq_true] at hidle
  obtain ⟨hreqB, hrespB⟩ := hidle
  have hreq : ∀ st ∈ b.req_pipeline, st = [] := allEmpty_iff.mp hreqB
  have hresp : ∀ st ∈ b.resp_pipeline, st = [] := allEmpty_iff.mp hrespB
  have hshResp : ∀ st ∈ RWBus.shiftPipe (b.resp_pipeline.dropLast ++ [[]]), st = [] :=
    shiftPipe_allEmpty (dropLast_concat_allEmpty hresp rfl)
  have hinResp :
      ∀ st ∈ RWBus.intoStage0 (RWBus.shiftPipe (b.resp_pipeline.dropLast ++ [[]])) [],
        st = [] :=
    intoStage0_nil_allEmpty hshResp
  have hshReq : ∀ st ∈ RWBus.shiftPipe (b.req_pipeline.dropLast ++ [[]]), st = [] :=
    shiftPipe_allEmpty (dropLast_concat_allEmpty hreq rfl)
  have hinReq :
      ∀ st ∈ RWBus.intoStage0 (RWBus.shiftPipe (b.req_pipeline.dropLast ++ [[]])) [],
        st = [] :=
    intoStage0_nil_allEmpty hshReq
  have hIdl : ∀ (rb : ReadBusCore), (∀ st ∈ rb.req_pipeline, st = []) →
      (∀ st ∈ rb.resp_pipeline, st = []) →
      ∀ t, RCore.idleAt t (RCore.other (.readBus rb)) = RCore.idleAt t r.core := by
    intro rb h1 h2 t
    rw [hc]
    simp only [RCore.idleAt, OtherCore.idleAt]
    rw [allEmpty_iff.mpr h1, allEmpty_iff.mpr h2, hreqB, hrespB]
  unfold ReadBus.tick
  rw [hr]
  dsimp only
  rw [hc]
  dsimp only
  by_cases hrp : b.resp_pipeline.isEmpty = true
  · rw [if_pos hrp]
    dsimp only
    by_cases hqp : b.req_pipeline.isEmpty = true
    · rw [if_pos hqp]
      exact setRes_quiet sim name r _ hr rfl rfl
        (by simp [RCore.inflightObs, hc]) (hIdl _ hreq hresp)
    · rw [if_neg hqp]
      rw [getLastD_empty hreq]
      dsimp only [List.foldl]
      by_cases hre : b.requesters.isEmpty = true
      · rw [if_pos hre]
        exact setRes_quiet sim name r _ hr rfl rfl
          (by simp [RCore.inflightObs, hc]) (hIdl _ hshReq hresp)
      · rw [if_neg hre]
        rw [nextNonempty_none b.requesters r.inbox b.rr_idx hin]
        exact setRes_quiet sim name r _ hr rfl rfl
          (by simp [RCore.inflightObs, hc]) (hIdl _ hinReq hresp)
  · rw [if_neg hrp]
    rw [getLastD_empty hresp]
    rw [show ReadBus.respDeliver r.outbox b.data_response_bandwidth [] = (r.outbox, [])
      from rfl]
    cases hgm : alGet r.inbox "in_mem_resp" with
    | some inq =>
      have hq : inq = [] := hin ("in_mem_resp", inq) (alGet_mem hgm)
      subst hq
      dsimp only
      rw [alSet_self hgm]
      by_cases hqp : b.req_pipeline.isEmpty = true
      · rw [if_pos hqp]
        exact setRes_quiet sim name r _ hr rfl rfl
          (by simp [RCore.inflightObs, hc]) (hIdl _ hreq hinResp)
      · rw [if_neg hqp]
        rw [getLastD_empty hreq]
        dsimp only [List.foldl]
        by_cases hre : b.requesters.isEmpty = true
        · rw [if_pos hre]
          exact setRes_quiet sim name r _ hr rfl rfl
            (by simp [RCore.inflightObs, hc]) (hIdl _ hshReq hinResp)
        · rw [if_neg hre]
          rw [nextNonempty_none b.requesters r.inbox b.rr_idx hin]
          exact setRes_quiet sim name r _ hr rfl rfl
            (by simp [RCore.inflightObs, hc]) (hIdl _ hinReq hinResp)
    | none =>
      dsimp only
      by_cases hqp : b.req_pipeline.isEmpty = true
      · rw [if_pos hqp]
        exact setRes_quiet sim name r _ hr rfl rfl
          (by simp [RCore.inflightObs, hc]) (hIdl _ hreq hshResp)
      · rw [if_neg hqp]
        rw [getLastD_empty hreq]
        dsimp only [List.foldl]
        by_cases hre : b.requesters.isEmpty = true
        · rw [if_pos hre]
          exact setRes_quiet sim name r _ hr rfl rfl
            (by simp [RCore.inflightObs, hc]) (hIdl _ hshReq hshResp)
        · rw [if_neg hre]
          rw [nextNonempty_none b.requesters r.inbox b.rr_idx hin]
          exact setRes_quiet sim name r _ hr rfl rfl
            (by simp [RCore.inflightObs, hc]) (hIdl _ hinReq hshResp)

theorem writebus_tick_quiet (sim : Sim) (name : String) (r : Res) (b : WriteBusCore)
    (hr : alGet sim.resources name = some r)
    (hc : r.core = RCore.other (.writeBus b))
    (hin : ∀ pq ∈ r.inbox, pq.2 = [])
    (hidle : OtherCore.idleAt sim.ticks (.writeBus b) = true) :
    (WriteBus.tick sim name).qObs = sim.qObs
    ∧ (WriteBus.tick sim name).links = sim.links
    ∧ (WriteBus.tick sim name).ticks = sim.ticks
    ∧ ∀ t, (WriteBus.tick sim name).idleObs t = sim.idleObs t := by
  simp only [OtherCore.idleAt, Bool.and_eq_true] at hidle
  obtain ⟨hreqB, hrespB⟩ := hidle
  have hreq : ∀ st ∈ b.req_pipeline, st = [] := allEmpty_iff.mp hreqB
  have hresp : ∀ st ∈ b.resp_pipeline, st = [] := allEmpty_iff.mp hrespB
  have hshResp : ∀ st ∈ RWBus.shiftPipe (b.resp_pipeline.dropLast ++ [[]]), st = [] :=
    shiftPipe_allEmpty (dropLast_concat_allEmpty hresp rfl)
  have hinResp :
      ∀ st ∈ RWBus.intoStage0 (RWBus.shiftPipe (b.resp_pipeline.dropLast ++ [[]])) [],
        st = [] :=
    intoStage0_nil_allEmpty hshResp
  have hshReq : ∀ st ∈ RWBus.shiftPipe (b.req_pipeline.dropLast ++ [[]]), st = [] :=
    shiftPipe_allEmpty (dropLast_concat_allEmpty hreq rfl)
  have hinReq :
      ∀ st ∈ RWBus.intoStage0 (RWBus.shiftPipe (b.req_pipeline.dropLast ++ [[]])) [],
        st = [] :=
    intoStage0_nil_allEmpty hshReq
  have hIdl : ∀ (rb : WriteBusCore), (∀ st ∈ rb.req_pipeline, st = []) →
      (∀ st ∈ rb.resp_pipeline, st = []) →
      ∀ t, RCore.idleAt t (RCore.other (.writeBus rb)) = RCore.idleAt t r.core := by
    intro rb h1 h2 t
    rw [hc]
    simp only [RCore.idleAt, OtherCore.idleAt]
    rw [allEmpty_iff.mpr h1, allEmpty_iff.mpr h2, hreqB, hrespB]
  unfold WriteBus.tick
  rw [hr]
  dsimp only
  rw [hc]
  dsimp only
  by_cases hrp : b.resp_pipeline.isEmpty = true
  · rw [if_pos hrp]
    dsimp only
    by_cases hqp : b.req_pipeline.isEmpty = true
    · rw [if_pos hqp]
      exact setRes_quiet sim name r _ hr rfl rfl
        (by simp [RCore.inflightObs, hc]) (hIdl _ hreq hresp)
    · rw [if_neg hqp]
      rw [getLastD_empty hreq]
      rw [show WriteBus.reqDeliver r.outbox b.write_bandwidth [] = (r.outbox, []) from rfl]
      dsimp only
      by_cases hwe : b.writers.isEmpty = true
      · rw [if_pos hwe]
        exact setRes_quiet sim name r _ hr rfl rfl
          (by simp [RCore.inflightObs, hc]) (hIdl _ hshReq hresp)
      · rw [if_neg hwe]
        rw [nextNonempty_none b.writers r.inbox b.rr_idx hin]
        exact setRes_quiet sim name r _ hr rfl rfl
          (by simp [RCore.inflightObs, hc]) (hIdl _ hinReq hresp)
  · rw [if_neg hrp]
    rw [getLastD_empty hresp]
    rw [show WriteBus.respDeliver r.outbox [] = r.outbox from rfl]
    cases hgm : alGet r.inbox "in_mem_resp" with
    | some inq =>
      have hq : inq = [] := hin ("in_mem_resp", inq) (alGet_mem hgm)
      subst hq
      dsimp only
      rw [alSet_self hgm]
      by_cases hqp : b.req_pipeline.isEmpty = true
      · rw [if_pos hqp]
        exact setRes_quiet sim name r _ hr rfl rfl
          (by simp [RCore.inflightObs, hc]) (hIdl _ hreq hinResp)
      · rw [if_neg hqp]
        rw [getLastD_empty hreq]
        rw [show WriteBus.reqDeliver r.outbox b.write_bandwidth [] = (r.outbox, [])
          from rfl]
        dsimp only
        by_cases hwe : b.writers.isEmpty = true
        · rw [if_pos hwe]
          exact setRes_quiet sim name r _ hr rfl rfl
            (by simp [RCore.inflightObs, hc]) (hIdl _ hshReq hinResp)
        · rw [if_neg hwe]
          rw [nextNonempty_none b.writers r.inbox b.rr_idx hin]
          exact setRes_quiet sim name r _ hr rfl rfl
            (by simp [RCore.inflightObs, hc]) (hIdl _ hinReq hinResp)
    | none =>
      dsimp only
      by_cases hqp : b.req_pipeline.isEmpty = true
      · rw [if_pos hqp]
        exact setRes_quiet sim name r _ hr rfl rfl
          (by simp [RCore.inflightObs, hc]) (hIdl _ hreq hshResp)
      · rw [if_neg hqp]
        rw [getLastD_empty hreq]
        rw [show WriteBus.reqDeliver r.outbox b.write_bandwidth [] = (r.outbox, [])
          from rfl]
        dsimp only
        by_cases hwe : b.writers.isEmpty = true
        · rw [if_pos hwe]
          exact setRes_quiet sim name r _ hr rfl rfl
            (by simp [RCore.inflightObs, hc]) (hIdl _ hshReq hshResp)
        · rw [if_neg hwe]
          rw [nextNonempty_none b.writers r.inbox b.rr_idx hin]
          exact setRes_quiet sim name r _ hr rfl rfl
            (by simp [RCore.inflightObs, hc]) (hIdl _ hinReq hshResp)

theorem setRes2_setActive_quiet (s : Sim) (name : String) (r r1 r2 : Res)
    (dn : String) (cnt : Nat)
    (hr : alGet s.resources name = some r)
    (hib : r2.inbox = r.inbox) (hob : r2.outbox = r.outbox)
    (hifl : r2.core.inflightObs = r.core.inflightObs)
    (hidl : ∀ t, RCore.idleAt t r2.core = RCore.idleAt t r.core) :
    (Arbiter.setActive ((s.setRes name r1).setRes name r2) dn cnt).qObs = s.qObs
    ∧ (Arbiter.setActive ((s.setRes name r1).setRes name r2) dn cnt).links = s.links
    ∧ (Arbiter.setActive ((s.setRes name r1).setRes name r2) dn cnt).ticks = s.ticks
    ∧ ∀ t, (Arbiter.setActive ((s.setRes name r1).setRes name r2) dn cnt).idleObs t
        = s.idleObs t := by
  have h2 := setRes2_quiet s name r r1 r2 hr hib hob hifl hidl
  have h1 := setActive_quiet ((s.setRes name r1).setRes name r2) dn cnt
  exact ⟨h1.1.trans h2.1, h1.2.1.trans h2.2.1, h1.2.2.1.trans h2.2.2.1,
    fun t => (h1.2.2.2 t).trans (h2.2.2.2 t)⟩

theorem arbiter_tick_quiet (sim : Sim) (name : String) (r : Res) (a : ArbState)
    (hr : alGet sim.resources name = some r)
    (hc : r.core = RCore.other (.arbiter a))
    (hin : ∀ pq ∈ r.inbox, pq.2 = []) :
    (Arbiter.tick sim name).qObs = sim.qObs
    ∧ (Arbiter.tick sim name).links = sim.links
    ∧ (Arbiter.tick sim name).ticks = sim.ticks
    ∧ ∀ t, (Arbiter.tick sim name).idleObs t = sim.idleObs t := by
  unfold Arbiter.tick
  rw [hr]
  dsimp only
  rw [hc]
  dsimp only
  by_cases hie : a.inputs.isEmpty = true
  · rw [if_pos hie]
    exact ⟨rfl, rfl, rfl, fun t => rfl⟩
  · rw [if_neg hie]
    cases hdn : a.downstream with
    | none =>
      dsimp only
      rw [if_neg Bool.false_ne_true]
      by_cases hsm : (a.cleanupBlocking sim.ticks).mode = "shared"
      · rw [if_pos hsm]
        rw [if_pos (show ("interleaving" : String) = "interleaving" from rfl)]
        rw [arb_nextNonempty_none _ r.inbox _ hin]
        dsimp only
        have hget1 : alGet (sim.setRes name
            { r with core := RCore.other (.arbiter (a.cleanupBlocking sim.ticks)) }).resources
              name
            = some { r with core := RCore.other (.arbiter (a.cleanupBlocking sim.ticks)) } := by
          dsimp only [Sim.setRes]
          exact alGet_alSet_self _ _ _
        rw [hget1]
        dsimp only
        rw [(cleanupBlocking_proj a sim.ticks).2.2.2.2, hdn]
        dsimp only
        exact setRes2_quiet sim name r _ _ hr rfl rfl
          (by simp [RCore.inflightObs, hc])
          (by intro t; simp [RCore.idleAt, OtherCore.idleAt, hc])
      · rw [if_neg hsm]
        rw [if_neg (show ¬ (("blocking" : String) = "interleaving") from by decide)]
        rw [(cleanupBlocking_proj a sim.ticks).2.2.2.1]
        cases hap : a.active_port with
        | none =>
          dsimp only
          rw [if_pos rfl]
          rw [arb_nextNonempty_none _ r.inbox _ hin]
          dsimp only
          exact setRes_quiet sim name r _ hr rfl rfl
            (by simp [RCore.inflightObs, hc])
            (by intro t; simp [RCore.idleAt, OtherCore.idleAt, hc])
        | some ap =>
          dsimp only
          have hq : (alGet r.inbox ap).getD [] = ([] : List Item) := by
            cases hgp : alGet r.inbox ap with
            | none => rfl
            | some q => exact hin (ap, q) (alGet_mem hgp)
          rw [hq]
          rw [if_pos (show List.isEmpty ([] : List Item) = true from rfl)]
          rw [arb_nextNonempty_none _ r.inbox _ hin]
          dsimp only
          exact setRes_quiet sim name r _ hr rfl rfl
            (by simp [RCore.inflightObs, hc])
            (by intro t; simp [RCore.idleAt, OtherCore.idleAt, hc])
    | some dn =>
      dsimp only
      cases hch : sim.chanCoreOf dn with
      | none =>
        dsimp only
        rw [if_neg Bool.false_ne_true]
        by_cases hsm : (a.cleanupBlocking sim.ticks).mode = "shared"
        · rw [if_pos hsm]
          rw [if_pos (show ("interleaving" : String) = "interleaving" from rfl)]
          rw [arb_nextNonempty_none _ r.inbox _ hin]
          dsimp only
          have hget1 : alGet (sim.setRes name
              { r with core := RCore.other (.arbiter (a.cleanupBlocking sim.ticks)) }).resources
                name
              = some { r with core := RCore.other (.arbiter (a.cleanupBlocking sim.ticks)) } := by
            dsimp only [Sim.setRes]
            exact alGet_alSet_self _ _ _
          rw [hget1]
          dsimp only
          rw [(cleanupBlocking_proj a sim.ticks).2.2.2.2, hdn]
          dsimp only
          exact setRes2_setActive_quiet sim name r _ _ dn _ hr rfl rfl
            (by simp [RCore.inflightObs, hc])
            (by intro t; simp [RCore.idleAt, OtherCore.idleAt, hc])
        · rw [if_neg hsm]
          rw [if_neg (show ¬ (("blocking" : String) = "interleaving") from by decide)]
          rw [(cleanupBlocking_proj a sim.ticks).2.2.2.1]
          cases hap : a.active_port with
          | none =>
            dsimp only
            rw [if_pos rfl]
            rw [arb_nextNonempty_none _ r.inbox _ hin]
            dsimp only
            exact setRes_quiet sim name r _ hr rfl rfl
              (by simp [RCore.inflightObs, hc])
              (by intro t; simp [RCore.idleAt, OtherCore.idleAt, hc])
          | some ap =>
            dsimp only
            have hq : (alGet r.inbox ap).getD [] = ([] : List Item) := by
              cases hgp : alGet r.inbox ap with
              | none => rfl
              | some q => exact hin (ap, q) (alGet_mem hgp)
            rw [hq]
            rw [if_pos (show List.isEmpty ([] : List Item) = true from rfl)]
            rw [arb_nextNonempty_none _ r.inbox _ hin]
            dsimp only
            exact setRes_quiet sim name r _ hr rfl rfl
              (by simp [RCore.inflightObs, hc])
              (by intro t; simp [RCore.idleAt, OtherCore.idleAt, hc])
      | some ch =>
        dsimp only
        by_cases hti : ch.transfer_mode = "interleaving"
        · rw [if_pos (decide_eq_true hti)]
          rw [if_pos hti]
          rw [arb_nextNonempty_none _ r.inbox _ hin]
          dsimp only
          have hget1 : alGet (sim.setRes name
              { r with core := RCore.other (.arbiter (a.cleanupInter sim.ticks)) }).resources
                name
              = some { r with core := RCore.other (.arbiter (a.cleanupInter sim.ticks)) } := by
            dsimp only [Sim.setRes]
            exact alGet_alSet_self _ _ _
          rw [hget1]
          dsimp only
          rw [show (ArbState.cleanupInter a sim.ticks).downstream = a.downstream from rfl, hdn]
          dsimp only
          exact setRes2_setActive_quiet sim name r _ _ dn _ hr rfl rfl
            (by simp [RCore.inflightObs, hc])
            (by intro t; simp [RCore.idleAt, OtherCore.idleAt, hc])
        · rw [if_neg (show ¬ (decide (ch.transfer_mode = "interleaving") = true)
            from by simp [hti])]
          rw [if_neg hti]
          rw [(cleanupBlocking_proj a sim.ticks).2.2.2.1]
          cases hap : a.active_port with
          | none =>
            dsimp only
            rw [if_pos rfl]
            rw [arb_nextNonempty_none _ r.inbox _ hin]
            dsimp only
            exact setRes_quiet sim name r _ hr rfl rfl
              (by simp [RCore.inflightObs, hc])
              (by intro t; simp [RCore.idleAt, OtherCore.idleAt, hc])
          | some ap =>
            dsimp only
            have hq : (alGet r.inbox ap).getD [] = ([] : List Item) := by
              cases hgp : alGet r.inbox ap with
              | none => rfl
              | some q => exact hin (ap, q) (alGet_mem hgp)
            rw [hq]
            rw [if_pos (show List.isEmpty ([] : List Item) = true from rfl)]
            rw [arb_nextNonempty_none _ r.inbox _ hin]
            dsimp only
            exact setRes_quiet sim name r _ hr rfl rfl
              (by simp [RCore.inflightObs, hc])
              (by intro t; simp [RCore.idleAt, OtherCore.idleAt, hc])

theorem tickResource_quiet (sim : Sim) (name : String) (hQ : sim.Quiet)
    (hI : ∀ nr ∈ sim.resources, RCore.idleAt sim.ticks nr.2.core = true) :
    (sim.tickResource name).qObs = sim.qObs
    ∧ (sim.tickResource name).links = sim.links
    ∧ (sim.tickResource name).ticks = sim.ticks
    ∧ ∀ t, (sim.tickResource name).idleObs t = sim.idleObs t := by
  unfold Sim.tickResource
  cases hr : alGet sim.resources name with
  | none => exact ⟨rfl, rfl, rfl, fun t => rfl⟩
  | some r =>
    dsimp only
    have hin : ∀ pq ∈ r.inbox, pq.2 = [] := (hQ.1 (name, r) (alGet_mem hr)).1
    have hidle : RCore.idleAt sim.ticks r.core = true := hI (name, r) (alGet_mem hr)
    cases hc : r.core with
    | memory m => exact memory_tick_quiet sim name hQ
    | channel c =>
      rw [channel_tick_quiet sim name (fun r' hr' => (hQ.1 (name, r') (alGet_mem hr')).1)]
      exact ⟨rfl, rfl, rfl, fun t => rfl⟩
    | semaphore s =>
      rw [semaphore_tick_quiet sim name (fun r' hr' => (hQ.1 (name, r') (alGet_mem hr')).1)]
      exact ⟨rfl, rfl, rfl, fun t => rfl⟩
    | other o =>
      rw [hc] at hidle
      simp only [RCore.idleAt] at hidle
      cases o with
      | generator g =>
        rw [generator_tick_quiet sim name r g hr hc hin hidle]
        exact ⟨rfl, rfl, rfl, fun t => rfl⟩
      | semClient c =>
        rw [semclient_tick_quiet sim name r c hr hc hin hidle]
        exact ⟨rfl, rfl, rfl, fun t => rfl⟩
      | semRecorder rc =>
        rw [semrecorder_tick_quiet sim name r rc hr hc hin hidle]
        exact ⟨rfl, rfl, rfl, fun t => rfl⟩
      | bufProducer p =>
        rw [bufproducer_tick_quiet sim name r p hr hc hidle]
        exact ⟨rfl, rfl, rfl, fun t => rfl⟩
      | bufConsumer c =>
        rw [bufconsumer_tick_quiet sim name r c hr hc hin hidle]
        exact ⟨rfl, rfl, rfl, fun t => rfl⟩
      | compute c =>
        rw [compute_tick_quiet sim name r c hr hc hin hidle]
        exact ⟨rfl, rfl, rfl, fun t => rfl⟩
      | pe p => exact pe_tick_quiet sim name r p hr hc hin hidle
      | bus b => exact bus_tick_quiet sim name r b hr hc hin
      | readBus b => exact readbus_tick_quiet sim name r b hr hc hin hidle
      | writeBus b => exact writebus_tick_quiet sim name r b hr hc hin hidle
      | arbiter a => exact arbiter_tick_quiet sim name r a hr hc hin

theorem resourcesPhase_quiet (names : List String) (sim : Sim) (hQ : sim.Quiet)
    (hI : ∀ nr ∈ sim.resources, RCore.idleAt sim.ticks nr.2.core = true) :
    (names.foldl Sim.tickResource sim).qObs = sim.qObs
    ∧ (names.foldl Sim.tickResource sim).links = sim.links
    ∧ (names.foldl Sim.tickResource sim).ticks = sim.ticks
    ∧ ∀ t, (names.foldl Sim.tickResource sim).idleObs t = sim.idleObs t := by
  induction names generalizing sim with
  | nil => exact ⟨rfl, rfl, rfl, fun t => rfl⟩
  | cons n ns ih =>
    have h1 := tickResource_quiet sim n hQ hI
    have hI1 : ∀ nr ∈ (sim.tickResource n).resources,
        RCore.idleAt (sim.tickResource n).ticks nr.2.core = true := by
      rw [h1.2.2.1]
      exact idleAll_of_obs_eq (h1.2.2.2 sim.ticks) hI
    have h2 := ih (sim.tickResource n) (quiet_of_qObs_eq h1.1 hQ) hI1
    exact ⟨h2.1.trans h1.1, h2.2.1.trans h1.2.1, h2.2.2.1.trans h1.2.2.1,
      fun t => (h2.2.2.2 t).trans (h1.2.2.2 t)⟩

theorem link_tick_idle (l0 : Link) (sim : Sim)
    (hout : ∀ nr ∈ sim.resources, ∀ pq ∈ nr.2.outbox, pq.2 = [])
    (hpe : ∀ st ∈ l0.pipeline, st = [])
    (hne : l0.pipeline ≠ []) :
    (Link.tick l0 sim).1.pipeline = l0.pipeline ∧ (Link.tick l0 sim).2 = sim := by
  obtain ⟨n, hn⟩ : ∃ n, l0.pipeline.length = n + 1 := by
    cases hp : l0.pipeline with
    | nil => exact absurd hp hne
    | cons a as => exact ⟨as.length, rfl⟩
  have hrepl : l0.pipeline = List.replicate (n + 1) [] := by
    rw [← hn]
    exact List.eq_replicate_of_mem hpe
  have hshift : ([] : List Item) :: l0.pipeline.dropLast = l0.pipeline := by
    rw [hrepl, List.replicate_succ', List.dropLast_concat, ← List.replicate_succ,
      ← List.replicate_succ']
  unfold Link.tick
  dsimp only
  by_cases hl : 1 ≤ l0.latency
  · rw [if_pos hl]
    have hlast : ((l0.pipeline.getLast?).getD []) = [] := by
      rw [hrepl, List.replicate_succ', List.getLast?_concat]
      rfl
    rw [hlast]
    dsimp only [Link.deliverAll]
    cases hr : alGet sim.resources l0.src with
    | none =>
      dsimp only
      exact ⟨hshift, rfl⟩
    | some r =>
      dsimp only
      cases hg : alGet r.outbox l0.src_port with
      | none =>
        dsimp only
        exact ⟨hshift, rfl⟩
      | some outq =>
        dsimp only
        have hq : outq = [] := hout (l0.src, r) (alGet_mem hr) (l0.src_port, outq) (alGet_mem hg)
        subst hq
        dsimp only [Link.pullLoop]
        rw [alSet_self hg]
        have hres : ({ r with outbox := r.outbox } : Res) = r := rfl
        rw [hres]
        unfold Sim.setRes
        rw [alSet_self hr]
        exact ⟨hshift, rfl⟩
  · rw [if_neg hl]
    cases hr : alGet sim.resources l0.src with
    | none => exact ⟨rfl, rfl⟩
    | some r =>
      dsimp only
      cases hg : alGet r.outbox l0.src_port with
      | none => exact ⟨rfl, rfl⟩
      | some outq =>
        dsimp only
        have hq : outq = [] := hout (l0.src, r) (alGet_mem hr) (l0.src_port, outq) (alGet_mem hg)
        subst hq
        dsimp only [Link.pullDeliver]
        rw [hr]
        dsimp only
        rw [alSet_self hg]
        have hres : ({ r with outbox := r.outbox } : Res) = r := rfl
        rw [hres]
        unfold Sim.setRes
        rw [alSet_self hr]
        exact ⟨rfl, rfl⟩

theorem linksFold_quiet (sim : Sim)
    (hout : ∀ nr ∈ sim.resources, ∀ pq ∈ nr.2.outbox, pq.2 = [])
    (links : List Link) (ls0 : List Link)
    (hp : ∀ l ∈ links, (∀ st ∈ l.pipeline, st = []) ∧ l.pipeline ≠ []) :
    (List.foldl Sim.linkStep (ls0, sim) links).2 = sim
    ∧ (List.foldl Sim.linkStep (ls0, sim) links).1.map (fun l => l.pipeline)
      = ls0.map (fun l => l.pipeline) ++ links.map (fun l => l.pipeline) := by
  induction links generalizing ls0 with
  | nil => exact ⟨rfl, by simp⟩
  | cons l ls ih =>
    dsimp only [List.foldl, Sim.linkStep]
    have h := link_tick_idle l sim hout (hp l (List.mem_cons_self l ls)).1
      (hp l (List.mem_cons_self l ls)).2
    rcases ht : Link.tick l sim with ⟨lq, sq⟩
    rw [ht] at h
    dsimp only
    have hsq : sq = sim := h.2
    subst hsq
    have hpi : lq.pipeline = l.pipeline := h.1
    obtain ⟨k2, k1⟩ := ih (ls0 ++ [lq]) (fun x hx => hp x (List.mem_cons_of_mem l hx))
    refine ⟨k2, ?_⟩
    rw [k1]
    simp [hpi]

theorem linksPhase_quiet (sim : Sim) (hQ : sim.Quiet)
    (hne : ∀ l ∈ sim.links, l.pipeline ≠ []) :
    (Sim.linksPhase sim).qObs = sim.qObs := by
  obtain ⟨k2, k1⟩ := linksFold_quiet sim (fun nr h => (hQ.1 nr h).2.1) sim.links []
    (fun l hl => ⟨hQ.2.1 l hl, hne l hl⟩)
  unfold Sim.linksPhase
  dsimp only [Sim.qObs]
  rw [k2, k1]
  simp

theorem pool_tick_noop (sim : Sim) (hp : sim.pool.expected_arrival = []) :
    Pool.tick sim = sim := by
  unfold Pool.tick
  rw [hp]
  rfl

theorem finalizePhase_qObs (sim : Sim) : (Sim.finalizePhase sim).qObs = sim.qObs := by
  unfold Sim.finalizePhase
  generalize sim.resources.map (fun nr => nr.1) = names
  induction names generalizing sim with
  | nil => rfl
  | cons n ns ih =>
    dsimp only [List.foldl]
    cases hr : alGet sim.resources n with
    | none =>
      dsimp only
      exact ih sim
    | some r =>
      dsimp only
      cases hc : r.core with
      | memory m =>
        dsimp only
        exact ih sim
      | semaphore s2 =>
        dsimp only
        exact ih sim
      | channel c =>
        dsimp only
        rw [ih]
        dsimp only [Sim.setRes, Sim.qObs]
        rw [map_alSet _ (fun nr => (nr.1, nr.2.qView)) hr
          (by simp [Res.qView, RCore.inflightObs, hc])]
      | other o =>
        cases o with
        | pe p =>
          dsimp only
          rw [ih]
          dsimp only [Sim.setRes, Sim.qObs]
          rw [map_alSet _ (fun nr => (nr.1, nr.2.qView)) hr
            (by simp [Res.qView, RCore.inflightObs, hc])]
        | compute c =>
          dsimp only
          rw [ih]
          dsimp only [Sim.setRes, Sim.qObs]
          rw [map_alSet _ (fun nr => (nr.1, nr.2.qView)) hr
            (by simp [Res.qView, RCore.inflightObs, hc])]
        | generator g => exact ih sim
        | semClient c => exact ih sim
        | semRecorder rc => exact ih sim
        | bufProducer p => exact ih sim
        | bufConsumer c => exact ih sim
        | bus b => exact ih sim
        | readBus b => exact ih sim
        | writeBus b => exact ih sim
        | arbiter a => exact ih sim

theorem quiet_of_flags (sim : Sim)
    (hq : sim.is_quiescent = true)
    (hm : ∀ nr ∈ sim.resources, nr.2.inflightEmpty = true)
    (hp : sim.pool.expected_arrival = []) :
    sim.Quiet := by
  unfold Sim.is_quiescent at hq
  simp only [Bool.and_eq_true, List.all_eq_true] at hq
  obtain ⟨hres, hlinks⟩ := hq
  refine ⟨?_, ?_, hp⟩
  · intro nr hmem
    have h1 := hres nr hmem
    simp only [Bool.and_eq_true, List.all_eq_true] at h1
    refine ⟨?_, ?_, ?_⟩
    · intro pq hpq
      exact List.isEmpty_iff.mp (h1.1 pq hpq)
    · intro pq hpq
      exact List.isEmpty_iff.mp (h1.2 pq hpq)
    · intro m hcm
      have h2 := hm nr hmem
      unfold Res.inflightEmpty at h2
      rw [hcm] at h2
      exact List.isEmpty_iff.mp h2
  · intro l hl st hst
    have h3 := hlinks l hl
    simp only [List.all_eq_true] at h3
    exact List.isEmpty_iff.mp (h3 st hst)

theorem tickTail_qObs (s : Sim) (t : Nat) (mt : Metrics)
    (hp : s.pool.expected_arrival = []) :
    (Sim.finalizePhase (Pool.tick ({
        resources := s.resources
        links := s.links
        ticks := t
        metrics := mt
        pool := s.pool
        next_id := s.next_id } : Sim))).qObs = s.qObs := by
  have hp4 : ({
      resources := s.resources
      links := s.links
      ticks := t
      metrics := mt
      pool := s.pool
      next_id := s.next_id } : Sim).pool.expected_arrival = [] := hp
  rw [finalizePhase_qObs, pool_tick_noop _ hp4]
  rfl

/-- Claim C1, counterexample part: `exSimPending` is quiescent by
`is_quiescent` (all queues and pipeline stages empty), yet the very
next `Simulator.tick` changes observable state — the memory's pending
inflight response is emitted into its out-queue and leaves the inflight
list. -/
theorem quiescence_counterexample :
    exSimPending.is_quiescent = true
    ∧ ¬ (Sim.tick exSimPending).qObs = exSimPending.qObs := by decide

/-- Claim C1 (corrected): quiescence as computed by `is_quiescent`
(empty port queues and link pipeline stages) does not by itself make a
tick a no-op, because a memory's pending inflight responses and the
pool's due expected arrivals fire regardless (see the counterexample) —
and likewise the internally scheduled resources (generators, semaphore
clients/recorders, buffer producers/consumers, compute units), a busy
or backpressured processing element, and the buses' internal pipelines
(all invisible to `is_quiescent`) can produce queue or pool changes.
When additionally every memory's inflight list is empty, no expected
arrival is pending, and every resource is idle in the sense of
`RCore.idleAt` — its production/issue schedule exhausted or not yet
due, no scheduled consume due, its state machine at rest and its
internal pipelines empty (link pipelines being non-empty is guaranteed
by the `Link` constructor, which builds `max(1, latency)` stages) —
`Simulator.tick` changes no port queue, no link pipeline stage, no
memory inflight response list, and no buffer-pool state. -/
theorem quiescence_stable (sim : Sim)
    (hq : sim.is_quiescent = true)
    (hm : ∀ nr ∈ sim.resources, nr.2.inflightEmpty = true)
    (hp : sim.pool.expected_arrival = [])
    (hl : ∀ l ∈ sim.links, l.pipeline ≠ [])
    (hi : ∀ nr ∈ sim.resources, RCore.idleAt sim.ticks nr.2.core = true) :
    (Sim.tick sim).qObs = sim.qObs := by
  have hQ : sim.Quiet := quiet_of_flags sim hq hm hp
  have h1 := resourcesPhase_quiet (sim.resources.map (fun nr => nr.1)) sim hQ hi
  have hQ1 : ((sim.resources.map (fun nr => nr.1)).foldl Sim.tickResource sim).Quiet :=
    quiet_of_qObs_eq h1.1 hQ
  have h2 : (Sim.linksPhase
        ((sim.resources.map (fun nr => nr.1)).foldl Sim.tickResource sim)).qObs
      = ((sim.resources.map (fun nr => nr.1)).foldl Sim.tickResource sim).qObs :=
    linksPhase_quiet _ hQ1 (by rw [h1.2.1]; exact hl)
  have hQ2 := quiet_of_qObs_eq h2 hQ1
  unfold Sim.tick
  dsimp only
  rw [tickTail_qObs _ _ _ hQ2.2.2]
  exact h2.trans h1.1

theorem quiescence_stable_witness :
    (exSimIdle.is_quiescent = true
      ∧ (∀ nr ∈ exSimIdle.resources, nr.2.inflightEmpty = true)
      ∧ exSimIdle.pool.expected_arrival = []
      ∧ (∀ l ∈ exSimIdle.links, l.pipeline ≠ [])
      ∧ ∀ nr ∈ exSimIdle.resources, RCore.idleAt exSimIdle.ticks nr.2.core = true)
    ∧ (Sim.tick exSimIdle).qObs = exSimIdle.qObs :=
  ⟨⟨by decide, by decide, by decide, by decide, by decide⟩,
    quiescence_stable exSimIdle (by decide) (by decide) (by decide) (by decide) (by decide)⟩

theorem arbiter_interleaving_expected_bound_witness :
    exArb.inputs ≠ [] ∧
    ((exArb.tickInterleaving exChan {} 3).1.ExpectedBound exChan.latency 3
    ∧ ∀ nxt e, e ∈ ((exArb.tickInterleaving exChan {} 3).1.cleanupInterleaving nxt).active →
        nxt < e.expected) :=
  ⟨by decide, arbiter_interleaving_expected_bound exArb exChan {} 3 (by decide)
    (by simp [ArbCore.StartsLe, exArb]) (by simp [ArbCore.LatInv, exArb])⟩

end ArchSim
